import Mathlib

/-!
# Test utilities of the nnet3 setup (`src/nnet3/nnet-test-utils.cc`)

A shallow embedding of the config-sequence generators, of the dispatcher
`GenerateConfigSequence` and of `GenerateSimpleNnetTrainingExample`, with the
properties their specification states about them.

The pseudorandom generator of the process is a piece of state that every call of
`Rand()`, `RandInt(lo, hi)` and `RandUniform()` advances.  It is embedded as the
sequences of results the coming calls will return, one sequence for each of these
functions, so that a statement about "every sequence of random draws" is a statement
about every `RandomState`: whatever the generator does, the results of the calls of each
function form one such sequence.
-/

namespace kaldi.nnet3

/-! ## The random generator -/

/-- The state of the process-wide random generator: `rand k` is what the `k`-th coming call
of `Rand()` returns, `randInt k lo hi` what the `k`-th coming call of `RandInt` returns when it
is called as `RandInt(lo, hi)`, `randUniform k` what the `k`-th coming call of `RandUniform()`
returns, `randn k` the `k`-th coming normal deviate that `SetRandn()` writes.  A finite
floating-point value is the rational number it stands for. -/
structure RandomState where
  rand : Nat → Nat
  randInt : Nat → Int → Int → Int
  randUniform : Nat → ℚ
  randn : Nat → ℚ

/-- The call `Rand()`: a non-negative integer, and the generator moves on. -/
def Rand (g : RandomState) : Nat × RandomState :=
  (g.rand 0, { g with rand := fun k => g.rand (k + 1) })

/-- The call `RandInt(lo, hi)`, and the generator moves on. -/
def RandInt (lo hi : Int) (g : RandomState) : Int × RandomState :=
  (g.randInt 0 lo hi, { g with randInt := fun k => g.randInt (k + 1) })

/-- The call `RandUniform()`, and the generator moves on. -/
def RandUniform (g : RandomState) : ℚ × RandomState :=
  (g.randUniform 0, { g with randUniform := fun k => g.randUniform (k + 1) })

/-- The generator after `n` further calls of `Rand()`. -/
def RandomState.afterRand (g : RandomState) (n : Nat) : RandomState :=
  { g with rand := fun k => g.rand (k + n) }

/-- The generator after `n` further calls of `RandInt`. -/
def RandomState.afterRandInt (g : RandomState) (n : Nat) : RandomState :=
  { g with randInt := fun k => g.randInt (k + n) }

/-- The contract of `RandInt`: called with `lo ≤ hi` it returns a value in `[lo, hi]`. -/
def RandomState.RandIntInRange (g : RandomState) : Prop :=
  ∀ k lo hi, lo ≤ hi → lo ≤ g.randInt k lo hi ∧ g.randInt k lo hi ≤ hi

/-- The contract of `RandUniform`: it returns a value in `[0, 1]`. -/
def RandomState.RandUniformInRange (g : RandomState) : Prop :=
  ∀ k, 0 ≤ g.randUniform k ∧ g.randUniform k ≤ 1

/-- The contracts of `RandInt` and `RandUniform` together. -/
def RandomState.Contracts (g : RandomState) : Prop :=
  g.RandIntInRange ∧ g.RandUniformInRange

/-- A generator whose every `Rand()` is `r`, whose every `RandInt(lo, hi)` is `lo + d` and whose
every `RandUniform()` is `u`. -/
def RandomState.const (r : Nat) (d : Int) (u : ℚ) : RandomState :=
  { rand := fun _ => r, randInt := fun _ lo _ => lo + d, randUniform := fun _ => u,
    randn := fun _ => 0 }

/-- The generator whose calls of `Rand()` return the entries of `rs` in turn, whose calls of
`RandInt(lo, hi)` return those of `ds` and whose calls of `RandUniform()` return those of `us`;
past the end of a list the results are `0`, `lo` and `0`; every normal deviate is `0`. -/
def RandomState.ofLists (rs : List Nat) (ds : List Int) (us : List ℚ) : RandomState :=
  { rand := fun k => rs.getD k 0,
    randInt := fun k lo _ => ds.getD k lo,
    randUniform := fun k => us.getD k 0,
    randn := fun _ => 0 }

/-! ## Machine numbers

An `int32` holds the integers from `-2^31` to `2^31 - 1`; a sum of two `int32` beyond that
range is a signed overflow, which has no defined behaviour.

`BaseFloat` is `float` (IEEE 754 binary32) unless Kaldi is built with
`KALDI_DOUBLEPRECISION`.  A finite `BaseFloat` value is the rational number it stands for; an
operation gives the exact result rounded to `BaseFloat`, and this rounding is a parameter
`rnd` of the code that computes with `BaseFloat`. -/

/-- The greatest `int32`. -/
def int32Max : Int := 2147483647

/-- The contract of a rounding `rnd` to `BaseFloat` on `[0, 1]`: `0` and `1` are `BaseFloat`
values, a value that is already rounded is left as it is, rounding keeps the order, and it
errs by at most `eps` (for `float`, rounded to nearest, `2^-25`). -/
def BaseFloatRounding (rnd : ℚ → ℚ) (eps : ℚ) : Prop :=
  rnd 0 = 0 ∧ rnd 1 = 1
    ∧ (∀ x y, 0 ≤ x → x ≤ y → y ≤ 1 → rnd x ≤ rnd y)
    ∧ (∀ x, 0 ≤ x → x ≤ 1 → rnd (rnd x) = rnd x)
    ∧ (∀ x, 0 ≤ x → x ≤ 1 → |rnd x - x| ≤ eps)

/-- The integer nearest to `x`, the even one of the two when `x` is half way between them. -/
def roundHalfEven (x : ℚ) : Int :=
  let f := ⌊x⌋
  if x - f < 1 / 2 then f
  else if 1 / 2 < x - f then f + 1
  else if f % 2 = 0 then f else f + 1

/-- The multiple of `2 ^ (e - 23)` nearest to `a`, the even multiple when `a` is half way: the
rounding to 24 significant bits of a value of binary exponent `e`. -/
def roundAtExponent (e : Int) (a : ℚ) : ℚ :=
  (roundHalfEven (a / 2 ^ (e - 23)) : ℚ) * 2 ^ (e - 23)

/-- The binary exponent at which `float` holds a positive value `a`: the exponent of `a`, and
`-126` for the subnormal values. -/
def binary32Exponent (a : ℚ) : Int := max (Int.log 2 a) (-126)

/-- The rounding of a real to `float` (IEEE 754 binary32, round to nearest, ties to even), for
the values whose rounding is finite, those of magnitude below `2^128 - 2^103`; beyond them
`float` has the infinities, which are not rationals. -/
def roundBinary32 (x : ℚ) : ℚ :=
  if x = 0 then 0
  else if x < 0 then -roundAtExponent (binary32Exponent |x|) |x|
  else roundAtExponent (binary32Exponent |x|) |x|

/-- The operations of `BaseFloat` that `NnetParametersAreIdentical` uses, on a type `F` of
`BaseFloat` values, which may hold infinities and NaN: `a < b`, `a - b` and `a * b`. -/
structure BaseFloatOps (F : Type) where
  lt : F → F → Bool
  sub : F → F → F
  mul : F → F → F

/-- The call `std::max(a, b)`: `b` when `a < b`, and `a` otherwise. -/
def BaseFloatOps.max {F : Type} (ops : BaseFloatOps F) (a b : F) : F :=
  if ops.lt a b then b else a

/-- The call `std::min(a, b)`: `b` when `b < a`, and `a` otherwise. -/
def BaseFloatOps.min {F : Type} (ops : BaseFloatOps F) (a b : F) : F :=
  if ops.lt b a then b else a

/-- The operations of `BaseFloat` on finite values, with the rounding `rnd`: the comparison is
that of the rationals, the difference and the product are the exact ones, rounded. -/
def roundedOps (rnd : ℚ → ℚ) : BaseFloatOps ℚ :=
  { lt := fun a b => decide (a < b),
    sub := fun a b => rnd (a - b),
    mul := fun a b => rnd (a * b) }

/-! ## Counted loops -/

/-- The loop `for (i = i0; ...; i++) body`, run for `n` iterations from `i = i0`. -/
def forLoop {σ : Type} (body : Int → σ → σ) : Nat → Int → σ → σ
  | 0, _, s => s
  | n + 1, i, s => forLoop body n (i + 1) (body i s)

/-- The loop `for (i = lo; i < hi; i++) body`. -/
def forRange {σ : Type} (lo hi : Int) (body : Int → σ → σ) (s : σ) : σ :=
  forLoop body (hi - lo).toNat lo s

/-! ## Generation options -/

/-- The options of the generators (`NnetGenerationOptions` of `nnet-test-utils.h`). -/
structure NnetGenerationOptions where
  allow_context : Bool
  allow_nonlinearity : Bool
  allow_recursion : Bool
  allow_final_nonlinearity : Bool
  deriving DecidableEq, Repr

/-! ## The four generators -/

/-- Lines 31-47: a single affine component, no nonlinearity, no splicing. -/
def GenerateConfigSequenceSimplest (_opts : NnetGenerationOptions) (configs : List String)
    (g : RandomState) : List String × RandomState :=
  let os := ""
  let (r, g) := Rand g
  let input_dim := 10 + r % 20
  let (r, g) := Rand g
  let output_dim := 100 + r % 200
  let os := os ++ "component name=affine1 type=AffineComponent input-dim="
    ++ toString input_dim ++ " output-dim=" ++ toString output_dim ++ "\n"
  let os := os ++ "input-node name=input dim=" ++ toString input_dim ++ "\n"
  let os := os ++ "component-node name=affine1_node component=affine1 input=input\n"
  let os := os ++ "output-node name=output input=affine1_node\n"
  (configs ++ [os], g)

/-- Lines 57-58: the body of the loop over `i`, on the pair of `splice_context` and the
generator. -/
def spliceStep (i : Int) (st : List Int × RandomState) : List Int × RandomState :=
  let (r, g) := Rand st.2
  if r % 3 = 0 then (st.1 ++ [i], g) else (st.1, g)

/-- Lines 55-60 (the same at 93-98 and 164-169): the random splice context. -/
def GenerateSpliceContext (g : RandomState) : List Int × RandomState :=
  let splice_context : List Int := []
  let (splice_context, g) := forRange (-5) 4 spliceStep (splice_context, g)
  let splice_context := if splice_context.isEmpty then splice_context ++ [0] else splice_context
  (splice_context, g)

/-- Lines 72-77 (the same at 124-129 and 188-193): the terms of `Append(...)`, written by a
loop over the positions `i` of `splice_context`; `rest` is what is left of the list from
position `i` on. -/
def writeSpliceTerms (size : Nat) : Nat → List Int → String → String
  | _, [], os => os
  | i, offset :: rest, os =>
    let os := os ++ "Offset(input, " ++ toString offset ++ ")"
    let os := if i + 1 < size then os ++ ", " else os
    writeSpliceTerms size (i + 1) rest os

/-- Lines 50-81: context and an affine component, but no nonlinearity. -/
def GenerateConfigSequenceSimpleContext (_opts : NnetGenerationOptions) (configs : List String)
    (g : RandomState) : List String × RandomState :=
  let os := ""
  let (splice_context, g) := GenerateSpliceContext g
  let (r, g) := Rand g
  let input_dim := 10 + r % 20
  let spliced_dim := input_dim * splice_context.length
  let (r, g) := Rand g
  let output_dim := 100 + r % 200
  let os := os ++ "component name=affine1 type=AffineComponent input-dim="
    ++ toString spliced_dim ++ " output-dim=" ++ toString output_dim ++ "\n"
  let os := os ++ "input-node name=input dim=" ++ toString input_dim ++ "\n"
  let os := os ++ "component-node name=affine1_node component=affine1 input=Append("
  let os := writeSpliceTerms splice_context.length 0 splice_context os
  let os := os ++ ")\n"
  let os := os ++ "output-node name=output input=affine1_node\n"
  (configs ++ [os], g)

/-- Lines 88-155: one input, splicing and one hidden layer; sometimes a second config that adds
a new hidden layer. -/
def GenerateConfigSequenceSimple (opts : NnetGenerationOptions) (configs : List String)
    (g : RandomState) : List String × RandomState :=
  let os := ""
  let (splice_context, g) := GenerateSpliceContext g
  let (r, g) := Rand g
  let input_dim := 10 + r % 20
  let spliced_dim := input_dim * splice_context.length
  let (r, g) := Rand g
  let output_dim := 100 + r % 200
  let (r, g) := Rand g
  let hidden_dim := 40 + r % 50
  -- `&&` evaluates `RandInt(0, 1)` only when `opts.allow_final_nonlinearity` holds
  let (use_final_nonlinearity, g) :=
    if opts.allow_final_nonlinearity then
      let (d, g) := RandInt 0 1 g
      (decide (d = 0), g)
    else (false, g)
  let os := os ++ "component name=affine1 type=NaturalGradientAffineComponent input-dim="
    ++ toString spliced_dim ++ " output-dim=" ++ toString hidden_dim ++ "\n"
  let os := os ++ "component name=relu1 type=RectifiedLinearComponent dim="
    ++ toString hidden_dim ++ "\n"
  let os := os ++ "component name=final_affine type=NaturalGradientAffineComponent input-dim="
    ++ toString hidden_dim ++ " output-dim=" ++ toString output_dim ++ "\n"
  let (os, g) :=
    if use_final_nonlinearity then
      let (r, g) := Rand g
      if r % 2 = 0 then
        (os ++ "component name=logsoftmax type=SoftmaxComponent dim="
          ++ toString output_dim ++ "\n", g)
      else
        (os ++ "component name=logsoftmax type=LogSoftmaxComponent dim="
          ++ toString output_dim ++ "\n", g)
    else (os, g)
  let os := os ++ "input-node name=input dim=" ++ toString input_dim ++ "\n"
  let os := os ++ "component-node name=affine1_node component=affine1 input=Append("
  let os := writeSpliceTerms splice_context.length 0 splice_context os
  let os := os ++ ")\n"
  let os := os ++ "component-node name=nonlin1 component=relu1 input=affine1_node\n"
  let os := os ++ "component-node name=final_affine component=final_affine input=nonlin1\n"
  let os :=
    if use_final_nonlinearity then
      let os := os
        ++ "component-node name=output_nonlin component=logsoftmax input=final_affine\n"
      os ++ "output-node name=output input=output_nonlin\n"
    else
      os ++ "output-node name=output input=final_affine\n"
  let configs := configs ++ [os]
  let (r, g) := Rand g
  if r % 2 = 0 then
    let os2 := ""
    let os2 := os2 ++ "component name=affine2 type=NaturalGradientAffineComponent input-dim="
      ++ toString hidden_dim ++ " output-dim=" ++ toString hidden_dim ++ "\n"
    let os2 := os2 ++ "component name=relu2 type=RectifiedLinearComponent dim="
      ++ toString hidden_dim ++ "\n"
    -- regenerate the final_affine component when we add the new config.
    let os2 := os2
      ++ "component name=final_affine type=NaturalGradientAffineComponent input-dim="
      ++ toString hidden_dim ++ " output-dim=" ++ toString output_dim ++ "\n"
    let os2 := os2 ++ "component-node name=affine2 component=affine2 input=nonlin1\n"
    let os2 := os2 ++ "component-node name=relu2 component=relu2 input=affine2\n"
    let os2 := os2 ++ "component-node name=final_affine component=final_affine input=relu2\n"
    (configs ++ [os2], g)
  else (configs, g)

/-- Lines 159-203: a single config corresponding to an RNN. -/
def GenerateConfigSequenceRnn (_opts : NnetGenerationOptions) (configs : List String)
    (g : RandomState) : List String × RandomState :=
  let os := ""
  let (splice_context, g) := GenerateSpliceContext g
  let (r, g) := Rand g
  let input_dim := 10 + r % 20
  let spliced_dim := input_dim * splice_context.length
  let (r, g) := Rand g
  let output_dim := 100 + r % 200
  let (r, g) := Rand g
  let hidden_dim := 40 + r % 50
  let os := os ++ "component name=affine1 type=NaturalGradientAffineComponent input-dim="
    ++ toString spliced_dim ++ " output-dim=" ++ toString hidden_dim ++ "\n"
  let os := os ++ "component name=nonlin1 type=RectifiedLinearComponent dim="
    ++ toString hidden_dim ++ "\n"
  let os := os
    ++ "component name=recurrent_affine1 type=NaturalGradientAffineComponent input-dim="
    ++ toString hidden_dim ++ " output-dim=" ++ toString hidden_dim ++ "\n"
  let os := os ++ "component name=affine2 type=NaturalGradientAffineComponent input-dim="
    ++ toString hidden_dim ++ " output-dim=" ++ toString output_dim ++ "\n"
  let os := os ++ "component name=logsoftmax type=LogSoftmaxComponent dim="
    ++ toString output_dim ++ "\n"
  let os := os ++ "input-node name=input dim=" ++ toString input_dim ++ "\n"
  let os := os ++ "component-node name=affine1_node component=affine1 input=Append("
  let os := writeSpliceTerms splice_context.length 0 splice_context os
  let os := os ++ ")\n"
  let os := os ++ ("component-node name=recurrent_affine1 component=recurrent_affine1 "
    ++ "input=Offset(nonlin1, -1)\n")
  let os := os ++ ("component-node name=nonlin1 component=nonlin1 "
    ++ "input=Sum(affine1_node, IfDefined(recurrent_affine1))\n")
  let os := os ++ "component-node name=affine2 component=affine2 input=nonlin1\n"
  let os := os ++ "component-node name=output_nonlin component=logsoftmax input=affine2\n"
  let os := os ++ "output-node name=output input=output_nonlin\n"
  (configs ++ [os], g)

/-! ## Training examples -/

/-- An index `(n, t, x)`. -/
structure Index where
  n : Int
  t : Int
  x : Int
  deriving DecidableEq, Repr

/-- A dense matrix `Matrix<BaseFloat>`, by rows. -/
structure Matrix where
  num_rows : Nat
  num_cols : Nat
  data : List (List ℚ)

/-- A posterior: for each frame a list of pairs of a class index and a probability. -/
abbrev Posterior := List (List (Int × ℚ))

/-- A `GeneralMatrix`: a full matrix, a compressed matrix (given by the matrix it
decompresses to), or the sparse matrix of a posterior, with its number of columns. -/
inductive GeneralMatrix where
  | full (m : Matrix)
  | compressed (m : Matrix)
  | sparse (dim : Int) (rows : Posterior)

/-- Modelled from the spec: `GeneralMatrix::Compress()`, which is not in the sources at hand;
a full matrix becomes compressed, `lossy` giving the matrix it decompresses to, and the other
kinds are left as they are. -/
def GeneralMatrix.Compress (lossy : Matrix → Matrix) : GeneralMatrix → GeneralMatrix
  | .full m => .compressed (lossy m)
  | .compressed m => .compressed m
  | .sparse dim rows => .sparse dim rows

/-- A block of an example (`NnetIo`): a name, the indexes of its rows, its features. -/
structure NnetIo where
  name : String
  indexes : List Index
  features : GeneralMatrix

/-- A training example (`NnetExample`): its blocks. -/
structure NnetExample where
  io : List NnetIo

/-- The indexes `(0, t_begin + i, 0)` for `i < num_rows`. -/
def timeIndexes (t_begin : Int) (num_rows : Nat) : List Index :=
  (List.range num_rows).map fun (i : Nat) => { n := 0, t := t_begin + (i : Int), x := 0 }

/-- Modelled from the spec: the constructor `NnetIo(name, t_begin, feats)`, which is not in the
sources at hand; a block of dense features whose rows are the times from the base time
offset `t_begin` on. -/
def NnetIo.ofMatrix (name : String) (t_begin : Int) (feats : Matrix) : NnetIo :=
  { name := name, indexes := timeIndexes t_begin feats.num_rows, features := .full feats }

/-- Modelled from the spec: the constructor `NnetIo(name, dim, t_begin, labels)`, which is not
in the sources at hand; a block of supervision with one row per frame of the posterior, the
times from the base time offset `t_begin` on. -/
def NnetIo.ofPosterior (name : String) (dim : Int) (t_begin : Int) (labels : Posterior) :
    NnetIo :=
  { name := name, indexes := timeIndexes t_begin labels.length, features := .sparse dim labels }

/-- A matrix of `num_rows` rows and `num_cols` columns after `SetRandn()`: its entries are the
coming normal deviates, row after row. -/
def SetRandn (num_rows num_cols : Nat) (g : RandomState) : Matrix × RandomState :=
  ({ num_rows := num_rows, num_cols := num_cols,
     data := (List.range num_rows).map fun r =>
       (List.range num_cols).map fun c => g.randn (r * num_cols + c) },
   { g with randn := fun k => g.randn (k + num_rows * num_cols) })

/-- The list `labels` after `labels[t]` has been extended by `items` at its end; nothing
changes when `t` is not a position of `labels`. -/
def appendAt : Posterior → Nat → List (Int × ℚ) → Posterior
  | [], _, _ => []
  | frame :: frames, 0, items => (frame ++ items) :: frames
  | frame :: frames, t + 1, items => frame :: appendAt frames t items

/-- Lines 471-475: the body of the loop over `i`, on the remaining probability mass, the
labels and the generator.  The product of line 471 is formed in `double`, where the product
of two `float` is exact, and rounded to `BaseFloat` when it is stored in `this_prob`; the
difference of line 473 is rounded to `BaseFloat`. -/
def labelStep (rnd : ℚ → ℚ) (output_dim num_labels t : Int) (i : Int)
    (st : ℚ × Posterior × RandomState) : ℚ × Posterior × RandomState :=
  let remaining_prob_mass := st.1
  let labels := st.2.1
  let g := st.2.2
  let ug := if i + 1 = num_labels then ((1 : ℚ), g) else RandUniform g
  let this_prob := rnd (ug.1 * remaining_prob_mass)
  let remaining_prob_mass := rnd (remaining_prob_mass - this_prob)
  let cg := RandInt 0 (output_dim - 1) ug.2
  (remaining_prob_mass, appendAt labels t.toNat [(cg.1, this_prob)], cg.2)

/-- Lines 468-476: the body of the loop over `t`, on the labels and the generator. -/
def frameStep (rnd : ℚ → ℚ) (output_dim : Int) (t : Int) (st : Posterior × RandomState) :
    Posterior × RandomState :=
  let ng := RandInt 1 3 st.2
  let num_labels := ng.1
  let remaining_prob_mass : ℚ := 1
  (forRange 0 num_labels (labelStep rnd output_dim num_labels t)
    (remaining_prob_mass, st.1, ng.2)).2

/-! ## The grammar of the configs

The generators write text.  What that text declares is read off a config given as a list of
lines of the config grammar (`component`, `input-node`, `component-node`, `output-node`) of
which the text is the rendering. -/

/-- An input descriptor: a node name, or `Offset`, `Append`, `Sum`, `IfDefined` of
descriptors. -/
inductive Descriptor where
  | node (name : String)
  | offset (d : Descriptor) (t : Int)
  | append (ds : List Descriptor)
  | sum (a b : Descriptor)
  | ifDefined (d : Descriptor)

/-- A line of a config. -/
inductive ConfigLine where
  | component (name kind : String) (input_dim output_dim : Nat)
  | componentDim (name kind : String) (dim : Nat)
  | inputNode (name : String) (dim : Nat)
  | componentNode (name comp : String) (input : Descriptor)
  | outputNode (name : String) (input : Descriptor)

mutual
/-- The text of a descriptor. -/
def Descriptor.render : Descriptor → String
  | .node name => name
  | .offset d t => "Offset(" ++ d.render ++ ", " ++ toString t ++ ")"
  | .append ds => "Append(" ++ Descriptor.renderList ds ++ ")"
  | .sum a b => "Sum(" ++ a.render ++ ", " ++ b.render ++ ")"
  | .ifDefined d => "IfDefined(" ++ d.render ++ ")"
/-- The text of a list of descriptors, separated by a comma and a blank. -/
def Descriptor.renderList : List Descriptor → String
  | [] => ""
  | [d] => d.render
  | d :: e :: ds => d.render ++ ", " ++ Descriptor.renderList (e :: ds)
end

/-- The text of a line, with its end of line. -/
def ConfigLine.render : ConfigLine → String
  | .component name kind input_dim output_dim =>
    "component name=" ++ name ++ " type=" ++ kind ++ " input-dim=" ++ toString input_dim
      ++ " output-dim=" ++ toString output_dim ++ "\n"
  | .componentDim name kind dim =>
    "component name=" ++ name ++ " type=" ++ kind ++ " dim=" ++ toString dim ++ "\n"
  | .inputNode name dim => "input-node name=" ++ name ++ " dim=" ++ toString dim ++ "\n"
  | .componentNode name comp input =>
    "component-node name=" ++ name ++ " component=" ++ comp ++ " input=" ++ input.render
      ++ "\n"
  | .outputNode name input => "output-node name=" ++ name ++ " input=" ++ input.render ++ "\n"

/-- The text of a config: its lines one after the other. -/
def renderConfig : List ConfigLine → String
  | [] => ""
  | l :: ls => l.render ++ renderConfig ls

/-- The number of ends of line in a text. -/
def newlines (s : String) : Nat := s.data.count '\n'

/-- The splice descriptor `Append(Offset(input, o1), Offset(input, o2), ...)`. -/
def spliceDescriptor (splice_context : List Int) : Descriptor :=
  .append (splice_context.map fun offset => .offset (.node "input") offset)

/-- What the config of `GenerateConfigSequenceSimplest` declares. -/
def simplestConfig (input_dim output_dim : Nat) : List ConfigLine :=
  [ .component "affine1" "AffineComponent" input_dim output_dim,
    .inputNode "input" input_dim,
    .componentNode "affine1_node" "affine1" (.node "input"),
    .outputNode "output" (.node "affine1_node") ]

/-- What the config of `GenerateConfigSequenceSimpleContext` declares. -/
def simpleContextConfig (splice_context : List Int) (input_dim output_dim : Nat) :
    List ConfigLine :=
  [ .component "affine1" "AffineComponent" (input_dim * splice_context.length) output_dim,
    .inputNode "input" input_dim,
    .componentNode "affine1_node" "affine1" (spliceDescriptor splice_context),
    .outputNode "output" (.node "affine1_node") ]

/-- What the first config of `GenerateConfigSequenceSimple` declares; `final` is the type of
the final nonlinearity when there is one. -/
def simpleConfig (splice_context : List Int) (input_dim output_dim hidden_dim : Nat)
    (final : Option String) : List ConfigLine :=
  [ .component "affine1" "NaturalGradientAffineComponent" (input_dim * splice_context.length)
      hidden_dim,
    .componentDim "relu1" "RectifiedLinearComponent" hidden_dim,
    .component "final_affine" "NaturalGradientAffineComponent" hidden_dim output_dim ]
  ++ (match final with
      | some kind => [.componentDim "logsoftmax" kind output_dim]
      | none => [])
  ++ [ .inputNode "input" input_dim,
    .componentNode "affine1_node" "affine1" (spliceDescriptor splice_context),
    .componentNode "nonlin1" "relu1" (.node "affine1_node"),
    .componentNode "final_affine" "final_affine" (.node "nonlin1") ]
  ++ (match final with
      | some _ =>
        [ .componentNode "output_nonlin" "logsoftmax" (.node "final_affine"),
          .outputNode "output" (.node "output_nonlin") ]
      | none => [.outputNode "output" (.node "final_affine")])

/-- What the second config of `GenerateConfigSequenceSimple`, the one that adds a hidden layer,
declares. -/
def simpleGrowthConfig (output_dim hidden_dim : Nat) : List ConfigLine :=
  [ .component "affine2" "NaturalGradientAffineComponent" hidden_dim hidden_dim,
    .componentDim "relu2" "RectifiedLinearComponent" hidden_dim,
    .component "final_affine" "NaturalGradientAffineComponent" hidden_dim output_dim,
    .componentNode "affine2" "affine2" (.node "nonlin1"),
    .componentNode "relu2" "relu2" (.node "affine2"),
    .componentNode "final_affine" "final_affine" (.node "relu2") ]

/-- What the config of `GenerateConfigSequenceRnn` declares. -/
def rnnConfig (splice_context : List Int) (input_dim output_dim hidden_dim : Nat) :
    List ConfigLine :=
  [ .component "affine1" "NaturalGradientAffineComponent" (input_dim * splice_context.length)
      hidden_dim,
    .componentDim "nonlin1" "RectifiedLinearComponent" hidden_dim,
    .component "recurrent_affine1" "NaturalGradientAffineComponent" hidden_dim hidden_dim,
    .component "affine2" "NaturalGradientAffineComponent" hidden_dim output_dim,
    .componentDim "logsoftmax" "LogSoftmaxComponent" output_dim,
    .inputNode "input" input_dim,
    .componentNode "affine1_node" "affine1" (spliceDescriptor splice_context),
    .componentNode "recurrent_affine1" "recurrent_affine1" (.offset (.node "nonlin1") (-1)),
    .componentNode "nonlin1" "nonlin1"
      (.sum (.node "affine1_node") (.ifDefined (.node "recurrent_affine1"))),
    .componentNode "affine2" "affine2" (.node "nonlin1"),
    .componentNode "output_nonlin" "logsoftmax" (.node "affine2"),
    .outputNode "output" (.node "output_nonlin") ]

/-- Whether `GenerateConfigSequenceSimple` uses a final nonlinearity: the flag is enabled and
the draw `RandInt(0, 1)` is 0. -/
def useFinalNonlinearity (opts : NnetGenerationOptions) (g : RandomState) : Bool :=
  opts.allow_final_nonlinearity && decide (g.randInt 0 0 1 = 0)

/-- The final nonlinearity of the first config of `GenerateConfigSequenceSimple`: none, or
the type chosen by the draw that follows the twelve draws of the context and dimensions. -/
def simpleFinal (opts : NnetGenerationOptions) (g : RandomState) : Option String :=
  if useFinalNonlinearity opts g then
    some (if g.rand 12 % 2 = 0 then "SoftmaxComponent" else "LogSoftmaxComponent")
  else none

/-- The position of the last draw of `Rand()` that `GenerateConfigSequenceSimple` makes. -/
def simpleLastDraw (opts : NnetGenerationOptions) (g : RandomState) : Nat :=
  if useFinalNonlinearity opts g then 13 else 12

/-! ## What a config declares -/

/-- The input and output dimension that the config declares for the component `c`; a
component declared with `dim=` has that dimension on both sides. -/
def componentDims : List ConfigLine → String → Option (Nat × Nat)
  | [], _ => none
  | .component name _ input_dim output_dim :: rest, c =>
    if name = c then some (input_dim, output_dim) else componentDims rest c
  | .componentDim name _ dim :: rest, c =>
    if name = c then some (dim, dim) else componentDims rest c
  | .inputNode _ _ :: rest, c => componentDims rest c
  | .componentNode _ _ _ :: rest, c => componentDims rest c
  | .outputNode _ _ :: rest, c => componentDims rest c

/-- The dimension of the node `n` among the lines `lines` of the config `cfg`: the declared
dimension of an input node, the output dimension of the component of a component node. -/
def nodeDimIn (cfg : List ConfigLine) : List ConfigLine → String → Option Nat
  | [], _ => none
  | .inputNode name dim :: rest, n => if name = n then some dim else nodeDimIn cfg rest n
  | .componentNode name comp _ :: rest, n =>
    if name = n then (componentDims cfg comp).map Prod.snd else nodeDimIn cfg rest n
  | .component _ _ _ _ :: rest, n => nodeDimIn cfg rest n
  | .componentDim _ _ _ :: rest, n => nodeDimIn cfg rest n
  | .outputNode _ _ :: rest, n => nodeDimIn cfg rest n

/-- The dimension of the node `n` of the config `cfg`. -/
def nodeDim (cfg : List ConfigLine) (n : String) : Option Nat := nodeDimIn cfg cfg n

mutual
/-- The dimension of a descriptor, for node dimensions `nd`: `Offset` and `IfDefined` keep the
dimension, `Append` adds the dimensions up, `Sum` needs both operands of one dimension. -/
def Descriptor.dim (nd : String → Option Nat) : Descriptor → Option Nat
  | .node name => nd name
  | .offset d _ => d.dim nd
  | .append ds => Descriptor.dimSum nd ds
  | .sum a b =>
    match a.dim nd, b.dim nd with
    | some x, some y => if x = y then some x else none
    | _, _ => none
  | .ifDefined d => d.dim nd
/-- The sum of the dimensions of the descriptors of a list. -/
def Descriptor.dimSum (nd : String → Option Nat) : List Descriptor → Option Nat
  | [] => some 0
  | d :: ds =>
    match d.dim nd, Descriptor.dimSum nd ds with
    | some x, some y => some (x + y)
    | _, _ => none
end

/-- Whether a line is dimensionally consistent in the config `cfg`: the input of a component
node has a dimension and it is the declared input dimension of its component; the input of an
output node has a dimension. -/
def lineConsistent (cfg : List ConfigLine) : ConfigLine → Bool
  | .componentNode _ comp input =>
    match componentDims cfg comp, input.dim (nodeDim cfg) with
    | some (input_dim, _), some x => decide (input_dim = x)
    | _, _ => false
  | .outputNode _ input => (input.dim (nodeDim cfg)).isSome
  | .component _ _ _ _ => true
  | .componentDim _ _ _ => true
  | .inputNode _ _ => true

/-- Whether every line of a config is dimensionally consistent. -/
def dimsConsistent (cfg : List ConfigLine) : Bool := cfg.all (lineConsistent cfg)

mutual
/-- The node names a descriptor refers to. -/
def Descriptor.nodeNames : Descriptor → List String
  | .node name => [name]
  | .offset d _ => d.nodeNames
  | .append ds => Descriptor.nodeNamesList ds
  | .sum a b => a.nodeNames ++ b.nodeNames
  | .ifDefined d => d.nodeNames
/-- The node names the descriptors of a list refer to. -/
def Descriptor.nodeNamesList : List Descriptor → List String
  | [] => []
  | d :: ds => d.nodeNames ++ Descriptor.nodeNamesList ds
end

/-- The uses of a component that no earlier line declares, as pairs of the name of the
component node and the name of the component; `declared` are the components declared so far. -/
def undeclaredComponentUses : List String → List ConfigLine → List (String × String)
  | _, [] => []
  | declared, .component name _ _ _ :: rest => undeclaredComponentUses (name :: declared) rest
  | declared, .componentDim name _ _ :: rest => undeclaredComponentUses (name :: declared) rest
  | declared, .componentNode name comp _ :: rest =>
    (if declared.contains comp then [] else [(name, comp)])
      ++ undeclaredComponentUses declared rest
  | declared, .inputNode _ _ :: rest => undeclaredComponentUses declared rest
  | declared, .outputNode _ _ :: rest => undeclaredComponentUses declared rest

/-- The uses of a node name, in the input of a component node or output node, that no
earlier input-node or component-node line declares, as pairs of the name of the line and the
node name used; `declared` are the nodes declared so far. -/
def undeclaredNodeUses : List String → List ConfigLine → List (String × String)
  | _, [] => []
  | declared, .inputNode name _ :: rest => undeclaredNodeUses (name :: declared) rest
  | declared, .componentNode name _ input :: rest =>
    ((input.nodeNames.filter fun n => !declared.contains n).map fun n => (name, n))
      ++ undeclaredNodeUses (name :: declared) rest
  | declared, .outputNode name input :: rest =>
    ((input.nodeNames.filter fun n => !declared.contains n).map fun n => (name, n))
      ++ undeclaredNodeUses declared rest
  | declared, .component _ _ _ _ :: rest => undeclaredNodeUses declared rest
  | declared, .componentDim _ _ _ :: rest => undeclaredNodeUses declared rest

/-- The names of the nodes that the lines declare, in order. -/
def declaredNodes : List ConfigLine → List String
  | [] => []
  | .inputNode name _ :: rest => name :: declaredNodes rest
  | .componentNode name _ _ :: rest => name :: declaredNodes rest
  | .outputNode _ _ :: rest => declaredNodes rest
  | .component _ _ _ _ :: rest => declaredNodes rest
  | .componentDim _ _ _ :: rest => declaredNodes rest

/-- The types of the components that the lines declare, in order. -/
def componentTypes : List ConfigLine → List String
  | [] => []
  | .component _ kind _ _ :: rest => kind :: componentTypes rest
  | .componentDim _ kind _ :: rest => kind :: componentTypes rest
  | .inputNode _ _ :: rest => componentTypes rest
  | .componentNode _ _ _ :: rest => componentTypes rest
  | .outputNode _ _ :: rest => componentTypes rest

/-- The inputs of the output nodes that the lines declare, as text. -/
def outputInputs : List ConfigLine → List String
  | [] => []
  | .outputNode _ input :: rest => input.render :: outputInputs rest
  | .component _ _ _ _ :: rest => outputInputs rest
  | .componentDim _ _ _ :: rest => outputInputs rest
  | .inputNode _ _ :: rest => outputInputs rest
  | .componentNode _ _ _ :: rest => outputInputs rest

/-- The component nodes that the lines declare, as pairs of the name of the node and the text
of its input. -/
def componentNodeInputs : List ConfigLine → List (String × String)
  | [] => []
  | .componentNode name _ input :: rest => (name, input.render) :: componentNodeInputs rest
  | .component _ _ _ _ :: rest => componentNodeInputs rest
  | .componentDim _ _ _ :: rest => componentNodeInputs rest
  | .inputNode _ _ :: rest => componentNodeInputs rest
  | .outputNode _ _ :: rest => componentNodeInputs rest

/-! ## The dispatcher -/

/-- How a call ends: it returns, it stops the process (`KALDI_ERR`, a failed `KALDI_ASSERT`),
it is still inside its retry loop after the number of passes it was given, or it reaches an
operation whose behaviour C++ leaves undefined (the overflow of a signed integer). -/
inductive Outcome (α : Type) where
  | returned (a : α)
  | fatal (msg : String)
  | looping
  | undefined (msg : String)

/-- Lines 206-234.  The label `start` with its `goto` is a loop; the first argument bounds the
number of passes through `start`, a pass being one draw of `network_type`. -/
def GenerateConfigSequence (opts : NnetGenerationOptions) :
    Nat → List String → RandomState → Outcome (List String × RandomState)
  | 0, _, _ => .looping
  | passes + 1, configs, g =>
    let (network_type, g) := RandInt 0 3 g
    if network_type = 0 then
      .returned (GenerateConfigSequenceSimplest opts configs g)
    else if network_type = 1 then
      if !opts.allow_context then
        GenerateConfigSequence opts passes configs g
      else
        .returned (GenerateConfigSequenceSimpleContext opts configs g)
    else if network_type = 2 then
      if !opts.allow_context || !opts.allow_nonlinearity then
        GenerateConfigSequence opts passes configs g
      else
        .returned (GenerateConfigSequenceSimple opts configs g)
    else if network_type = 3 then
      if !opts.allow_recursion || !opts.allow_context || !opts.allow_nonlinearity then
        GenerateConfigSequence opts passes configs g
      else
        .returned (GenerateConfigSequenceRnn opts configs g)
    else
      .fatal "Error generating config sequence."

/-! ## The training-example synthesizer -/

/-- Lines 432-483.  The pointer `example` is `eg`, `none` when it is null; `rnd` is the rounding
to `BaseFloat`; `lossy` gives what a matrix decompresses to after `Compress()`.  The arguments
are `int32`: the sum of line 446 overflows when it is above the greatest `int32`, and so does
the time `t_begin + i` of the last row of the block `input`, which the constructor of the
block computes; the later sums (line 478, the times of the block `output`) are not greater
than that time.  Memory is not bounded, and the matrix library, which is not in the sources
at hand, is taken to hold a matrix of any `int32` numbers of rows and columns. -/
def GenerateSimpleNnetTrainingExample (rnd : ℚ → ℚ) (lossy : Matrix → Matrix)
    (num_supervised_frames left_context right_context output_dim input_dim ivector_dim : Int)
    (eg : Option NnetExample) (g : RandomState) : Outcome (NnetExample × RandomState) :=
  if ¬ (num_supervised_frames > 0 ∧ left_context ≥ 0 ∧ right_context ≥ 0 ∧ output_dim > 0
      ∧ input_dim > 0 ∧ eg.isSome) then
    .fatal "KALDI_ASSERT: (num_supervised_frames > 0 && left_context >= 0 && right_context >= 0 && output_dim > 0 && input_dim > 0 && example != NULL)"
  else
    let io : List NnetIo := []
    let tg := RandInt 0 2 g
    let feature_t_begin := tg.1
    let num_feat_frames := left_context + right_context + num_supervised_frames
    if num_feat_frames > int32Max then
      .undefined "int32 overflow: left_context + right_context + num_supervised_frames"
    else
      let mg := SetRandn num_feat_frames.toNat input_dim.toNat tg.2
      if feature_t_begin + (num_feat_frames - 1) > int32Max then
        .undefined "int32 overflow: t_begin + i"
      else
        let input_feat := NnetIo.ofMatrix "input" feature_t_begin mg.1
        let dg := RandInt 0 1 mg.2
        let input_feat :=
          if dg.1 = 0 then { input_feat with features := input_feat.features.Compress lossy }
          else input_feat
        let io := io ++ [input_feat]
        let iog :=
          if ivector_dim > 0 then
            -- iVectors always have t=0 in the current framework.
            let mg := SetRandn 1 ivector_dim.toNat dg.2
            let ivector_feat := NnetIo.ofMatrix "ivector" 0 mg.1
            let dg := RandInt 0 1 mg.2
            let ivector_feat :=
              if dg.1 = 0 then
                { ivector_feat with features := ivector_feat.features.Compress lossy }
              else ivector_feat
            (io ++ [ivector_feat], dg.2)
          else (io, dg.2)
        -- set up the output supervision.
        let labels : Posterior := List.replicate num_supervised_frames.toNat []
        let lg := forRange 0 num_supervised_frames (frameStep rnd output_dim) (labels, iog.2)
        let supervision_t_begin := feature_t_begin + left_context
        let output_sup := NnetIo.ofPosterior "output" output_dim supervision_t_begin lg.1
        .returned ({ io := iog.1 ++ [output_sup] }, lg.2)

/-- A labelled frame: between 1 and 3 pairs, every class index in `[0, output_dim)`. -/
def labelledFrame (output_dim : Int) (frame : List (Int × ℚ)) : Prop :=
  1 ≤ frame.length ∧ frame.length ≤ 3 ∧ ∀ cp, cp ∈ frame → 0 ≤ cp.1 ∧ cp.1 < output_dim

/-- A supervised frame as the code leaves it: between 1 and 3 pairs, every class index in
`[0, output_dim)`, every probability in `[0, 1]`, and the probabilities summing to 1 up to the
roundings of the subtractions, one for each pair but the last, each of at most `eps`. -/
def goodFrame (eps : ℚ) (output_dim : Int) (frame : List (Int × ℚ)) : Prop :=
  1 ≤ frame.length ∧ frame.length ≤ 3
    ∧ (∀ cp, cp ∈ frame → 0 ≤ cp.1 ∧ cp.1 < output_dim ∧ 0 ≤ cp.2 ∧ cp.2 ≤ 1)
    ∧ |(frame.map Prod.snd).sum - 1| ≤ ((frame.length : ℚ) - 1) * eps

/-- The generator whose calls of `RandInt(lo, hi)` return the entries of `ds` in turn, each
brought into `[lo, hi]`, and `lo` past the end of `ds`, and whose every `RandUniform()` is
`u`; every other draw is `0`. -/
def RandomState.drawing (ds : List Int) (u : ℚ) : RandomState :=
  { rand := fun _ => 0,
    randInt := fun k lo hi => max lo (min hi (ds.getD k lo)),
    randUniform := fun _ => u,
    randn := fun _ => 0 }

/-! ## The words of the specification -/

/-- The prerequisites of the generator of network type `k` (0: none; 1: `allow_context`;
2: `allow_context` and `allow_nonlinearity`; 3: `allow_recursion`, `allow_context` and
`allow_nonlinearity`). -/
def prerequisites (opts : NnetGenerationOptions) (k : Int) : Bool :=
  if k = 0 then true
  else if k = 1 then opts.allow_context
  else if k = 2 then opts.allow_context && opts.allow_nonlinearity
  else if k = 3 then opts.allow_recursion && opts.allow_context && opts.allow_nonlinearity
  else false

/-- The generator of network type `k`: 0 `Simplest`, 1 `SimpleContext`, 2 `Simple`, 3 `Rnn`. -/
def generatorOfType (k : Int) :
    NnetGenerationOptions → List String → RandomState → List String × RandomState :=
  if k = 0 then GenerateConfigSequenceSimplest
  else if k = 1 then GenerateConfigSequenceSimpleContext
  else if k = 2 then GenerateConfigSequenceSimple
  else GenerateConfigSequenceRnn

/-- The `i`-th draw of a network type, `RandInt(0, 3)`. -/
def networkTypeDraw (g : RandomState) (i : Nat) : Int := g.randInt i 0 3

/-- The options with every capability flag disabled. -/
def allDisabled : NnetGenerationOptions :=
  { allow_context := false, allow_nonlinearity := false, allow_recursion := false,
    allow_final_nonlinearity := false }

/-- The options with recursion, context and nonlinearity enabled and the final nonlinearity
disabled. -/
def noFinalNonlinearity : NnetGenerationOptions :=
  { allow_context := true, allow_nonlinearity := true, allow_recursion := true,
    allow_final_nonlinearity := false }

/-- A generator whose nine draws for the splice context select the offset 0 alone, and whose
later draws of `Rand()` are all 0. -/
def contextZeroDraws : RandomState := RandomState.ofLists [1, 1, 1, 1, 1, 0, 1, 1, 1] [] []

/-- The offsets a splice context is drawn from. -/
def spliceOffsets : List Int := [-5, -4, -3, -2, -1, 0, 1, 2, 3]

/-- The offsets `i` in `[-5, 3]` whose draw, the `(i + 5)`-th, is divisible by 3. -/
def drawnOffsets (g : RandomState) : List Int :=
  spliceOffsets.filter fun i => g.rand (i + 5).toNat % 3 = 0

/-- The splice context of the specification: the drawn offsets, and `[0]` when there is
none. -/
def spliceContextOf (g : RandomState) : List Int :=
  if drawnOffsets g = [] then [0] else drawnOffsets g

/-! ## Networks and computation requests -/

/-- Modelled from the spec: a component as this file looks at it, the class `Component` not
being in the sources at hand; `typeName` is what `Type()` returns, `Properties` the bit mask
that `Properties()` returns, and `updatable` whether the component is an `UpdatableComponent`,
that is whether the `dynamic_cast` to that class gives a non-null pointer. -/
structure Component where
  typeName : String
  Properties : Nat
  updatable : Bool

/-- Modelled from the spec: the network abstraction, the class `Nnet` not being in the sources at
hand; it exposes whether the network is simple (`IsSimpleNnet`), the left and right context
that `ComputeSimpleNnetContext` computes, the per-name input dimension (`InputDim`, which is -1
for a name that is no input of the network), and the components by index. -/
structure Nnet where
  IsSimpleNnet : Bool
  left_context : Int
  right_context : Int
  InputDim : String → Int
  components : List Component

/-- Modelled from the spec: a named input or output of a computation request
(`IoSpecification`), the class not being in the sources at hand: a name, the indexes, and
whether a derivative is needed, which the constructor sets to false. -/
structure IoSpecification where
  name : String
  indexes : List Index
  has_deriv : Bool

/-- Modelled from the spec: a computation request (`ComputationRequest`), the class not being
in the sources at hand: named inputs and outputs, whether the model needs a derivative and
whether to accumulate statistics. -/
structure ComputationRequest where
  inputs : List IoSpecification
  outputs : List IoSpecification
  need_model_derivative : Bool
  store_component_stats : Bool

/-- The assignment `specs.back().has_deriv = true`. -/
def setBackHasDeriv : List IoSpecification → List IoSpecification
  | [] => []
  | [spec] => [{ spec with has_deriv := true }]
  | spec :: next :: rest => spec :: setBackHasDeriv (next :: rest)

/-- Lines 260-264: the body of the loop over `n`, on the triple of `input_indexes`,
`ivector_indexes` and `output_indexes`. -/
def requestIndexStep (input_start_frame input_end_frame output_start_frame
    output_end_frame : Int) (n : Int) (st : List Index × List Index × List Index) :
    List Index × List Index × List Index :=
  let input_indexes := forRange input_start_frame input_end_frame
    (fun t acc => acc ++ [({ n := n, t := t, x := 0 } : Index)]) st.1
  let output_indexes := forRange output_start_frame output_end_frame
    (fun t acc => acc ++ [({ n := n, t := t, x := 0 } : Index)]) st.2.2
  let ivector_indexes := st.2.1 ++ [({ n := n, t := 0, x := 0 } : Index)]
  (input_indexes, ivector_indexes, output_indexes)

/-- Lines 267-268: `if (need_deriv || (Rand() % 3 == 0)) outputs.back().has_deriv = true`;
`||` draws only when `need_deriv` is false. -/
def markOutputDeriv (need_deriv : Bool) (outputs : List IoSpecification) (g : RandomState) :
    List IoSpecification × RandomState :=
  if need_deriv then (setBackHasDeriv outputs, g)
  else if (Rand g).1 % 3 = 0 then (setBackHasDeriv outputs, (Rand g).2)
  else (outputs, (Rand g).2)

/-- Lines 270-271 and 283-284: `if (need_deriv && (Rand() % 2 == 0))
inputs.back().has_deriv = true`; `&&` draws only when `need_deriv` is true. -/
def markInputDeriv (need_deriv : Bool) (inputs : List IoSpecification) (g : RandomState) :
    List IoSpecification × RandomState :=
  if need_deriv then
    if (Rand g).1 % 2 = 0 then (setBackHasDeriv inputs, (Rand g).2)
    else (inputs, (Rand g).2)
  else (inputs, g)

/-- Lines 236-290.  The request and the matrices that the pointers `request` and `inputs` point
to come in and go out. -/
def ComputeExampleComputationRequestSimple (nnet : Nnet) (request : ComputationRequest)
    (_inputs : List Matrix) (g : RandomState) :
    Outcome (ComputationRequest × List Matrix × RandomState) :=
  if !nnet.IsSimpleNnet then .fatal "KALDI_ASSERT: IsSimpleNnet(nnet)"
  else
    let left_context := nnet.left_context
    let right_context := nnet.right_context
    let r0 := Rand g
    let num_output_frames : Int := 1 + ((r0.1 % 10 : Nat) : Int)
    let r1 := Rand r0.2
    let output_start_frame : Int := ((r1.1 % 10 : Nat) : Int)
    let r2 := Rand r1.2
    let num_examples : Int := 1 + ((r2.1 % 10 : Nat) : Int)
    let output_end_frame := output_start_frame + num_output_frames
    let r3 := Rand r2.2
    let input_start_frame := output_start_frame - left_context - ((r3.1 % 3 : Nat) : Int)
    let r4 := Rand r3.2
    let input_end_frame := output_end_frame + right_context + ((r4.1 % 3 : Nat) : Int)
    let r5 := Rand r4.2
    let n_offset : Int := ((r5.1 % 2 : Nat) : Int)
    let r6 := Rand r5.2
    let need_deriv : Bool := decide (r6.1 % 2 = 0)
    let request := { request with inputs := [], outputs := [] }
    let inputs : List Matrix := []
    let idx := forRange n_offset (n_offset + num_examples)
      (requestIndexStep input_start_frame input_end_frame output_start_frame output_end_frame)
      (([] : List Index), ([] : List Index), ([] : List Index))
    let input_indexes := idx.1
    let ivector_indexes := idx.2.1
    let output_indexes := idx.2.2
    let output_spec : IoSpecification :=
      { name := "output", indexes := output_indexes, has_deriv := false }
    let og := markOutputDeriv need_deriv (request.outputs ++ [output_spec]) r6.2
    let input_spec : IoSpecification :=
      { name := "input", indexes := input_indexes, has_deriv := false }
    let ig := markInputDeriv need_deriv (request.inputs ++ [input_spec]) og.2
    let input_dim := nnet.InputDim "input"
    if ¬ input_dim > 0 then .fatal "KALDI_ASSERT: input_dim > 0"
    else
      let mg := SetRandn ((input_end_frame - input_start_frame) * num_examples).toNat
        input_dim.toNat ig.2
      let inputs := inputs ++ [mg.1]
      let ivector_dim := nnet.InputDim "ivector"
      let vg : List IoSpecification × List Matrix × RandomState :=
        if ivector_dim ≠ -1 then
          let ivector_spec : IoSpecification :=
            { name := "ivector", indexes := ivector_indexes, has_deriv := false }
          let request_inputs := ig.1 ++ [ivector_spec]
          let mg := SetRandn num_examples.toNat ivector_dim.toNat mg.2
          let inputs := inputs ++ [mg.1]
          let vg := markInputDeriv need_deriv request_inputs mg.2
          (vg.1, inputs, vg.2)
        else (ig.1, inputs, mg.2)
      let ra := Rand vg.2.2
      let need_model_derivative :=
        if ra.1 % 2 = 0 then need_deriv else request.need_model_derivative
      let rb := Rand ra.2
      let store_component_stats :=
        if rb.1 % 2 = 0 then true else request.store_component_stats
      .returned
        ({ inputs := vg.1, outputs := og.1, need_model_derivative := need_model_derivative,
           store_component_stats := store_component_stats }, vg.2.1, rb.2)

/-! ## The random component config -/

/-- Lines 363-367: the body of the loop over `i`, on the text written so far and the
generator. -/
def sizesStep (num_groups : Int) (i : Int) (st : String × RandomState) : String × RandomState :=
  let r := RandInt 1 5 st.2
  let os := st.1 ++ toString r.1
  let os := if i + 1 < num_groups then os ++ "," else os
  (os, r.2)

/-- Lines 293-384: a component type and a config string for it. -/
def GenerateRandomComponentConfig (g : RandomState) : Outcome (String × String × RandomState) :=
  let ng := RandInt 0 13 g
  let n := ng.1
  let os := ""
  if n = 0 then
    let og := RandInt 1 50 ng.2
    let output_dim := og.1
    let gg := RandInt 1 15 og.2
    let group_size := gg.1
    let input_dim := output_dim * group_size
    .returned ("PnormComponent",
      os ++ "input-dim=" ++ toString input_dim ++ " output-dim=" ++ toString output_dim, gg.2)
  else if n = 1 then
    let d := RandInt 1 50 ng.2
    .returned ("NormalizeComponent", os ++ "dim=" ++ toString d.1, d.2)
  else if n = 2 then
    let d := RandInt 1 50 ng.2
    .returned ("SigmoidComponent", os ++ "dim=" ++ toString d.1, d.2)
  else if n = 3 then
    let d := RandInt 1 50 ng.2
    .returned ("TanhComponent", os ++ "dim=" ++ toString d.1, d.2)
  else if n = 4 then
    let d := RandInt 1 50 ng.2
    .returned ("RectifiedLinearComponent", os ++ "dim=" ++ toString d.1, d.2)
  else if n = 5 then
    let d := RandInt 1 50 ng.2
    .returned ("SoftmaxComponent", os ++ "dim=" ++ toString d.1, d.2)
  else if n = 6 then
    let d := RandInt 1 50 ng.2
    .returned ("LogSoftmaxComponent", os ++ "dim=" ++ toString d.1, d.2)
  else if n = 7 then
    let d := RandInt 1 50 ng.2
    .returned ("NoOpComponent", os ++ "dim=" ++ toString d.1, d.2)
  else if n = 8 then
    let ig := RandInt 1 50 ng.2
    let input_dim := ig.1
    let og := RandInt 1 50 ig.2
    let output_dim := og.1
    .returned ("FixedAffineComponent",
      os ++ "input-dim=" ++ toString input_dim ++ " output-dim=" ++ toString output_dim, og.2)
  else if n = 9 then
    let ig := RandInt 1 50 ng.2
    let input_dim := ig.1
    let og := RandInt 1 50 ig.2
    let output_dim := og.1
    .returned ("AffineComponent",
      os ++ "input-dim=" ++ toString input_dim ++ " output-dim=" ++ toString output_dim, og.2)
  else if n = 10 then
    let ig := RandInt 1 50 ng.2
    let input_dim := ig.1
    let og := RandInt 1 50 ig.2
    let output_dim := og.1
    .returned ("NaturalGradientAffineComponent",
      os ++ "input-dim=" ++ toString input_dim ++ " output-dim=" ++ toString output_dim, og.2)
  else if n = 11 then
    let cg := RandInt 1 50 ng.2
    let num_groups := cg.1
    let os := os ++ "sizes="
    let sg := forRange 0 num_groups (sizesStep num_groups) (os, cg.2)
    .returned ("SumGroupComponent", sg.1, sg.2)
  else if n = 12 then
    let d := RandInt 1 100 ng.2
    .returned ("FixedScaleComponent", os ++ "dim=" ++ toString d.1, d.2)
  else if n = 13 then
    let d := RandInt 1 100 ng.2
    .returned ("FixedBiasComponent", os ++ "dim=" ++ toString d.1, d.2)
  else .fatal "Error generating random component"

/-! ## The comparators -/

/-- Lines 407-428: the loop over the component index `c`, on the components of the two networks
from `c` on.  The dot products, the threshold and the test of line 421 are in `BaseFloat`,
with the operations `ops`. -/
def componentsIdentical {F : Type} (ops : BaseFloatOps F) (kUpdatableComponent : Nat)
    (DotProduct : Component → Component → F) (threshold : F) :
    List Component → List Component → Outcome Bool
  | [], _ => .returned true
  | _ :: _, [] => .fatal "GetComponent: no such component"
  | c1 :: rest1, c2 :: rest2 =>
    if c1.typeName ≠ c2.typeName then .fatal "KALDI_ASSERT: c1->Type() == c2->Type()"
    else if c1.Properties &&& kUpdatableComponent ≠ 0 then
      if ¬ (c1.updatable = true ∧ c2.updatable = true) then
        .fatal "KALDI_ASSERT: u1 != NULL && u2 != NULL"
      else
        let prod11 := DotProduct c1 c1
        let prod12 := DotProduct c1 c2
        let prod21 := DotProduct c2 c1
        let prod22 := DotProduct c2 c2
        let max_prod := ops.max (ops.max prod11 prod12) (ops.max prod21 prod22)
        let min_prod := ops.min (ops.min prod11 prod12) (ops.min prod21 prod22)
        if ops.lt (ops.mul threshold max_prod) (ops.sub max_prod min_prod) then .returned false
        else componentsIdentical ops kUpdatableComponent DotProduct threshold rest1 rest2
    else componentsIdentical ops kUpdatableComponent DotProduct threshold rest1 rest2

/-- Lines 402-430.  The flag `kUpdatableComponent` and the dot product of two updatable
components are those of the component library; `ops` are the operations of `BaseFloat`. -/
def NnetParametersAreIdentical {F : Type} (ops : BaseFloatOps F) (kUpdatableComponent : Nat)
    (DotProduct : Component → Component → F) (nnet1 nnet2 : Nnet) (threshold : F) :
    Outcome Bool :=
  if nnet1.components.length ≠ nnet2.components.length then
    .fatal "KALDI_ASSERT: nnet1.NumComponents() == nnet2.NumComponents()"
  else
    componentsIdentical ops kUpdatableComponent DotProduct threshold nnet1.components
      nnet2.components

/-- The entry of a matrix at row `r` and column `c`. -/
def Matrix.entry (m : Matrix) (r c : Nat) : ℚ := (m.data.getD r []).getD c 0

/-- The row of a sparse matrix of `dim` columns given by pairs of a column and a value: the
entry of a column is the sum of the values paired with it. -/
def sparseRow (dim : Nat) (pairs : List (Int × ℚ)) : List ℚ :=
  (List.range dim).map fun (c : Nat) =>
    ((pairs.filter fun cp => cp.1 = (c : Int)).map Prod.snd).sum

/-- Modelled from the spec: `GeneralMatrix::GetMatrix`, which is not in the sources at hand; the
decompressed contents as a dense matrix. -/
def GeneralMatrix.GetMatrix : GeneralMatrix → Matrix
  | .full m => m
  | .compressed m => m
  | .sparse dim rows =>
    { num_rows := rows.length, num_cols := dim.toNat,
      data := rows.map (sparseRow dim.toNat) }

/-- Modelled from the spec: `ApproxEqual` on matrices, which is not in the sources at hand; the
matrices are element-wise equal within the absolute tolerance `delta`. -/
def ApproxEqual (feat1 feat2 : Matrix) (delta : ℚ) : Bool :=
  decide (feat1.num_rows = feat2.num_rows ∧ feat1.num_cols = feat2.num_cols
    ∧ ∀ r, r < feat1.num_rows → ∀ c, c < feat1.num_cols →
        |feat1.entry r c - feat2.entry r c| ≤ delta)

/-- Lines 490-499: the loop over the block index `i`, on the blocks of the two examples from
`i` on. -/
def blocksApproxEqual (approxEqual : Matrix → Matrix → ℚ → Bool) (delta : ℚ) :
    List NnetIo → List NnetIo → Bool
  | [], _ => true
  | _ :: _, [] => false
  | io1 :: rest1, io2 :: rest2 =>
    if io1.name ≠ io2.name ∨ io1.indexes ≠ io2.indexes then false
    else
      let feat1 := io1.features.GetMatrix
      let feat2 := io2.features.GetMatrix
      if !approxEqual feat1 feat2 delta then false
      else blocksApproxEqual approxEqual delta rest1 rest2

/-- Lines 485-501; `approxEqual` is the comparison `ApproxEqual` of two matrices. -/
def ExampleApproxEqual (approxEqual : Matrix → Matrix → ℚ → Bool) (eg1 eg2 : NnetExample)
    (delta : ℚ) : Bool :=
  if eg1.io.length ≠ eg2.io.length then false
  else blocksApproxEqual approxEqual delta eg1.io eg2.io

/-- The number of rows of a `GeneralMatrix`. -/
def GeneralMatrix.NumRows (m : GeneralMatrix) : Nat := m.GetMatrix.num_rows

/-- The number of columns of a `GeneralMatrix`. -/
def GeneralMatrix.NumCols (m : GeneralMatrix) : Nat := m.GetMatrix.num_cols

/-- The fourteen component types of `GenerateRandomComponentConfig`, by value of `n`. -/
def componentTypeNames : List String :=
  ["PnormComponent", "NormalizeComponent", "SigmoidComponent", "TanhComponent",
    "RectifiedLinearComponent", "SoftmaxComponent", "LogSoftmaxComponent", "NoOpComponent",
    "FixedAffineComponent", "AffineComponent", "NaturalGradientAffineComponent",
    "SumGroupComponent", "FixedScaleComponent", "FixedBiasComponent"]

/-- The texts of a list, separated by commas. -/
def commaSeparated : List String → String
  | [] => ""
  | [a] => a
  | a :: b :: rest => a ++ "," ++ commaSeparated (b :: rest)

/-- The names and indexes of a list of inputs or outputs of a request. -/
def namesAndIndexes (specs : List IoSpecification) : List (String × List Index) :=
  specs.map fun spec => (spec.name, spec.indexes)

/-- The indexes `(n, t, 0)` for `n` in `[n_offset, n_offset + num_examples)` and, for each
`n`, `t` in `[t_begin, t_begin + num_frames)`, sequence after sequence. -/
def batchIndexes (n_offset : Int) (num_examples : Nat) (t_begin : Int) (num_frames : Nat) :
    List Index :=
  (List.range num_examples).flatMap fun (j : Nat) =>
    (List.range num_frames).map fun (k : Nat) =>
      ({ n := n_offset + (j : Int), t := t_begin + (k : Int), x := 0 } : Index)

/-- The number of output frames of a request: `1 + Rand() % 10`, on the first draw. -/
def requestNumOutputFrames (g : RandomState) : Nat := 1 + g.rand 0 % 10

/-- The first output frame of a request: `Rand() % 10`, on the second draw. -/
def requestOutputStart (g : RandomState) : Nat := g.rand 1 % 10

/-- The number of sequences of a request: `1 + Rand() % 10`, on the third draw. -/
def requestNumExamples (g : RandomState) : Nat := 1 + g.rand 2 % 10

/-- The first input frame of a request: the first output frame less the left context less
`Rand() % 3`, on the fourth draw. -/
def requestInputStart (nnet : Nnet) (g : RandomState) : Int :=
  (requestOutputStart g : Int) - nnet.left_context - ((g.rand 3 % 3 : Nat) : Int)

/-- The end of the input frames of a request: the end of the output frames plus the right
context plus `Rand() % 3`, on the fifth draw. -/
def requestInputEnd (nnet : Nnet) (g : RandomState) : Int :=
  (requestOutputStart g : Int) + (requestNumOutputFrames g : Int) + nnet.right_context
    + ((g.rand 4 % 3 : Nat) : Int)

/-- The first sequence index of a request: `Rand() % 2`, on the sixth draw. -/
def requestNOffset (g : RandomState) : Nat := g.rand 5 % 2

/-- The numbers of rows and columns of the matrices of a list. -/
def shapes (mats : List Matrix) : List (Nat × Nat) :=
  mats.map fun m => (m.num_rows, m.num_cols)

/-- A simple network with left and right context 1, an input `input` of dimension 20 and an
input `ivector` of dimension 10, without components. -/
def simpleNnetWithIvector : Nnet :=
  { IsSimpleNnet := true, left_context := 1, right_context := 1,
    InputDim := fun name => if name = "input" then 20 else if name = "ivector" then 10 else -1,
    components := [] }

/-- A request without inputs and outputs, its flags unset. -/
def emptyRequest : ComputationRequest :=
  { inputs := [], outputs := [], need_model_derivative := false,
    store_component_stats := false }

/-- The dot product of two components that multiplies their bit masks, for examples. -/
def maskDotProduct (c1 c2 : Component) : ℚ := (c1.Properties : ℚ) * (c2.Properties : ℚ)

/-- A network of three components, the second of which is updatable. -/
def threeComponentNnet : Nnet :=
  { IsSimpleNnet := true, left_context := 0, right_context := 0,
    InputDim := fun name => if name = "input" then 20 else -1,
    components :=
      [ { typeName := "FixedAffineComponent", Properties := 1, updatable := false },
        { typeName := "AffineComponent", Properties := 3, updatable := true },
        { typeName := "SoftmaxComponent", Properties := 1, updatable := false } ] }

/-- The values that the loop of lines 363-367 draws when it runs `num_groups` times from the
generator `g`. -/
def sizeDraws (g : RandomState) (num_groups : Nat) : List Int :=
  (List.range num_groups).map fun (j : Nat) => g.randInt j 1 5

/-- The generator whose calls of `RandInt(lo, hi)` return the entries of `ds` in turn, each
brought into `[lo, hi]`; every other draw is `0`. -/
def RandomState.clamped (ds : List Int) : RandomState :=
  { rand := fun _ => 0,
    randInt := fun k lo hi => max lo (min hi (ds.getD k lo)),
    randUniform := fun _ => 0,
    randn := fun _ => 0 }

/-- The parameter text that `GenerateRandomComponentConfig` writes, by value of the type draw
`n`: the draws after the first are those of lines 299-377. -/
def randomComponentParams (g : RandomState) : String :=
  let n := g.randInt 0 0 13
  if n = 0 then
    "input-dim=" ++ toString (g.randInt 1 1 50 * g.randInt 2 1 15)
      ++ " output-dim=" ++ toString (g.randInt 1 1 50)
  else if 1 ≤ n ∧ n ≤ 7 then "dim=" ++ toString (g.randInt 1 1 50)
  else if 8 ≤ n ∧ n ≤ 10 then
    "input-dim=" ++ toString (g.randInt 1 1 50) ++ " output-dim=" ++ toString (g.randInt 2 1 50)
  else if n = 11 then
    "sizes=" ++ commaSeparated
      ((sizeDraws (g.afterRandInt 2) (g.randInt 1 1 50).toNat).map toString)
  else "dim=" ++ toString (g.randInt 1 1 100)

/-- The number of calls of `RandInt` that `GenerateRandomComponentConfig` makes. -/
def randomComponentDraws (g : RandomState) : Nat :=
  let n := g.randInt 0 0 13
  if n = 0 then 3
  else if 1 ≤ n ∧ n ≤ 7 then 2
  else if 8 ≤ n ∧ n ≤ 10 then 3
  else if n = 11 then 2 + (g.randInt 1 1 50).toNat
  else 2

/-! ## Theorems -/

/-! ### The random generator -/

@[simp] theorem Rand_fst (g : RandomState) : (Rand g).1 = g.rand 0 := rfl

@[simp] theorem Rand_snd (g : RandomState) : (Rand g).2 = g.afterRand 1 := rfl

@[simp] theorem RandInt_fst (lo hi : Int) (g : RandomState) :
    (RandInt lo hi g).1 = g.randInt 0 lo hi := rfl

@[simp] theorem RandInt_snd (lo hi : Int) (g : RandomState) :
    (RandInt lo hi g).2 = g.afterRandInt 1 := rfl

@[simp] theorem afterRand_rand (g : RandomState) (n k : Nat) :
    (g.afterRand n).rand k = g.rand (k + n) := rfl

@[simp] theorem afterRand_randInt (g : RandomState) (n : Nat) :
    (g.afterRand n).randInt = g.randInt := rfl

@[simp] theorem afterRandInt_rand (g : RandomState) (n : Nat) :
    (g.afterRandInt n).rand = g.rand := rfl

@[simp] theorem afterRandInt_randInt (g : RandomState) (n k : Nat) :
    (g.afterRandInt n).randInt k = g.randInt (k + n) := rfl

@[simp] theorem afterRand_afterRand (g : RandomState) (m n : Nat) :
    (g.afterRand m).afterRand n = g.afterRand (m + n) := by
  simp [RandomState.afterRand, Nat.add_assoc, Nat.add_comm n m]

@[simp] theorem afterRandInt_afterRandInt (g : RandomState) (m n : Nat) :
    (g.afterRandInt m).afterRandInt n = g.afterRandInt (m + n) := by
  simp [RandomState.afterRandInt, Nat.add_assoc, Nat.add_comm n m]

@[simp] theorem afterRandInt_zero (g : RandomState) : g.afterRandInt 0 = g := rfl

@[simp] theorem afterRand_zero (g : RandomState) : g.afterRand 0 = g := rfl

/-! ### The dispatcher -/

/-- One pass of the dispatcher on a draw whose generator is allowed: it returns what the
generator returns. -/
theorem GenerateConfigSequence_allowed (opts : NnetGenerationOptions) (passes : Nat)
    (configs : List String) (g : RandomState)
    (hr : 0 ≤ g.randInt 0 0 3 ∧ g.randInt 0 0 3 ≤ 3)
    (hp : prerequisites opts (g.randInt 0 0 3) = true) :
    GenerateConfigSequence opts (passes + 1) configs g
      = .returned (generatorOfType (g.randInt 0 0 3) opts configs (g.afterRandInt 1)) := by
  obtain ⟨h0, h3⟩ := hr
  have hk : g.randInt 0 0 3 = 0 ∨ g.randInt 0 0 3 = 1 ∨ g.randInt 0 0 3 = 2
      ∨ g.randInt 0 0 3 = 3 := by omega
  obtain ⟨c, nl, rc, fn⟩ := opts
  rcases hk with hk | hk | hk | hk <;> cases c <;> cases nl <;> cases rc <;>
    simp [prerequisites, hk] at hp <;>
    simp [GenerateConfigSequence, RandInt, generatorOfType, hk, RandomState.afterRandInt]

/-- One pass of the dispatcher on a draw in `{1, 2, 3}` whose generator is not allowed: no
generator is invoked and the selection is made again. -/
theorem GenerateConfigSequence_retry (opts : NnetGenerationOptions) (passes : Nat)
    (configs : List String) (g : RandomState)
    (hr : 0 ≤ g.randInt 0 0 3 ∧ g.randInt 0 0 3 ≤ 3)
    (hp : prerequisites opts (g.randInt 0 0 3) = false) :
    GenerateConfigSequence opts (passes + 1) configs g
      = GenerateConfigSequence opts passes configs (g.afterRandInt 1) := by
  obtain ⟨h0, h3⟩ := hr
  have hk : g.randInt 0 0 3 = 0 ∨ g.randInt 0 0 3 = 1 ∨ g.randInt 0 0 3 = 2
      ∨ g.randInt 0 0 3 = 3 := by omega
  obtain ⟨c, nl, rc, fn⟩ := opts
  rcases hk with hk | hk | hk | hk <;> cases c <;> cases nl <;> cases rc <;>
    simp [prerequisites, hk] at hp <;>
    simp [GenerateConfigSequence, RandInt, hk, RandomState.afterRandInt]

/-- One pass of the dispatcher on a draw outside `{0, 1, 2, 3}`: the fatal error of the
`default` case. -/
theorem GenerateConfigSequence_default (opts : NnetGenerationOptions) (passes : Nat)
    (configs : List String) (g : RandomState)
    (hr : ¬ (0 ≤ g.randInt 0 0 3 ∧ g.randInt 0 0 3 ≤ 3)) :
    GenerateConfigSequence opts (passes + 1) configs g
      = .fatal "Error generating config sequence." := by
  have h0 : g.randInt 0 0 3 ≠ 0 := by omega
  have h1 : g.randInt 0 0 3 ≠ 1 := by omega
  have h2 : g.randInt 0 0 3 ≠ 2 := by omega
  have h3 : g.randInt 0 0 3 ≠ 3 := by omega
  simp [GenerateConfigSequence, RandInt, h0, h1, h2, h3]

/-- What a returning call of the dispatcher has done: for some `n` it has made `n` selections
of a disallowed type in `{1, 2, 3}`, each consuming one draw, then selected an allowed type and
returned what the generator of that type returns. -/
theorem GenerateConfigSequence_returned (opts : NnetGenerationOptions) :
    ∀ (passes : Nat) (configs : List String) (g : RandomState)
      (r : List String × RandomState),
      GenerateConfigSequence opts passes configs g = .returned r →
      ∃ n, n < passes
        ∧ (∀ i, i < n → (1 ≤ networkTypeDraw g i ∧ networkTypeDraw g i ≤ 3)
            ∧ prerequisites opts (networkTypeDraw g i) = false)
        ∧ (0 ≤ networkTypeDraw g n ∧ networkTypeDraw g n ≤ 3)
        ∧ prerequisites opts (networkTypeDraw g n) = true
        ∧ r = generatorOfType (networkTypeDraw g n) opts configs (g.afterRandInt (n + 1)) := by
  intro passes
  induction passes with
  | zero => intro configs g r h; simp [GenerateConfigSequence] at h
  | succ passes ih =>
    intro configs g r h
    by_cases hr : 0 ≤ g.randInt 0 0 3 ∧ g.randInt 0 0 3 ≤ 3
    · cases hp : prerequisites opts (g.randInt 0 0 3) with
      | true =>
        rw [GenerateConfigSequence_allowed opts passes configs g hr hp] at h
        refine ⟨0, Nat.succ_pos _, fun i hi => absurd hi (Nat.not_lt_zero i), hr, hp, ?_⟩
        exact (Outcome.returned.inj h).symm
      | false =>
        rw [GenerateConfigSequence_retry opts passes configs g hr hp] at h
        obtain ⟨n, hn, hbefore, hrn, hpn, hres⟩ := ih configs (g.afterRandInt 1) r h
        refine ⟨n + 1, Nat.succ_lt_succ hn, ?_, ?_, ?_, ?_⟩
        · intro i hi
          cases i with
          | zero =>
            refine ⟨⟨?_, hr.2⟩, hp⟩
            have hne : g.randInt 0 0 3 ≠ 0 := by
              intro h0
              rw [h0] at hp
              simp [prerequisites] at hp
            show 1 ≤ g.randInt 0 0 3
            omega
          | succ i => exact hbefore i (Nat.lt_of_succ_lt_succ hi)
        · exact hrn
        · exact hpn
        · rw [hres]; simp [networkTypeDraw, Nat.add_comm 1 (n + 1)]
    · rw [GenerateConfigSequence_default opts passes configs g hr] at h
      exact Outcome.noConfusion h

/-- C1: whenever `GenerateConfigSequence` returns it has invoked exactly one generator, the one
of the first draw `k` of the stream whose prerequisites hold: the `n` draws before it are
draws of a disallowed type in `{1, 2, 3}`, what is returned is what the generator of type `k`
returns on the unchanged `configs`, and `k`'s prerequisite flags are all enabled; when
`allow_context`, `allow_nonlinearity` and `allow_recursion` are all false, `k = 0` and the
generator is `GenerateConfigSequenceSimplest`. -/
theorem GenerateConfigSequence_invokes_first_allowed (opts : NnetGenerationOptions)
    (passes : Nat) (configs : List String) (g : RandomState) (r : List String × RandomState)
    (h : GenerateConfigSequence opts passes configs g = .returned r) :
    ∃ n, n < passes
      ∧ (∀ i, i < n → (1 ≤ networkTypeDraw g i ∧ networkTypeDraw g i ≤ 3)
          ∧ prerequisites opts (networkTypeDraw g i) = false)
      ∧ (0 ≤ networkTypeDraw g n ∧ networkTypeDraw g n ≤ 3)
      ∧ prerequisites opts (networkTypeDraw g n) = true
      ∧ r = generatorOfType (networkTypeDraw g n) opts configs (g.afterRandInt (n + 1))
      ∧ (opts.allow_context = false → opts.allow_nonlinearity = false →
          opts.allow_recursion = false →
          networkTypeDraw g n = 0
            ∧ r = GenerateConfigSequenceSimplest opts configs (g.afterRandInt (n + 1))) := by
  obtain ⟨n, hn, hbefore, hrn, hpn, hres⟩ :=
    GenerateConfigSequence_returned opts passes configs g r h
  refine ⟨n, hn, hbefore, hrn, hpn, hres, ?_⟩
  intro hc _ _
  have hk : networkTypeDraw g n = 0 := by
    by_contra hne
    have h13 : networkTypeDraw g n = 1 ∨ networkTypeDraw g n = 2 ∨ networkTypeDraw g n = 3 := by
      omega
    rcases h13 with hk | hk | hk <;> simp [prerequisites, hk, hc] at hpn
  refine ⟨hk, ?_⟩
  rw [hres, hk]
  rfl

/-- A witness of the claim on the generator invoked: with every flag disabled and the draws
1, 3, 0 the dispatcher returns on its third pass. -/
theorem GenerateConfigSequence_invokes_first_allowed_witness :
    ∃ n, n < 3
      ∧ (∀ i, i < n → (1 ≤ networkTypeDraw (RandomState.ofLists [] [1, 3, 0] []) i
            ∧ networkTypeDraw (RandomState.ofLists [] [1, 3, 0] []) i ≤ 3)
          ∧ prerequisites allDisabled (networkTypeDraw (RandomState.ofLists [] [1, 3, 0] []) i)
              = false)
      ∧ (0 ≤ networkTypeDraw (RandomState.ofLists [] [1, 3, 0] []) n
          ∧ networkTypeDraw (RandomState.ofLists [] [1, 3, 0] []) n ≤ 3)
      ∧ prerequisites allDisabled (networkTypeDraw (RandomState.ofLists [] [1, 3, 0] []) n) = true
      ∧ GenerateConfigSequenceSimplest allDisabled []
            ((RandomState.ofLists [] [1, 3, 0] []).afterRandInt 3)
          = generatorOfType (networkTypeDraw (RandomState.ofLists [] [1, 3, 0] []) n) allDisabled
              [] ((RandomState.ofLists [] [1, 3, 0] []).afterRandInt (n + 1))
      ∧ (allDisabled.allow_context = false → allDisabled.allow_nonlinearity = false →
          allDisabled.allow_recursion = false →
          networkTypeDraw (RandomState.ofLists [] [1, 3, 0] []) n = 0
            ∧ GenerateConfigSequenceSimplest allDisabled []
                ((RandomState.ofLists [] [1, 3, 0] []).afterRandInt 3)
              = GenerateConfigSequenceSimplest allDisabled []
                  ((RandomState.ofLists [] [1, 3, 0] []).afterRandInt (n + 1))) :=
  GenerateConfigSequence_invokes_first_allowed allDisabled 3 []
    (RandomState.ofLists [] [1, 3, 0] [])
    (GenerateConfigSequenceSimplest allDisabled []
      ((RandomState.ofLists [] [1, 3, 0] []).afterRandInt 3)) rfl

/-- The run of the dispatcher on a stream whose first `n` draws are draws in `{0, 1, 2, 3}` of
a disallowed type: it is still in its loop after `n` passes or fewer, and when the next draw
is of an allowed type every larger number of passes lets it return what the generator of that
type returns. -/
theorem GenerateConfigSequence_run (opts : NnetGenerationOptions) :
    ∀ (n : Nat) (configs : List String) (g : RandomState),
      (∀ i, i < n → (0 ≤ networkTypeDraw g i ∧ networkTypeDraw g i ≤ 3)
        ∧ prerequisites opts (networkTypeDraw g i) = false) →
      (∀ passes, passes ≤ n → GenerateConfigSequence opts passes configs g = .looping)
      ∧ ((0 ≤ networkTypeDraw g n ∧ networkTypeDraw g n ≤ 3) →
          prerequisites opts (networkTypeDraw g n) = true →
          ∀ passes, n < passes → GenerateConfigSequence opts passes configs g
            = .returned
                (generatorOfType (networkTypeDraw g n) opts configs (g.afterRandInt (n + 1)))) := by
  intro n
  induction n with
  | zero =>
    intro configs g _
    refine ⟨?_, ?_⟩
    · intro passes hp
      obtain rfl : passes = 0 := Nat.le_zero.1 hp
      rfl
    · intro hr hp passes hpos
      obtain ⟨q, rfl⟩ : ∃ q, passes = q + 1 := ⟨passes - 1, by omega⟩
      exact GenerateConfigSequence_allowed opts q configs g hr hp
  | succ n ih =>
    intro configs g hbefore
    have h0 := hbefore 0 (Nat.succ_pos n)
    have hrest : ∀ i, i < n →
        (0 ≤ networkTypeDraw (g.afterRandInt 1) i ∧ networkTypeDraw (g.afterRandInt 1) i ≤ 3)
          ∧ prerequisites opts (networkTypeDraw (g.afterRandInt 1) i) = false := by
      intro i hi
      exact hbefore (i + 1) (Nat.succ_lt_succ hi)
    obtain ⟨ihloop, ihret⟩ := ih configs (g.afterRandInt 1) hrest
    refine ⟨?_, ?_⟩
    · intro passes hp
      cases passes with
      | zero => rfl
      | succ q =>
        rw [GenerateConfigSequence_retry opts q configs g h0.1 h0.2]
        exact ihloop q (Nat.le_of_succ_le_succ hp)
    · intro hr hp passes hlt
      obtain ⟨q, rfl⟩ : ∃ q, passes = q + 1 := ⟨passes - 1, by omega⟩
      rw [GenerateConfigSequence_retry opts q configs g h0.1 h0.2]
      have := ihret hr hp q (Nat.lt_of_succ_lt_succ hlt)
      rw [this]
      simp [networkTypeDraw, Nat.add_comm 1 (n + 1)]

/-- The first draw of an allowed type, in a stream of draws from `{0, 1, 2, 3}` that has a `0`
at position `p`: it is at a position `n ≤ p`. -/
theorem first_allowed_draw (opts : NnetGenerationOptions) :
    ∀ (p : Nat) (g : RandomState),
      (∀ i, i < p → 0 ≤ networkTypeDraw g i ∧ networkTypeDraw g i ≤ 3) →
      networkTypeDraw g p = 0 →
      ∃ n, n ≤ p
        ∧ (∀ i, i < n → (0 ≤ networkTypeDraw g i ∧ networkTypeDraw g i ≤ 3)
            ∧ prerequisites opts (networkTypeDraw g i) = false)
        ∧ (0 ≤ networkTypeDraw g n ∧ networkTypeDraw g n ≤ 3)
        ∧ prerequisites opts (networkTypeDraw g n) = true := by
  intro p
  induction p with
  | zero =>
    intro g _ h0
    refine ⟨0, Nat.le_refl 0, fun i hi => absurd hi (Nat.not_lt_zero i), ?_, ?_⟩
    · rw [h0]; decide
    · rw [h0]; rfl
  | succ p ih =>
    intro g hrange h0
    cases hp : prerequisites opts (networkTypeDraw g 0) with
    | true =>
      exact ⟨0, Nat.zero_le _, fun i hi => absurd hi (Nat.not_lt_zero i),
        hrange 0 (Nat.succ_pos p), hp⟩
    | false =>
      obtain ⟨n, hn, hbefore, hrn, hpn⟩ := ih (g.afterRandInt 1)
        (fun i hi => hrange (i + 1) (Nat.succ_lt_succ hi)) h0
      refine ⟨n + 1, Nat.succ_le_succ hn, ?_, hrn, hpn⟩
      intro i hi
      cases i with
      | zero => exact ⟨hrange 0 (Nat.succ_pos p), hp⟩
      | succ i => exact hbefore i (Nat.lt_of_succ_lt_succ hi)

/-- C2: the dispatcher never hangs when the base case is available.  For every options value
and every stream of network-type draws from `{0, 1, 2, 3}` with a `0` at position `p`, there is
`n ≤ p` such that the dispatcher, given more than `n` passes, returns, having made exactly
`n + 1` selections: the `n` first are retries, each consuming one draw and invoking no
generator (with `n` passes or fewer it is still in its loop), and the last invokes a generator
on the unchanged `configs`. -/
theorem GenerateConfigSequence_terminates (opts : NnetGenerationOptions)
    (configs : List String) (g : RandomState) (p : Nat)
    (hrange : ∀ i, i < p → 0 ≤ networkTypeDraw g i ∧ networkTypeDraw g i ≤ 3)
    (h0 : networkTypeDraw g p = 0) :
    ∃ n, n ≤ p
      ∧ (∀ i, i < n → prerequisites opts (networkTypeDraw g i) = false)
      ∧ prerequisites opts (networkTypeDraw g n) = true
      ∧ (∀ passes, passes ≤ n → GenerateConfigSequence opts passes configs g = .looping)
      ∧ (∀ passes, n < passes → GenerateConfigSequence opts passes configs g
          = .returned
              (generatorOfType (networkTypeDraw g n) opts configs (g.afterRandInt (n + 1)))) := by
  obtain ⟨n, hn, hbefore, hrn, hpn⟩ := first_allowed_draw opts p g hrange h0
  obtain ⟨hloop, hret⟩ := GenerateConfigSequence_run opts n configs g hbefore
  exact ⟨n, hn, fun i hi => (hbefore i hi).2, hpn, hloop, hret hrn hpn⟩

/-- A witness of the claim on termination: every flag disabled, the draws 1, 3, 0. -/
theorem GenerateConfigSequence_terminates_witness :
    ∃ n, n ≤ 2
      ∧ (∀ i, i < n →
          prerequisites allDisabled (networkTypeDraw (RandomState.ofLists [] [1, 3, 0] []) i)
            = false)
      ∧ prerequisites allDisabled (networkTypeDraw (RandomState.ofLists [] [1, 3, 0] []) n) = true
      ∧ (∀ passes, passes ≤ n → GenerateConfigSequence allDisabled passes []
          (RandomState.ofLists [] [1, 3, 0] []) = .looping)
      ∧ (∀ passes, n < passes → GenerateConfigSequence allDisabled passes []
          (RandomState.ofLists [] [1, 3, 0] [])
          = .returned
              (generatorOfType (networkTypeDraw (RandomState.ofLists [] [1, 3, 0] []) n)
                allDisabled [] ((RandomState.ofLists [] [1, 3, 0] []).afterRandInt (n + 1)))) :=
  GenerateConfigSequence_terminates allDisabled [] (RandomState.ofLists [] [1, 3, 0] []) 2
    (by
      intro i hi
      have hi2 : i = 0 ∨ i = 1 := by omega
      rcases hi2 with rfl | rfl <;> decide)
    rfl

/-- C3, refuted as stated: with every capability flag disabled and a first draw of 0 the
dispatcher returns on its first pass, having appended the config of
`GenerateConfigSequenceSimplest`. -/
theorem GenerateConfigSequence_allDisabled_returns :
    ∃ r, GenerateConfigSequence allDisabled 1 [] (RandomState.ofLists [] [0] []) = .returned r
      ∧ r.1 = ["component name=affine1 type=AffineComponent input-dim=10 output-dim=100\n"
              ++ "input-node name=input dim=10\n"
              ++ "component-node name=affine1_node component=affine1 input=input\n"
              ++ "output-node name=output input=affine1_node\n"] :=
  ⟨_, rfl, rfl⟩

/-- C3, amended: with every capability flag disabled and a stream of network-type draws from
`{0, 1, 2, 3}`, the dispatcher retries on every draw of 1, 2 or 3 and returns at the first
draw of 0, through `GenerateConfigSequenceSimplest`; it loops forever, whatever the number of
passes, exactly when the stream has no 0. -/
theorem GenerateConfigSequence_allDisabled (opts : NnetGenerationOptions)
    (hc : opts.allow_context = false) (_hn : opts.allow_nonlinearity = false)
    (_hrec : opts.allow_recursion = false) (_hf : opts.allow_final_nonlinearity = false)
    (configs : List String) (g : RandomState)
    (hrange : ∀ i, 0 ≤ networkTypeDraw g i ∧ networkTypeDraw g i ≤ 3) :
    ((∀ i, networkTypeDraw g i ≠ 0) →
        ∀ passes, GenerateConfigSequence opts passes configs g = .looping)
      ∧ (∀ p, networkTypeDraw g p = 0 → (∀ i, i < p → networkTypeDraw g i ≠ 0) →
          (∀ passes, passes ≤ p → GenerateConfigSequence opts passes configs g = .looping)
          ∧ ∀ passes, p < passes → GenerateConfigSequence opts passes configs g
              = .returned (GenerateConfigSequenceSimplest opts configs (g.afterRandInt (p + 1)))) := by
  have hdis : ∀ i, networkTypeDraw g i ≠ 0 → prerequisites opts (networkTypeDraw g i) = false := by
    intro i hne
    have h13 : networkTypeDraw g i = 1 ∨ networkTypeDraw g i = 2 ∨ networkTypeDraw g i = 3 := by
      have := hrange i
      omega
    rcases h13 with hk | hk | hk <;> simp [prerequisites, hk, hc]
  refine ⟨?_, ?_⟩
  · intro hno passes
    exact (GenerateConfigSequence_run opts passes configs g
      (fun i _ => ⟨hrange i, hdis i (hno i)⟩)).1 passes (Nat.le_refl _)
  · intro p h0 hbefore
    obtain ⟨hloop, hret⟩ := GenerateConfigSequence_run opts p configs g
      (fun i hi => ⟨hrange i, hdis i (hbefore i hi)⟩)
    refine ⟨hloop, ?_⟩
    intro passes hlt
    have := hret (hrange p) (by rw [h0]; rfl) passes hlt
    rw [this, h0]
    rfl

/-- A witness of the amended claim on the options with every flag disabled: every draw is 1,
no draw is 0, and after seven passes the dispatcher is still in its loop. -/
theorem GenerateConfigSequence_allDisabled_witness :
    (∀ i, 0 ≤ networkTypeDraw (RandomState.const 0 1 0) i
        ∧ networkTypeDraw (RandomState.const 0 1 0) i ≤ 3)
      ∧ (∀ i, networkTypeDraw (RandomState.const 0 1 0) i ≠ 0)
      ∧ GenerateConfigSequence allDisabled 7 [] (RandomState.const 0 1 0) = .looping :=
  ⟨fun _ => by simp [networkTypeDraw, RandomState.const],
    fun _ => by simp [networkTypeDraw, RandomState.const],
    (GenerateConfigSequence_allDisabled allDisabled rfl rfl rfl rfl [] (RandomState.const 0 1 0)
      (fun _ => by simp [networkTypeDraw, RandomState.const])).1
      (fun _ => by simp [networkTypeDraw, RandomState.const]) 7⟩

/-! ### The splice context -/

theorem spliceStep_eq (i : Int) (ctx : List Int) (g : RandomState) :
    spliceStep i (ctx, g) = (if g.rand 0 % 3 = 0 then ctx ++ [i] else ctx, g.afterRand 1) := by
  unfold spliceStep
  by_cases h : g.rand 0 % 3 = 0 <;> simp [Rand, h, RandomState.afterRand]

/-- The loop of lines 56-58 run for `n` iterations from `i`: it appends, in increasing order,
the `i + k` for the `k < n` whose draw is divisible by 3, and consumes `n` draws. -/
theorem spliceLoop_eq : ∀ (n : Nat) (i : Int) (ctx : List Int) (g : RandomState),
    forLoop spliceStep n i (ctx, g)
      = (ctx ++ ((List.range n).filter fun k => g.rand k % 3 = 0).map (fun (k : Nat) => i + (k : Int)),
          g.afterRand n) := by
  intro n
  induction n with
  | zero => intro i ctx g; simp [forLoop]
  | succ n ih =>
    intro i ctx g
    rw [forLoop, spliceStep_eq, ih, List.range_succ_eq_map, List.filter_cons, List.filter_map]
    have hmap : ∀ l : List Nat, List.map ((fun k : Nat => i + (k : Int)) ∘ Nat.succ) l
        = List.map (fun k : Nat => i + 1 + (k : Int)) l := by
      intro l
      apply List.map_congr_left
      intro k _
      simp only [Function.comp, Nat.succ_eq_add_one]
      push_cast
      ring
    have hfil : List.filter ((fun k => decide (g.rand k % 3 = 0)) ∘ Nat.succ) (List.range n)
        = List.filter (fun k => decide ((g.afterRand 1).rand k % 3 = 0)) (List.range n) := rfl
    rw [afterRand_afterRand, Nat.add_comm 1 n]
    by_cases h : g.rand 0 % 3 = 0
    · simp only [h, decide_True, if_true, List.map_cons, List.map_map, hmap, hfil,
        List.append_assoc, List.singleton_append, Nat.cast_zero, add_zero]
    · simp only [h, decide_False, if_false, List.map_map, hmap, hfil, Bool.false_eq_true]

theorem spliceOffsets_eq : spliceOffsets = (List.range 9).map (fun (k : Nat) => -5 + (k : Int)) := by
  decide

theorem drawnOffsets_eq (g : RandomState) :
    drawnOffsets g
      = ((List.range 9).filter fun k => g.rand k % 3 = 0).map (fun (k : Nat) => -5 + (k : Int)) := by
  rw [drawnOffsets, spliceOffsets_eq, List.filter_map]
  have hpred : ((fun i : Int => decide (g.rand (i + 5).toNat % 3 = 0))
      ∘ fun (k : Nat) => -5 + (k : Int)) = fun k => decide (g.rand k % 3 = 0) := by
    funext k
    simp
  rw [hpred]

/-- Lines 55-60 compute the splice context of the specification, on nine draws. -/
theorem GenerateSpliceContext_eq (g : RandomState) :
    GenerateSpliceContext g = (spliceContextOf g, g.afterRand 9) := by
  have h9 : ((4 : Int) - (-5)).toNat = 9 := rfl
  have hloop : forRange (-5) 4 spliceStep ([], g) = (drawnOffsets g, g.afterRand 9) := by
    rw [forRange, h9, spliceLoop_eq, List.nil_append, drawnOffsets_eq]
  show (match forRange (-5) 4 spliceStep ([], g) with
    | (splice_context, g) =>
      (if splice_context.isEmpty then splice_context ++ [0] else splice_context, g)) = _
  rw [hloop]
  by_cases h : drawnOffsets g = [] <;> simp [spliceContextOf, h]

theorem drawnOffsets_sublist (g : RandomState) : (drawnOffsets g).Sublist spliceOffsets :=
  List.filter_sublist _

theorem spliceOffsets_mem {x : Int} (h : x ∈ spliceOffsets) : -5 ≤ x ∧ x ≤ 3 := by
  simp only [spliceOffsets, List.mem_cons, List.mem_singleton, List.not_mem_nil, or_false] at h
  omega

theorem drawnOffsets_nil_iff (g : RandomState) :
    drawnOffsets g = [] ↔ ∀ k, k < 9 → g.rand k % 3 ≠ 0 := by
  rw [drawnOffsets_eq, List.map_eq_nil_iff, List.filter_eq_nil_iff]
  simp

/-- The splice context of lines 55-60: never empty, the drawn offsets or `[0]`, strictly
increasing, within `[-5, 3]`, of length between 1 and 9. -/
theorem GenerateSpliceContext_spec (g : RandomState) :
    (GenerateSpliceContext g).1 ≠ []
      ∧ (GenerateSpliceContext g).1
          = (if spliceOffsets.filter (fun i => g.rand (i + 5).toNat % 3 = 0) = [] then [0]
              else spliceOffsets.filter (fun i => g.rand (i + 5).toNat % 3 = 0))
      ∧ ((∀ k, k < 9 → g.rand k % 3 ≠ 0) → (GenerateSpliceContext g).1 = [0])
      ∧ ((∃ k, k < 9 ∧ g.rand k % 3 = 0) → (GenerateSpliceContext g).1
          = spliceOffsets.filter (fun i => g.rand (i + 5).toNat % 3 = 0))
      ∧ (GenerateSpliceContext g).1.Pairwise (· < ·)
      ∧ (∀ x, x ∈ (GenerateSpliceContext g).1 → -5 ≤ x ∧ x ≤ 3)
      ∧ 1 ≤ (GenerateSpliceContext g).1.length
      ∧ (GenerateSpliceContext g).1.length ≤ 9 := by
  have hsorted : spliceOffsets.Pairwise (· < ·) := by decide
  rw [GenerateSpliceContext_eq]
  show spliceContextOf g ≠ [] ∧ spliceContextOf g = (if drawnOffsets g = [] then [0]
      else drawnOffsets g) ∧ _ ∧ (_ → spliceContextOf g = drawnOffsets g) ∧ _
  by_cases h : drawnOffsets g = []
  · have hctx : spliceContextOf g = [0] := by simp [spliceContextOf, h]
    rw [hctx]
    refine ⟨by simp, by simp [h], fun _ => rfl, ?_, by simp, by simp, by simp, by simp⟩
    rintro ⟨k, hk, hk3⟩
    exact absurd hk3 ((drawnOffsets_nil_iff g).1 h k hk)
  · have hctx : spliceContextOf g = drawnOffsets g := by simp [spliceContextOf, h]
    rw [hctx]
    refine ⟨h, by simp [h], ?_, fun _ => rfl, ?_, ?_, ?_, ?_⟩
    · intro hall
      exact absurd ((drawnOffsets_nil_iff g).2 hall) h
    · exact hsorted.sublist (drawnOffsets_sublist g)
    · intro x hx
      exact spliceOffsets_mem ((drawnOffsets_sublist g).subset hx)
    · exact List.length_pos.2 h
    · exact (drawnOffsets_sublist g).length_le

/-! ### The text of the generators -/

theorem String.append_empty_right (a : String) : a ++ "" = a := by
  simp [String.ext_iff]

/-- The loop of lines 72-77 writes the terms of the splice descriptor. -/
theorem writeSpliceTerms_eq : ∀ (rest : List Int) (size i : Nat) (os : String),
    i + rest.length = size →
    writeSpliceTerms size i rest os
      = os ++ Descriptor.renderList (rest.map fun offset => .offset (.node "input") offset) := by
  intro rest
  induction rest with
  | nil =>
    intro size i os _
    simp [writeSpliceTerms, Descriptor.renderList, String.ext_iff]
  | cons o rest ih =>
    intro size i os h
    cases rest with
    | nil =>
      have hlt : ¬ (i + 1 < size) := by simp at h; omega
      simp [writeSpliceTerms, hlt, Descriptor.renderList, Descriptor.render, String.ext_iff]
    | cons e ds =>
      have hlt : i + 1 < size := by simp at h; omega
      have hlen : i + 1 + (e :: ds).length = size := by simp at h ⊢; omega
      rw [writeSpliceTerms]
      simp only [hlt, if_true]
      rw [ih size (i + 1) _ hlen]
      simp [Descriptor.renderList, Descriptor.render, String.ext_iff]

/-- The text of `GenerateConfigSequenceSimpleContext`, read as a config. -/
theorem GenerateConfigSequenceSimpleContext_eq (opts : NnetGenerationOptions)
    (configs : List String) (g : RandomState) :
    GenerateConfigSequenceSimpleContext opts configs g
      = (configs ++ [renderConfig (simpleContextConfig (spliceContextOf g)
            (10 + g.rand 9 % 20) (100 + g.rand 10 % 200))], g.afterRand 11) := by
  unfold GenerateConfigSequenceSimpleContext
  rw [GenerateSpliceContext_eq]
  simp only [Rand, writeSpliceTerms_eq _ _ 0 _ (Nat.zero_add _)]
  simp [simpleContextConfig, renderConfig, ConfigLine.render, Descriptor.render,
    spliceDescriptor, String.ext_iff, RandomState.afterRand]

theorem toString_neg_one : toString (-1 : Int) = "-1" := by decide

set_option maxRecDepth 8000 in
/-- The text of `GenerateConfigSequenceRnn`, read as a config. -/
theorem GenerateConfigSequenceRnn_eq (opts : NnetGenerationOptions)
    (configs : List String) (g : RandomState) :
    GenerateConfigSequenceRnn opts configs g
      = (configs ++ [renderConfig (rnnConfig (spliceContextOf g)
            (10 + g.rand 9 % 20) (100 + g.rand 10 % 200) (40 + g.rand 11 % 50))],
          g.afterRand 12) := by
  unfold GenerateConfigSequenceRnn
  rw [GenerateSpliceContext_eq]
  simp only [Rand, writeSpliceTerms_eq _ _ 0 _ (Nat.zero_add _)]
  simp [rnnConfig, renderConfig, ConfigLine.render, Descriptor.render,
    spliceDescriptor, String.ext_iff, RandomState.afterRand, toString_neg_one]

set_option maxRecDepth 8000 in
set_option maxHeartbeats 1600000 in
/-- The text of `GenerateConfigSequenceSimple`, read as configs: the first config, and the
second one exactly when the last draw is even. -/
theorem GenerateConfigSequenceSimple_eq (opts : NnetGenerationOptions)
    (configs : List String) (g : RandomState) :
    GenerateConfigSequenceSimple opts configs g
      = (configs ++ [renderConfig (simpleConfig (spliceContextOf g) (10 + g.rand 9 % 20)
              (100 + g.rand 10 % 200) (40 + g.rand 11 % 50) (simpleFinal opts g))]
            ++ (if g.rand (simpleLastDraw opts g) % 2 = 0 then
                  [renderConfig (simpleGrowthConfig (100 + g.rand 10 % 200)
                    (40 + g.rand 11 % 50))]
                else []),
          (g.afterRand (simpleLastDraw opts g + 1)).afterRandInt
            (if opts.allow_final_nonlinearity then 1 else 0)) := by
  unfold GenerateConfigSequenceSimple
  rw [GenerateSpliceContext_eq]
  simp only [Rand, RandInt, writeSpliceTerms_eq _ _ 0 _ (Nat.zero_add _)]
  obtain ⟨c, nl, rc, fn⟩ := opts
  cases fn
  · by_cases h2 : g.rand 12 % 2 = 0 <;>
      simp [simpleConfig, simpleGrowthConfig, simpleFinal, simpleLastDraw, useFinalNonlinearity,
        renderConfig, ConfigLine.render, Descriptor.render, spliceDescriptor, String.ext_iff,
        RandomState.afterRand, RandomState.afterRandInt, h2]
  · by_cases hd : g.randInt 0 0 1 = 0
    · by_cases h1 : g.rand 12 % 2 = 0 <;> by_cases h2 : g.rand 13 % 2 = 0 <;>
        simp [simpleConfig, simpleGrowthConfig, simpleFinal, simpleLastDraw,
          useFinalNonlinearity, renderConfig, ConfigLine.render, Descriptor.render,
          spliceDescriptor, String.ext_iff, RandomState.afterRand, RandomState.afterRandInt,
          hd, h1, h2]
    · by_cases h2 : g.rand 12 % 2 = 0 <;>
        simp [simpleConfig, simpleGrowthConfig, simpleFinal, simpleLastDraw,
          useFinalNonlinearity, renderConfig, ConfigLine.render, Descriptor.render,
          spliceDescriptor, String.ext_iff, RandomState.afterRand, RandomState.afterRandInt,
          hd, h2]

/-! ### Dimensions and declarations -/

theorem spliceDescriptor_dimSum (nd : String → Option Nat) (input_dim : Nat)
    (h : nd "input" = some input_dim) : ∀ splice_context : List Int,
    Descriptor.dimSum nd (splice_context.map fun offset => .offset (.node "input") offset)
      = some (input_dim * splice_context.length) := by
  intro splice_context
  induction splice_context with
  | nil => simp [Descriptor.dimSum]
  | cons o rest ih =>
    simp [Descriptor.dimSum, Descriptor.dim, h, ih, Nat.mul_succ, Nat.add_comm]

theorem spliceDescriptor_dim (nd : String → Option Nat) (input_dim : Nat)
    (h : nd "input" = some input_dim) (splice_context : List Int) :
    (spliceDescriptor splice_context).dim nd = some (input_dim * splice_context.length) := by
  rw [spliceDescriptor, Descriptor.dim, spliceDescriptor_dimSum nd input_dim h]

theorem spliceDescriptor_nodeNamesList : ∀ splice_context : List Int,
    Descriptor.nodeNamesList (splice_context.map fun offset => .offset (.node "input") offset)
      = List.replicate splice_context.length "input" := by
  intro splice_context
  induction splice_context with
  | nil => rfl
  | cons o rest ih =>
    simp [Descriptor.nodeNamesList, Descriptor.nodeNames, ih, List.replicate_succ]

theorem spliceDescriptor_undeclared (declared : List String)
    (h : declared.contains "input" = true) (splice_context : List Int) :
    (spliceDescriptor splice_context).nodeNames.filter (fun n => !declared.contains n) = [] := by
  rw [spliceDescriptor, Descriptor.nodeNames, spliceDescriptor_nodeNamesList,
    List.filter_eq_nil_iff]
  intro n hn
  rw [List.eq_of_mem_replicate hn, h]
  simp

theorem lineConsistent_splice (cfg : List ConfigLine) (name comp : String)
    (splice_context : List Int) (input_dim output_dim : Nat)
    (hc : componentDims cfg comp = some (input_dim * splice_context.length, output_dim))
    (hin : nodeDim cfg "input" = some input_dim) :
    lineConsistent cfg (.componentNode name comp (spliceDescriptor splice_context)) = true := by
  simp [lineConsistent, hc, spliceDescriptor_dim _ input_dim hin]

theorem simplestConfig_dimsConsistent (input_dim output_dim : Nat) :
    dimsConsistent (simplestConfig input_dim output_dim) = true := by
  simp [dimsConsistent, lineConsistent, simplestConfig, componentDims, Descriptor.dim, nodeDim,
    nodeDimIn]

theorem simpleContextConfig_dimsConsistent (splice_context : List Int)
    (input_dim output_dim : Nat) :
    dimsConsistent (simpleContextConfig splice_context input_dim output_dim) = true := by
  have hin : nodeDim (simpleContextConfig splice_context input_dim output_dim) "input"
      = some input_dim := by
    simp [nodeDim, nodeDimIn, simpleContextConfig]
  apply List.all_eq_true.2
  intro l hl
  simp only [simpleContextConfig, List.mem_cons, List.mem_singleton, List.not_mem_nil,
    or_false] at hl
  rcases hl with rfl | rfl | rfl | rfl
  · rfl
  · rfl
  · exact lineConsistent_splice _ _ _ _ input_dim output_dim
      (by simp [simpleContextConfig, componentDims]) hin
  · simp [lineConsistent, simpleContextConfig, componentDims, Descriptor.dim, nodeDim,
      nodeDimIn]

theorem simpleConfig_dimsConsistent (splice_context : List Int)
    (input_dim output_dim hidden_dim : Nat) (final : Option String) :
    dimsConsistent (simpleConfig splice_context input_dim output_dim hidden_dim final)
      = true := by
  have hin : nodeDim (simpleConfig splice_context input_dim output_dim hidden_dim final) "input"
      = some input_dim := by
    cases final <;> simp [nodeDim, nodeDimIn, simpleConfig]
  have hc : componentDims (simpleConfig splice_context input_dim output_dim hidden_dim final)
      "affine1" = some (input_dim * splice_context.length, hidden_dim) := by
    simp [simpleConfig, componentDims]
  apply List.all_eq_true.2
  intro l hl
  cases final with
  | none =>
    simp only [simpleConfig, List.mem_cons, List.mem_singleton, List.not_mem_nil,
      or_false, List.cons_append, List.nil_append, List.append_nil, List.mem_append] at hl
    rcases hl with rfl | rfl | rfl | rfl | rfl | rfl | rfl | rfl
    · rfl
    · rfl
    · rfl
    · rfl
    · exact lineConsistent_splice _ _ _ _ input_dim hidden_dim hc hin
    · simp [lineConsistent, simpleConfig, componentDims, Descriptor.dim, nodeDim, nodeDimIn]
    · simp [lineConsistent, simpleConfig, componentDims, Descriptor.dim, nodeDim, nodeDimIn]
    · simp [lineConsistent, simpleConfig, componentDims, Descriptor.dim, nodeDim, nodeDimIn]
  | some kind =>
    simp only [simpleConfig, List.mem_cons, List.mem_singleton, List.not_mem_nil,
      or_false, List.cons_append, List.nil_append, List.append_nil, List.mem_append] at hl
    rcases hl with rfl | rfl | rfl | rfl | rfl | rfl | rfl | rfl | rfl | rfl
    · rfl
    · rfl
    · rfl
    · rfl
    · rfl
    · exact lineConsistent_splice _ _ _ _ input_dim hidden_dim hc hin
    · simp [lineConsistent, simpleConfig, componentDims, Descriptor.dim, nodeDim, nodeDimIn]
    · simp [lineConsistent, simpleConfig, componentDims, Descriptor.dim, nodeDim, nodeDimIn]
    · simp [lineConsistent, simpleConfig, componentDims, Descriptor.dim, nodeDim, nodeDimIn]
    · simp [lineConsistent, simpleConfig, componentDims, Descriptor.dim, nodeDim, nodeDimIn]

theorem rnnConfig_dimsConsistent (splice_context : List Int)
    (input_dim output_dim hidden_dim : Nat) :
    dimsConsistent (rnnConfig splice_context input_dim output_dim hidden_dim) = true := by
  have hin : nodeDim (rnnConfig splice_context input_dim output_dim hidden_dim) "input"
      = some input_dim := by
    simp [nodeDim, nodeDimIn, rnnConfig]
  apply List.all_eq_true.2
  intro l hl
  simp only [rnnConfig, List.mem_cons, List.mem_singleton, List.not_mem_nil, or_false] at hl
  rcases hl with rfl | rfl | rfl | rfl | rfl | rfl | rfl | rfl | rfl | rfl | rfl | rfl
  · rfl
  · rfl
  · rfl
  · rfl
  · rfl
  · rfl
  · exact lineConsistent_splice _ _ _ _ input_dim hidden_dim
      (by simp [rnnConfig, componentDims]) hin
  · simp [lineConsistent, rnnConfig, componentDims, Descriptor.dim, nodeDim, nodeDimIn]
  · simp [lineConsistent, rnnConfig, componentDims, Descriptor.dim, nodeDim, nodeDimIn]
  · simp [lineConsistent, rnnConfig, componentDims, Descriptor.dim, nodeDim, nodeDimIn]
  · simp [lineConsistent, rnnConfig, componentDims, Descriptor.dim, nodeDim, nodeDimIn]
  · simp [lineConsistent, rnnConfig, componentDims, Descriptor.dim, nodeDim, nodeDimIn]

/-! ### Decimal text -/

theorem digitChar_ne_newline : ∀ d < 10, Nat.digitChar d ≠ '\n' := by
  decide

theorem toDigitsCore_no_newline (fuel : Nat) : ∀ (n : Nat) (ds : List Char),
    (∀ c ∈ ds, c ≠ '\n') → ∀ c ∈ Nat.toDigitsCore 10 fuel n ds, c ≠ '\n' := by
  induction fuel with
  | zero => intro n ds h; simpa [Nat.toDigitsCore] using h
  | succ fuel ih =>
    intro n ds h
    have h2 : ∀ c ∈ Nat.digitChar (n % 10) :: ds, c ≠ '\n' := by
      intro c hc
      rcases List.mem_cons.1 hc with rfl | hc
      · exact digitChar_ne_newline _ (Nat.mod_lt _ (by norm_num))
      · exact h c hc
    unfold Nat.toDigitsCore
    dsimp only
    split
    · exact h2
    · exact ih _ _ h2

/-- The decimal text of a natural number has no end of line. -/
theorem toString_no_newline (n : Nat) : newlines (toString n) = 0 := by
  rw [newlines, List.count_eq_zero]
  intro hmem
  exact toDigitsCore_no_newline _ _ _ (by simp) _ hmem rfl

theorem newlines_append (a b : String) : newlines (a ++ b) = newlines a + newlines b := by
  simp [newlines, List.count_append]

/-! ### The generators -/

/-- C7: `GenerateConfigSequenceSimplest` appends exactly one string to `configs`, leaving the
earlier entries unchanged; the string is the text of four lines, an `AffineComponent` component
line with `input-dim=I output-dim=O`, an input-node line with `dim=I`, a component-node line and
an output-node line, where `I = 10 + r1 % 20` lies in `[10, 29]` and `O = 100 + r2 % 200` lies
in `[100, 299]` for the two draws `r1`, `r2`; the string has four ends of line; and when
`r1 % 20 = 0` and `r2 % 200 = 0` it reads `input-dim=10 output-dim=100` and `dim=10`. -/
theorem GenerateConfigSequenceSimplest_appends_one (opts : NnetGenerationOptions)
    (configs : List String) (g : RandomState) :
    (GenerateConfigSequenceSimplest opts configs g).1
        = configs ++ [renderConfig (simplestConfig (10 + g.rand 0 % 20) (100 + g.rand 1 % 200))]
      ∧ (simplestConfig (10 + g.rand 0 % 20) (100 + g.rand 1 % 200)).length = 4
      ∧ newlines (renderConfig (simplestConfig (10 + g.rand 0 % 20) (100 + g.rand 1 % 200))) = 4
      ∧ (10 ≤ 10 + g.rand 0 % 20 ∧ 10 + g.rand 0 % 20 ≤ 29)
      ∧ (100 ≤ 100 + g.rand 1 % 200 ∧ 100 + g.rand 1 % 200 ≤ 299)
      ∧ (g.rand 0 % 20 = 0 → g.rand 1 % 200 = 0 →
          (GenerateConfigSequenceSimplest opts configs g).1 = configs ++
            ["component name=affine1 type=AffineComponent input-dim=10 output-dim=100\n"
              ++ "input-node name=input dim=10\n"
              ++ "component-node name=affine1_node component=affine1 input=input\n"
              ++ "output-node name=output input=affine1_node\n"]) := by
  have h1 : g.rand 0 % 20 < 20 := Nat.mod_lt _ (by norm_num)
  have h2 : g.rand 1 % 200 < 200 := Nat.mod_lt _ (by norm_num)
  have h0 : (GenerateConfigSequenceSimplest opts configs g).1
      = configs ++ [renderConfig (simplestConfig (10 + g.rand 0 % 20) (100 + g.rand 1 % 200))] := by
    simp [GenerateConfigSequenceSimplest, Rand, simplestConfig, renderConfig,
      ConfigLine.render, Descriptor.render, String.ext_iff]
  refine ⟨h0, rfl, ?_, ⟨by omega, by omega⟩, ⟨by omega, by omega⟩, ?_⟩
  · simp only [simplestConfig, renderConfig, ConfigLine.render, Descriptor.render,
      newlines_append, toString_no_newline]
    rfl
  · intro e1 e2
    rw [h0, e1, e2]
    rfl

/-! ### The rounding to binary32 -/

theorem roundHalfEven_cases (x : ℚ) :
    (roundHalfEven x = ⌊x⌋ ∧ x - ⌊x⌋ ≤ 1 / 2)
      ∨ (roundHalfEven x = ⌊x⌋ + 1 ∧ 1 / 2 ≤ x - ⌊x⌋) := by
  unfold roundHalfEven
  simp only
  split_ifs with h1 h2 h3
  · exact Or.inl ⟨rfl, le_of_lt h1⟩
  · exact Or.inr ⟨rfl, le_of_lt h2⟩
  · exact Or.inl ⟨rfl, not_lt.1 h2⟩
  · exact Or.inr ⟨rfl, not_lt.1 h1⟩

theorem roundHalfEven_intCast (n : Int) : roundHalfEven (n : ℚ) = n := by
  unfold roundHalfEven
  simp

theorem roundHalfEven_err (x : ℚ) : |(roundHalfEven x : ℚ) - x| ≤ 1 / 2 := by
  have h0 := Int.floor_le x
  have h1 := Int.lt_floor_add_one x
  rcases roundHalfEven_cases x with ⟨h, hh⟩ | ⟨h, hh⟩
  · rw [h, abs_le]; constructor <;> linarith
  · rw [h, abs_le]; push_cast; constructor <;> linarith

theorem roundHalfEven_mono {x y : ℚ} (h : x ≤ y) : roundHalfEven x ≤ roundHalfEven y := by
  have hf : ⌊x⌋ ≤ ⌊y⌋ := Int.floor_le_floor h
  rcases lt_or_eq_of_le hf with hlt | heq
  · have hx : roundHalfEven x ≤ ⌊x⌋ + 1 := by
      rcases roundHalfEven_cases x with ⟨h, _⟩ | ⟨h, _⟩ <;> omega
    have hy : ⌊y⌋ ≤ roundHalfEven y := by
      rcases roundHalfEven_cases y with ⟨h, _⟩ | ⟨h, _⟩ <;> omega
    omega
  · unfold roundHalfEven
    simp only
    rw [← heq]
    split_ifs <;> first | omega | (exfalso; linarith)


theorem roundHalfEven_nonneg {x : ℚ} (h : 0 ≤ x) : 0 ≤ roundHalfEven x := by
  have := roundHalfEven_mono h
  rwa [show ((0 : ℚ)) = ((0 : Int) : ℚ) by norm_num, roundHalfEven_intCast] at this

theorem quantum_pos (e : Int) : (0 : ℚ) < 2 ^ (e - 23) := zpow_pos (by norm_num) _

theorem roundAtExponent_mono (e : Int) {a b : ℚ} (h : a ≤ b) :
    roundAtExponent e a ≤ roundAtExponent e b := by
  unfold roundAtExponent
  have hq := quantum_pos e
  have hdiv : a / 2 ^ (e - 23) ≤ b / 2 ^ (e - 23) := div_le_div_of_nonneg_right h (le_of_lt hq)
  have := roundHalfEven_mono hdiv
  exact mul_le_mul_of_nonneg_right (by exact_mod_cast this) (le_of_lt hq)

theorem roundAtExponent_nonneg (e : Int) {a : ℚ} (h : 0 ≤ a) : 0 ≤ roundAtExponent e a := by
  unfold roundAtExponent
  have hq := quantum_pos e
  have : 0 ≤ roundHalfEven (a / 2 ^ (e - 23)) := roundHalfEven_nonneg (div_nonneg h (le_of_lt hq))
  exact mul_nonneg (by exact_mod_cast this) (le_of_lt hq)

theorem roundAtExponent_multiple (e : Int) (m : Int) :
    roundAtExponent e ((m : ℚ) * 2 ^ (e - 23)) = (m : ℚ) * 2 ^ (e - 23) := by
  unfold roundAtExponent
  have hq := quantum_pos e
  rw [mul_div_assoc, div_self (ne_of_gt hq), mul_one, roundHalfEven_intCast]

theorem zpow_eq_multiple (e k : Int) (h : e - 23 ≤ k) :
    (2 : ℚ) ^ k = (((2 : Int) ^ (k - (e - 23)).toNat : Int) : ℚ) * 2 ^ (e - 23) := by
  have h2 : (2 : ℚ) ≠ 0 := by norm_num
  have hk : k = ((k - (e - 23)).toNat : Int) + (e - 23) := by omega
  conv_lhs => rw [hk]
  rw [zpow_add₀ h2, zpow_natCast]
  push_cast
  rfl

theorem roundAtExponent_zpow (e k : Int) (h : e - 23 ≤ k) :
    roundAtExponent e ((2 : ℚ) ^ k) = 2 ^ k := by
  rw [zpow_eq_multiple e k h, roundAtExponent_multiple]

theorem roundAtExponent_err (e : Int) (a : ℚ) :
    |roundAtExponent e a - a| ≤ 2 ^ (e - 23) / 2 := by
  unfold roundAtExponent
  have hq := quantum_pos e
  have herr := roundHalfEven_err (a / 2 ^ (e - 23))
  have ha : a = a / 2 ^ (e - 23) * 2 ^ (e - 23) := by
    field_simp
  have : (roundHalfEven (a / 2 ^ (e - 23)) : ℚ) * 2 ^ (e - 23) - a
      = ((roundHalfEven (a / 2 ^ (e - 23)) : ℚ) - a / 2 ^ (e - 23)) * 2 ^ (e - 23) := by
    rw [sub_mul, ← ha]
  rw [this, abs_mul, abs_of_pos hq]
  calc |(roundHalfEven (a / 2 ^ (e - 23)) : ℚ) - a / 2 ^ (e - 23)| * 2 ^ (e - 23)
      ≤ 1 / 2 * 2 ^ (e - 23) := mul_le_mul_of_nonneg_right herr (le_of_lt hq)
    _ = 2 ^ (e - 23) / 2 := by ring

theorem lt_zpow_binary32Exponent {a : ℚ} : a < 2 ^ (binary32Exponent a + 1) := by
  have h := Int.lt_zpow_succ_log_self (R := ℚ) (b := 2) (by norm_num) a
  have hle : Int.log 2 a + 1 ≤ binary32Exponent a + 1 := by
    unfold binary32Exponent
    have := le_max_left (Int.log 2 a) (-126)
    omega
  have := zpow_le_zpow_right₀ (a := (2 : ℚ)) (by norm_num) hle
  simp only [Nat.cast_ofNat] at h
  exact lt_of_lt_of_le h this

theorem binary32Exponent_ge (a : ℚ) : -126 ≤ binary32Exponent a := le_max_right _ _

theorem zpow_binary32Exponent_le {a : ℚ} (ha : 0 < a) (h : -126 < binary32Exponent a) :
    (2 : ℚ) ^ binary32Exponent a ≤ a := by
  have he : binary32Exponent a = Int.log 2 a := by
    unfold binary32Exponent at h ⊢
    rcases max_cases (Int.log 2 a) (-126) with ⟨h1, _⟩ | ⟨h1, _⟩
    · exact h1
    · rw [h1] at h; omega
  rw [he]
  have := Int.zpow_log_le_self (R := ℚ) (b := 2) (by norm_num) ha
  simpa using this

theorem binary32Exponent_mono {a b : ℚ} (ha : 0 < a) (h : a ≤ b) :
    binary32Exponent a ≤ binary32Exponent b := by
  unfold binary32Exponent
  exact max_le_max (Int.log_mono_right ha h) (le_refl _)

theorem binary32Exponent_eq {a : ℚ} (e : Int) (he : -126 ≤ e) (h1 : (2 : ℚ) ^ e ≤ a)
    (h2 : a < 2 ^ (e + 1)) : binary32Exponent a = e := by
  have ha : 0 < a := lt_of_lt_of_le (zpow_pos (by norm_num) e) h1
  have hlog : Int.log 2 a = e := by
    apply le_antisymm
    · have := (Int.lt_zpow_iff_log_lt (R := ℚ) (b := 2) (by norm_num) ha).1
        (by simpa using h2)
      omega
    · exact (Int.zpow_le_iff_le_log (R := ℚ) (b := 2) (by norm_num) ha).1 (by simpa using h1)
  unfold binary32Exponent
  rw [hlog]
  exact max_eq_left he

theorem binary32Exponent_subnormal {a : ℚ} (ha : 0 < a) (h : a < 2 ^ (-126 : Int)) :
    binary32Exponent a = -126 := by
  have := (Int.lt_zpow_iff_log_lt (R := ℚ) (b := 2) (x := -126) (by norm_num) ha).1
    (by rw [Nat.cast_ofNat]; exact h)
  unfold binary32Exponent
  exact max_eq_right (le_of_lt this)

theorem roundBinary32_of_pos {x : ℚ} (h : 0 < x) :
    roundBinary32 x = roundAtExponent (binary32Exponent x) x := by
  unfold roundBinary32
  rw [if_neg (ne_of_gt h), if_neg (not_lt.2 (le_of_lt h)), abs_of_pos h]

theorem roundBinary32_zero : roundBinary32 0 = 0 := by
  simp [roundBinary32]

theorem roundBinary32_nonneg {x : ℚ} (h : 0 ≤ x) : 0 ≤ roundBinary32 x := by
  rcases eq_or_lt_of_le h with h0 | hpos
  · rw [← h0, roundBinary32_zero]
  · rw [roundBinary32_of_pos hpos]
    exact roundAtExponent_nonneg _ h

theorem roundBinary32_zpow (k : Int) (h : -149 ≤ k) : roundBinary32 ((2 : ℚ) ^ k) = 2 ^ k := by
  have hpos : (0 : ℚ) < 2 ^ k := zpow_pos (by norm_num) k
  rw [roundBinary32_of_pos hpos]
  apply roundAtExponent_zpow
  by_cases hk : -126 ≤ k
  · rw [binary32Exponent_eq k hk (le_refl _)
      (zpow_lt_zpow_right₀ (by norm_num) (by omega))]
    omega
  · rw [binary32Exponent_subnormal hpos
      (zpow_lt_zpow_right₀ (by norm_num) (by omega))]
    omega

theorem roundBinary32_one : roundBinary32 1 = 1 := by
  have := roundBinary32_zpow 0 (by norm_num)
  simpa using this

theorem roundBinary32_mono {x y : ℚ} (hx : 0 ≤ x) (h : x ≤ y) :
    roundBinary32 x ≤ roundBinary32 y := by
  rcases eq_or_lt_of_le hx with h0 | hpos
  · rw [← h0, roundBinary32_zero]
    exact roundBinary32_nonneg (le_trans hx h)
  · have hypos : 0 < y := lt_of_lt_of_le hpos h
    rw [roundBinary32_of_pos hpos, roundBinary32_of_pos hypos]
    rcases eq_or_lt_of_le (binary32Exponent_mono hpos h) with he | hlt
    · rw [he]
      exact roundAtExponent_mono _ h
    · have h1 : x ≤ 2 ^ (binary32Exponent x + 1) := le_of_lt lt_zpow_binary32Exponent
      have h2 : (2 : ℚ) ^ (binary32Exponent x + 1) ≤ 2 ^ binary32Exponent y :=
        zpow_le_zpow_right₀ (by norm_num) (by omega)
      have h3 : (2 : ℚ) ^ binary32Exponent y ≤ y :=
        zpow_binary32Exponent_le hypos (by have := binary32Exponent_ge x; omega)
      calc roundAtExponent (binary32Exponent x) x
          ≤ roundAtExponent (binary32Exponent x) (2 ^ (binary32Exponent x + 1)) :=
            roundAtExponent_mono _ h1
        _ = 2 ^ (binary32Exponent x + 1) := roundAtExponent_zpow _ _ (by omega)
        _ ≤ 2 ^ binary32Exponent y := h2
        _ = roundAtExponent (binary32Exponent y) (2 ^ binary32Exponent y) :=
            (roundAtExponent_zpow _ _ (by omega)).symm
        _ ≤ roundAtExponent (binary32Exponent y) y := roundAtExponent_mono _ h3


theorem binary32Exponent_of_bounds {r : ℚ} (e : Int) (he : -126 ≤ e) (hr : 0 < r)
    (hlo : -126 < e → (2 : ℚ) ^ e ≤ r) (hhi : r < 2 ^ (e + 1)) : binary32Exponent r = e := by
  rcases eq_or_lt_of_le he with h126 | hgt
  · subst h126
    by_cases h : (2 : ℚ) ^ (-126 : Int) ≤ r
    · exact binary32Exponent_eq (-126) (le_refl _) h hhi
    · exact binary32Exponent_subnormal hr (not_le.1 h)
  · exact binary32Exponent_eq e he (hlo hgt) hhi

theorem roundBinary32_idem {x : ℚ} (hx : 0 ≤ x) :
    roundBinary32 (roundBinary32 x) = roundBinary32 x := by
  rcases eq_or_lt_of_le hx with h0 | hpos
  · rw [← h0, roundBinary32_zero, roundBinary32_zero]
  · rw [roundBinary32_of_pos hpos]
    have he := binary32Exponent_ge x
    have hr0 : 0 ≤ roundAtExponent (binary32Exponent x) x := roundAtExponent_nonneg _ hx
    have hhi : roundAtExponent (binary32Exponent x) x ≤ 2 ^ (binary32Exponent x + 1) := by
      have := roundAtExponent_mono (binary32Exponent x)
        (le_of_lt (lt_zpow_binary32Exponent (a := x)))
      rwa [roundAtExponent_zpow _ _ (by omega)] at this
    rcases eq_or_lt_of_le hr0 with hz | hrpos
    · rw [← hz, roundBinary32_zero]
    · rcases eq_or_lt_of_le hhi with htop | hlt
      · rw [htop]
        exact roundBinary32_zpow _ (by omega)
      · have hexp : binary32Exponent (roundAtExponent (binary32Exponent x) x)
            = binary32Exponent x := by
          apply binary32Exponent_of_bounds _ he hrpos _ hlt
          intro hgt
          have := roundAtExponent_mono (binary32Exponent x) (zpow_binary32Exponent_le hpos hgt)
          rwa [roundAtExponent_zpow _ _ (by omega)] at this
        rw [roundBinary32_of_pos hrpos, hexp]
        exact roundAtExponent_multiple _ _

theorem roundBinary32_err_unit {x : ℚ} (h0 : 0 ≤ x) (h1 : x ≤ 1) :
    |roundBinary32 x - x| ≤ 1 / 2 ^ 25 := by
  rcases eq_or_lt_of_le h0 with hz | hpos
  · rw [← hz, roundBinary32_zero]; norm_num
  · rcases eq_or_lt_of_le h1 with hone | hlt
    · rw [hone, roundBinary32_one]; norm_num
    · have hlog : Int.log 2 x < 0 :=
        (Int.lt_zpow_iff_log_lt (R := ℚ) (b := 2) (x := 0) (by norm_num) hpos).1
          (by simpa using hlt)
      have he : binary32Exponent x ≤ -1 := by
        unfold binary32Exponent
        exact max_le (by omega) (by norm_num)
      rw [roundBinary32_of_pos hpos]
      have hq : (2 : ℚ) ^ (binary32Exponent x - 23) ≤ 2 ^ (-24 : Int) :=
        zpow_le_zpow_right₀ (by norm_num) (by omega)
      calc |roundAtExponent (binary32Exponent x) x - x|
          ≤ 2 ^ (binary32Exponent x - 23) / 2 := roundAtExponent_err _ _
        _ ≤ 2 ^ (-24 : Int) / 2 := div_le_div_of_nonneg_right hq (by norm_num)
        _ = 1 / 2 ^ 25 := by norm_num

/-- A value `a` in the binade of exponent `e`, `-126 ≤ e`, is rounded at that exponent. -/
theorem roundBinary32_eq_of_bounds {a : ℚ} (e : Int) (he : -126 ≤ e) (h1 : (2 : ℚ) ^ e ≤ a)
    (h2 : a < 2 ^ (e + 1)) : roundBinary32 a = roundAtExponent e a := by
  have ha : 0 < a := lt_of_lt_of_le (zpow_pos (by norm_num) e) h1
  rw [roundBinary32_of_pos ha, binary32Exponent_eq e he h1 h2]

theorem roundHalfEven_eq_of_near (x : ℚ) (m : Int) (h : |x - (m : ℚ)| < 1 / 2) :
    roundHalfEven x = m := by
  rw [abs_lt] at h
  have h0 := Int.floor_le x
  have h1 := Int.lt_floor_add_one x
  rcases roundHalfEven_cases x with ⟨hr, hh⟩ | ⟨hr, hh⟩
  · rw [hr]
    have hlo : (m : ℚ) < (⌊x⌋ : ℚ) + 1 := by linarith
    have hhi : (⌊x⌋ : ℚ) < (m : ℚ) + 1 := by linarith
    have hlo' : m < ⌊x⌋ + 1 := by exact_mod_cast hlo
    have hhi' : ⌊x⌋ < m + 1 := by exact_mod_cast hhi
    omega
  · rw [hr]
    have hlo : (m : ℚ) < (⌊x⌋ : ℚ) + 1 + 1 := by linarith
    have hhi : (⌊x⌋ : ℚ) + 1 < (m : ℚ) + 1 := by linarith
    have hlo' : m < ⌊x⌋ + 1 + 1 := by exact_mod_cast hlo
    have hhi' : ⌊x⌋ + 1 < m + 1 := by exact_mod_cast hhi
    omega

/-- The rounding of a value `a` of exponent `e` whose multiple of the quantum nearest to it is
the `m`-th. -/
theorem roundBinary32_eq_of_near {a : ℚ} (e : Int) (m : Int) (he : -126 ≤ e)
    (h1 : (2 : ℚ) ^ e ≤ a) (h2 : a < 2 ^ (e + 1))
    (hm : |a / 2 ^ (e - 23) - (m : ℚ)| < 1 / 2) :
    roundBinary32 a = (m : ℚ) * 2 ^ (e - 23) := by
  rw [roundBinary32_eq_of_bounds e he h1 h2]
  unfold roundAtExponent
  rw [roundHalfEven_eq_of_near _ m hm]

/-- The rounding to `float` keeps the contract of a rounding to `BaseFloat` on `[0, 1]`, with
the error `2^-25`. -/
theorem roundBinary32_rounding : BaseFloatRounding roundBinary32 (1 / 2 ^ 25) :=
  ⟨roundBinary32_zero, roundBinary32_one,
    fun _ _ hx hxy _ => roundBinary32_mono hx hxy,
    fun _ hx _ => roundBinary32_idem hx,
    fun _ hx hx1 => roundBinary32_err_unit hx hx1⟩

/-! ### The training-example synthesizer -/

theorem Contracts_RandInt (lo hi : Int) (g : RandomState) (h : g.Contracts) :
    (RandInt lo hi g).2.Contracts :=
  ⟨fun k lo hi hle => h.1 (k + 1) lo hi hle, fun k => h.2 k⟩

theorem Contracts_RandUniform (g : RandomState) (h : g.Contracts) :
    (RandUniform g).2.Contracts :=
  ⟨fun k lo hi hle => h.1 k lo hi hle, fun k => h.2 (k + 1)⟩

theorem Contracts_SetRandn (num_rows num_cols : Nat) (g : RandomState) (h : g.Contracts) :
    (SetRandn num_rows num_cols g).2.Contracts :=
  ⟨fun k lo hi hle => h.1 k lo hi hle, fun k => h.2 k⟩

theorem appendAt_nil : ∀ (labels : Posterior) (t : Nat), appendAt labels t [] = labels := by
  intro labels
  induction labels with
  | nil => intro t; rfl
  | cons frame frames ih =>
    intro t
    cases t with
    | zero => simp [appendAt]
    | succ t => simp [appendAt, ih]

theorem appendAt_appendAt : ∀ (labels : Posterior) (t : Nat) (a b : List (Int × ℚ)),
    appendAt (appendAt labels t a) t b = appendAt labels t (a ++ b) := by
  intro labels
  induction labels with
  | nil => intro t a b; rfl
  | cons frame frames ih =>
    intro t a b
    cases t with
    | zero => simp [appendAt]
    | succ t => simp [appendAt, ih]

theorem appendAt_append : ∀ (done : Posterior) (frame : List (Int × ℚ)) (rest : Posterior)
    (items : List (Int × ℚ)),
    appendAt (done ++ frame :: rest) done.length items = done ++ (frame ++ items) :: rest := by
  intro done
  induction done with
  | nil => intro frame rest items; rfl
  | cons d ds ih =>
    intro frame rest items
    simp [appendAt, ih]

theorem drawing_Contracts (ds : List Int) (u : ℚ) (h0 : 0 ≤ u) (h1 : u ≤ 1) :
    (RandomState.drawing ds u).Contracts :=
  ⟨fun _ _ _ h => ⟨le_max_left _ _, max_le h (min_le_left _ _)⟩, fun _ => ⟨h0, h1⟩⟩

/-- The loop of lines 470-476, with `k` iterations left from `i`: it extends `labels[t]` by `k`
pairs with class indices in `[0, output_dim)`.  When `rnd` keeps the contract of a rounding
and the mass `rem` that remains is a `BaseFloat` in `[0, 1]`, the probabilities are in
`[0, 1]`, after a last iteration no mass remains, and the probabilities add up to `rem` up to
the roundings of the `k - 1` subtractions before the last one. -/
theorem labelLoop_spec (rnd : ℚ → ℚ) (eps : ℚ) (output_dim num_labels t : Int)
    (ho : 0 < output_dim) :
    ∀ (k : Nat) (i : Int) (rem : ℚ) (labels : Posterior) (g : RandomState),
      i + (k : Int) = num_labels → g.Contracts →
      ∃ (items : List (Int × ℚ)) (rem' : ℚ) (g' : RandomState),
        forLoop (labelStep rnd output_dim num_labels t) k i (rem, labels, g)
            = (rem', appendAt labels t.toNat items, g')
          ∧ items.length = k
          ∧ (∀ cp, cp ∈ items → 0 ≤ cp.1 ∧ cp.1 < output_dim)
          ∧ g'.Contracts
          ∧ (BaseFloatRounding rnd eps → 0 ≤ rem → rem ≤ 1 → rnd rem = rem →
              (∀ cp, cp ∈ items → 0 ≤ cp.2 ∧ cp.2 ≤ 1)
                ∧ (k = 0 → rem' = rem)
                ∧ (0 < k → rem' = 0
                    ∧ |(items.map Prod.snd).sum - rem| ≤ ((k : ℚ) - 1) * eps)) := by
  intro k
  induction k with
  | zero =>
    intro i rem labels g _ hg
    exact ⟨[], rem, g, by simp [forLoop, appendAt_nil], rfl, by simp, hg,
      fun _ _ _ _ => ⟨by simp, fun _ => rfl, fun h => absurd h (Nat.lt_irrefl 0)⟩⟩
  | succ k ih =>
    intro i rem labels g hik hg
    -- the fraction taken by this label
    have hu : ∃ u : ℚ, ∃ g1 : RandomState,
        (if i + 1 = num_labels then ((1 : ℚ), g) else RandUniform g) = (u, g1)
          ∧ 0 ≤ u ∧ u ≤ 1 ∧ g1.Contracts ∧ (i + 1 = num_labels → u = 1) := by
      by_cases hlast : i + 1 = num_labels
      · exact ⟨1, g, by simp [hlast], by norm_num, le_refl _, hg, fun _ => rfl⟩
      · exact ⟨g.randUniform 0, (RandUniform g).2, by simp [hlast, RandUniform],
          (hg.2 0).1, (hg.2 0).2, Contracts_RandUniform g hg, fun h => absurd h hlast⟩
    obtain ⟨u, g1, hug, hu0, hu1, hg1, hulast⟩ := hu
    have hc := hg1.1 0 0 (output_dim - 1) (by omega)
    have hstep : labelStep rnd output_dim num_labels t i (rem, labels, g)
        = (rnd (rem - rnd (u * rem)),
            appendAt labels t.toNat [(g1.randInt 0 0 (output_dim - 1), rnd (u * rem))],
            (RandInt 0 (output_dim - 1) g1).2) := by
      simp only [labelStep, hug, RandInt]
    have hik' : i + 1 + (k : Int) = num_labels := by
      rw [← hik]; push_cast; ring
    obtain ⟨items, rem', g', hrun, hlen, hitems, hg', hnum⟩ :=
      ih (i + 1) (rnd (rem - rnd (u * rem))) _ _ hik'
        (Contracts_RandInt 0 (output_dim - 1) g1 hg1)
    refine ⟨(g1.randInt 0 0 (output_dim - 1), rnd (u * rem)) :: items, rem', g', ?_, ?_, ?_,
      hg', ?_⟩
    · rw [forLoop, hstep, hrun, appendAt_appendAt]
      rfl
    · simp [hlen]
    · intro cp hcp
      rcases List.mem_cons.1 hcp with rfl | hcp
      · exact ⟨hc.1, by have := hc.2; omega⟩
      · exact hitems cp hcp
    · intro hrnd h0 h1 hfix
      obtain ⟨hr0, _, hmono, hidem, herr⟩ := hrnd
      have hprod0 : 0 ≤ u * rem := mul_nonneg hu0 h0
      have hprod1 : u * rem ≤ rem := by
        calc u * rem ≤ 1 * rem := mul_le_mul_of_nonneg_right hu1 h0
          _ = rem := one_mul rem
      -- the probability of this label, a `BaseFloat` between 0 and the remaining mass
      have hthis0 : 0 ≤ rnd (u * rem) := by
        have := hmono 0 (u * rem) (le_refl _) hprod0 (le_trans hprod1 h1)
        rwa [hr0] at this
      have hthis1 : rnd (u * rem) ≤ rem := by
        have := hmono (u * rem) rem hprod0 hprod1 h1
        rwa [hfix] at this
      -- the mass that remains, a `BaseFloat` between 0 and the mass there was
      have hdiff0 : 0 ≤ rem - rnd (u * rem) := by linarith
      have hdiff1 : rem - rnd (u * rem) ≤ rem := by linarith
      have hrem0 : 0 ≤ rnd (rem - rnd (u * rem)) := by
        have := hmono 0 (rem - rnd (u * rem)) (le_refl _) hdiff0 (le_trans hdiff1 h1)
        rwa [hr0] at this
      have hrem1 : rnd (rem - rnd (u * rem)) ≤ rem := by
        have := hmono (rem - rnd (u * rem)) rem hdiff0 hdiff1 h1
        rwa [hfix] at this
      have hremfix : rnd (rnd (rem - rnd (u * rem))) = rnd (rem - rnd (u * rem)) :=
        hidem _ hdiff0 (le_trans hdiff1 h1)
      obtain ⟨hprobs, hzero, hpos⟩ :=
        hnum ⟨hr0, by assumption, hmono, hidem, herr⟩ hrem0 (le_trans hrem1 h1) hremfix
      refine ⟨?_, fun h => absurd h (Nat.succ_ne_zero k), fun _ => ?_⟩
      · intro cp hcp
        rcases List.mem_cons.1 hcp with rfl | hcp
        · exact ⟨hthis0, le_trans hthis1 h1⟩
        · exact hprobs cp hcp
      · cases k with
        | zero =>
          have hlast : i + 1 = num_labels := by simpa using hik
          have hu : u = 1 := hulast hlast
          have hnil : items = [] := List.length_eq_zero.1 hlen
          have hthis : rnd (u * rem) = rem := by rw [hu, one_mul, hfix]
          refine ⟨?_, ?_⟩
          · rw [hzero rfl, hthis, sub_self, hr0]
          · rw [hnil, hthis]
            simp
        | succ k =>
          obtain ⟨hz, hsum⟩ := hpos (Nat.succ_pos k)
          refine ⟨hz, ?_⟩
          have hround := herr (rem - rnd (u * rem)) hdiff0 (le_trans hdiff1 h1)
          rw [abs_le] at hsum hround ⊢
          simp only [List.map_cons, List.sum_cons]
          push_cast at hsum ⊢
          constructor <;> linarith [hsum.1, hsum.2, hround.1, hround.2]

/-- The body of the loop of lines 467-477: it extends `labels[t]` by a frame of between 1 and 3
pairs with class indices in `[0, output_dim)`; when `rnd` keeps the contract of a rounding,
the probabilities are in `[0, 1]` and sum to 1 up to the roundings. -/
theorem frameStep_spec (rnd : ℚ → ℚ) (eps : ℚ) (output_dim : Int) (ho : 0 < output_dim)
    (t : Int) (labels : Posterior) (g : RandomState) (hg : g.Contracts) :
    ∃ (items : List (Int × ℚ)) (g' : RandomState),
      frameStep rnd output_dim t (labels, g) = (appendAt labels t.toNat items, g')
        ∧ labelledFrame output_dim items
        ∧ (BaseFloatRounding rnd eps → goodFrame eps output_dim items)
        ∧ g'.Contracts := by
  have hn := hg.1 0 1 3 (by norm_num)
  have hk : (0 : Int) + ((g.randInt 0 1 3 - 0).toNat : Int) = g.randInt 0 1 3 := by
    rw [Int.sub_zero, Int.toNat_of_nonneg (by omega)]
    ring
  obtain ⟨items, rem', g', hrun, hlen, hitems, hg', hnum⟩ :=
    labelLoop_spec rnd eps output_dim (g.randInt 0 1 3) t ho (g.randInt 0 1 3 - 0).toNat
      0 1 labels (RandInt 1 3 g).2 hk (Contracts_RandInt 1 3 g hg)
  have hkpos : 0 < (g.randInt 0 1 3 - 0).toNat := by
    rw [Int.sub_zero]; omega
  have hle : (g.randInt 0 1 3 - 0).toNat ≤ 3 := by
    rw [Int.sub_zero]; omega
  refine ⟨items, g', ?_, ⟨by omega, by omega, hitems⟩, ?_, hg'⟩
  · simp only [frameStep, forRange, RandInt_fst, hrun]
  · intro hrnd
    obtain ⟨hprobs, _, hpos⟩ := hnum hrnd (by norm_num) (le_refl _) hrnd.2.1
    refine ⟨by omega, by omega, fun cp hcp => ⟨(hitems cp hcp).1, (hitems cp hcp).2,
      (hprobs cp hcp).1, (hprobs cp hcp).2⟩, ?_⟩
    rw [hlen]
    exact (hpos hkpos).2

/-- The loop of lines 467-477, with `k` iterations left from `t`: it fills the `k` frames from
`t` on. -/
theorem frameLoop_spec (rnd : ℚ → ℚ) (eps : ℚ) (output_dim : Int) (ho : 0 < output_dim) :
    ∀ (k : Nat) (done : Posterior) (g : RandomState), g.Contracts →
      ∃ (frames : Posterior) (g' : RandomState),
        forLoop (frameStep rnd output_dim) k (done.length : Int)
            (done ++ List.replicate k [], g) = (done ++ frames, g')
          ∧ frames.length = k
          ∧ (∀ frame, frame ∈ frames → labelledFrame output_dim frame)
          ∧ (BaseFloatRounding rnd eps →
              ∀ frame, frame ∈ frames → goodFrame eps output_dim frame)
          ∧ g'.Contracts := by
  intro k
  induction k with
  | zero =>
    intro done g hg
    exact ⟨[], g, by simp [forLoop], rfl, by simp, fun _ => by simp, hg⟩
  | succ k ih =>
    intro done g hg
    obtain ⟨items, g1, hstep, hlab, hgood, hg1⟩ :=
      frameStep_spec rnd eps output_dim ho (done.length : Int)
        (done ++ List.replicate (k + 1) []) g hg
    obtain ⟨frames, g', hrun, hlen, hlabs, hframes, hg'⟩ := ih (done ++ [items]) g1 hg1
    refine ⟨items :: frames, g', ?_, by simp [hlen], ?_, ?_, hg'⟩
    · rw [forLoop, hstep, Int.toNat_ofNat, List.replicate_succ, appendAt_append,
        List.nil_append]
      have hcast : ((done.length : Int) + 1) = ((done ++ [items]).length : Int) := by
        simp
      rw [hcast]
      have hlist : done ++ items :: List.replicate k ([] : List (Int × ℚ))
          = (done ++ [items]) ++ List.replicate k [] := by simp
      rw [hlist, hrun]
      simp
    · intro frame hf
      rcases List.mem_cons.1 hf with rfl | hf
      · exact hlab
      · exact hlabs frame hf
    · intro hrnd frame hf
      rcases List.mem_cons.1 hf with rfl | hf
      · exact hgood hrnd
      · exact hframes hrnd frame hf

/-! ### The blocks of a training example -/

theorem timeIndexes_one (t_begin : Int) :
    timeIndexes t_begin 1 = [{ n := 0, t := t_begin, x := 0 }] := by
  simp [timeIndexes, List.range_succ]

/-- The call on arguments that pass the assertion and whose sums fit in `int32`, past the
assertion and the tests of overflow. -/
theorem GenerateSimpleNnetTrainingExample_eq (rnd : ℚ → ℚ) (lossy : Matrix → Matrix)
    (num_supervised_frames left_context right_context output_dim input_dim ivector_dim : Int)
    (eg : NnetExample) (g : RandomState)
    (hn : num_supervised_frames > 0) (hl : left_context ≥ 0) (hr : right_context ≥ 0)
    (ho : output_dim > 0) (hi : input_dim > 0)
    (hfit : left_context + right_context + num_supervised_frames ≤ int32Max)
    (htime : g.randInt 0 0 2 + (left_context + right_context + num_supervised_frames - 1)
      ≤ int32Max) :
    GenerateSimpleNnetTrainingExample rnd lossy num_supervised_frames left_context right_context
        output_dim input_dim ivector_dim (some eg) g
      = (let tg := RandInt 0 2 g
         let mg := SetRandn (left_context + right_context + num_supervised_frames).toNat
           input_dim.toNat tg.2
         let input_feat := NnetIo.ofMatrix "input" tg.1 mg.1
         let dg := RandInt 0 1 mg.2
         let input_feat :=
           if dg.1 = 0 then { input_feat with features := input_feat.features.Compress lossy }
           else input_feat
         let iog :=
           if ivector_dim > 0 then
             let mg := SetRandn 1 ivector_dim.toNat dg.2
             let ivector_feat := NnetIo.ofMatrix "ivector" 0 mg.1
             let dg := RandInt 0 1 mg.2
             let ivector_feat :=
               if dg.1 = 0 then
                 { ivector_feat with features := ivector_feat.features.Compress lossy }
               else ivector_feat
             ([input_feat] ++ [ivector_feat], dg.2)
           else ([input_feat], dg.2)
         let lg := forRange 0 num_supervised_frames (frameStep rnd output_dim)
           (List.replicate num_supervised_frames.toNat [], iog.2)
         .returned ({ io := iog.1
           ++ [NnetIo.ofPosterior "output" output_dim (tg.1 + left_context) lg.1] }, lg.2)) := by
  have hcond : num_supervised_frames > 0 ∧ left_context ≥ 0 ∧ right_context ≥ 0
      ∧ output_dim > 0 ∧ input_dim > 0 ∧ (some eg).isSome = true :=
    ⟨hn, hl, hr, ho, hi, rfl⟩
  have h1 : ¬ (left_context + right_context + num_supervised_frames > int32Max) :=
    not_lt.2 hfit
  have h2 : ¬ ((RandInt 0 2 g).1
      + (left_context + right_context + num_supervised_frames - 1) > int32Max) :=
    not_lt.2 htime
  unfold GenerateSimpleNnetTrainingExample
  rw [if_neg (not_not.2 hcond)]
  simp only [h1, h2, if_false, List.nil_append]

/-- What `GenerateSimpleNnetTrainingExample` returns on arguments that pass the assertion and
whose sums fit in `int32`: a block `input`, a block `ivector` exactly when `ivector_dim > 0`,
and the block `output` of the supervision, nothing being kept of the example that came in. -/
theorem GenerateSimpleNnetTrainingExample_spec (rnd : ℚ → ℚ) (lossy : Matrix → Matrix)
    (hlossy : ∀ m, (lossy m).num_rows = m.num_rows ∧ (lossy m).num_cols = m.num_cols)
    (num_supervised_frames left_context right_context output_dim input_dim ivector_dim : Int)
    (eg : NnetExample) (g : RandomState)
    (hn : num_supervised_frames > 0) (hl : left_context ≥ 0) (hr : right_context ≥ 0)
    (ho : output_dim > 0) (hi : input_dim > 0)
    (hfit : left_context + right_context + num_supervised_frames ≤ int32Max)
    (htime : g.randInt 0 0 2 + (left_context + right_context + num_supervised_frames - 1)
      ≤ int32Max)
    (hg : g.Contracts) :
    ∃ (input_block : NnetIo) (ivector_blocks : List NnetIo) (frames : Posterior)
      (g' : RandomState),
      GenerateSimpleNnetTrainingExample rnd lossy num_supervised_frames left_context
          right_context output_dim input_dim ivector_dim (some eg) g
        = .returned ({ io := [input_block] ++ ivector_blocks
            ++ [NnetIo.ofPosterior "output" output_dim (g.randInt 0 0 2 + left_context)
                frames] }, g')
        ∧ (input_block.name = "input"
          ∧ input_block.indexes = timeIndexes (g.randInt 0 0 2)
              (left_context + right_context + num_supervised_frames).toNat
          ∧ input_block.features.NumRows
              = (left_context + right_context + num_supervised_frames).toNat
          ∧ input_block.features.NumCols = input_dim.toNat)
        ∧ (ivector_dim > 0 → ∃ b, ivector_blocks = [b] ∧ b.name = "ivector"
            ∧ b.indexes = timeIndexes 0 1 ∧ b.features.NumRows = 1
            ∧ b.features.NumCols = ivector_dim.toNat)
        ∧ (¬ ivector_dim > 0 → ivector_blocks = [])
        ∧ frames.length = num_supervised_frames.toNat
        ∧ ∀ frame, frame ∈ frames → labelledFrame output_dim frame := by
  have htail : ∀ (io : List NnetIo) (tb : Int) (g3 : RandomState), g3.Contracts →
      ∀ R : Outcome (NnetExample × RandomState),
        R = .returned
          ({ io := io ++ [NnetIo.ofPosterior "output" output_dim tb
              (forRange 0 num_supervised_frames (frameStep rnd output_dim)
                (List.replicate num_supervised_frames.toNat [], g3)).1] },
            (forRange 0 num_supervised_frames (frameStep rnd output_dim)
              (List.replicate num_supervised_frames.toNat [], g3)).2) →
        ∃ (frames : Posterior) (g' : RandomState),
          R = .returned ({ io := io ++ [NnetIo.ofPosterior "output" output_dim tb frames] }, g')
            ∧ frames.length = num_supervised_frames.toNat
            ∧ ∀ frame, frame ∈ frames → labelledFrame output_dim frame := by
    intro io tb g3 hg3 R hR
    obtain ⟨frames, g', hrun, hlen, hframes, _, _⟩ :=
      frameLoop_spec rnd 0 output_dim ho num_supervised_frames.toNat [] g3 hg3
    have hrun' : forRange 0 num_supervised_frames (frameStep rnd output_dim)
        (List.replicate num_supervised_frames.toNat [], g3) = (frames, g') := by
      rw [forRange, Int.sub_zero]
      simpa using hrun
    rw [hrun'] at hR
    exact ⟨frames, g', hR, hlen, hframes⟩
  have hg1 := Contracts_RandInt 0 2 g hg
  have hg2 := Contracts_SetRandn (left_context + right_context + num_supervised_frames).toNat
    input_dim.toNat _ hg1
  have hg3 := Contracts_RandInt 0 1 _ hg2
  have heq := GenerateSimpleNnetTrainingExample_eq rnd lossy num_supervised_frames left_context
    right_context output_dim input_dim ivector_dim eg g hn hl hr ho hi hfit htime
  by_cases hiv : ivector_dim > 0
  · have hg4 := Contracts_SetRandn 1 ivector_dim.toNat _ hg3
    have hg5 := Contracts_RandInt 0 1 _ hg4
    obtain ⟨frames, g', hR, hlen, hframes⟩ := htail _ _ _ hg5
      (GenerateSimpleNnetTrainingExample rnd lossy num_supervised_frames left_context
        right_context output_dim input_dim ivector_dim (some eg) g)
      (by
        rw [heq]
        simp only [hiv, if_true]
        rfl)
    refine ⟨_, [_], frames, g', hR, ⟨?_, ?_, ?_, ?_⟩, ?_, fun h => absurd hiv h, hlen, hframes⟩
    · split_ifs <;> rfl
    · split_ifs <;> rfl
    · split_ifs <;>
        simp [GeneralMatrix.NumRows, GeneralMatrix.GetMatrix, GeneralMatrix.Compress,
          NnetIo.ofMatrix, SetRandn, hlossy]
    · split_ifs <;>
        simp [GeneralMatrix.NumCols, GeneralMatrix.GetMatrix, GeneralMatrix.Compress,
          NnetIo.ofMatrix, SetRandn, hlossy]
    · intro _
      refine ⟨_, rfl, ?_, ?_, ?_, ?_⟩
      · split_ifs <;> rfl
      · split_ifs <;> rfl
      · split_ifs <;>
          simp [GeneralMatrix.NumRows, GeneralMatrix.GetMatrix, GeneralMatrix.Compress,
            NnetIo.ofMatrix, SetRandn, hlossy]
      · split_ifs <;>
          simp [GeneralMatrix.NumCols, GeneralMatrix.GetMatrix, GeneralMatrix.Compress,
            NnetIo.ofMatrix, SetRandn, hlossy]
  · obtain ⟨frames, g', hR, hlen, hframes⟩ := htail _ _ _ hg3
      (GenerateSimpleNnetTrainingExample rnd lossy num_supervised_frames left_context
        right_context output_dim input_dim ivector_dim (some eg) g)
      (by
        rw [heq]
        simp only [hiv, if_false]
        rfl)
    refine ⟨_, [], frames, g', hR, ⟨?_, ?_, ?_, ?_⟩, fun h => absurd h hiv, fun _ => rfl,
      hlen, hframes⟩
    · split_ifs <;> rfl
    · split_ifs <;> rfl
    · split_ifs <;>
        simp [GeneralMatrix.NumRows, GeneralMatrix.GetMatrix, GeneralMatrix.Compress,
          NnetIo.ofMatrix, SetRandn, hlossy]
    · split_ifs <;>
        simp [GeneralMatrix.NumCols, GeneralMatrix.GetMatrix, GeneralMatrix.Compress,
          NnetIo.ofMatrix, SetRandn, hlossy]

/-- The call returns on arguments that pass the assertion and whose sums fit in `int32`. -/
theorem GenerateSimpleNnetTrainingExample_returns (rnd : ℚ → ℚ) (lossy : Matrix → Matrix)
    (num_supervised_frames left_context right_context output_dim input_dim ivector_dim : Int)
    (eg : NnetExample) (g : RandomState)
    (hn : num_supervised_frames > 0) (hl : left_context ≥ 0) (hr : right_context ≥ 0)
    (ho : output_dim > 0) (hi : input_dim > 0)
    (hfit : left_context + right_context + num_supervised_frames ≤ int32Max)
    (htime : g.randInt 0 0 2 + (left_context + right_context + num_supervised_frames - 1)
      ≤ int32Max) :
    ∃ out g', GenerateSimpleNnetTrainingExample rnd lossy num_supervised_frames left_context
      right_context output_dim input_dim ivector_dim (some eg) g = .returned (out, g') := by
  rw [GenerateSimpleNnetTrainingExample_eq rnd lossy num_supervised_frames left_context
    right_context output_dim input_dim ivector_dim eg g hn hl hr ho hi hfit htime]
  exact ⟨_, _, rfl⟩

/-- The call on arguments that pass the assertion and whose sums fit in `int32` returns the
feature blocks followed by the block `output` of the frames that the loop of lines 467-477
writes, from the generator `g3` that the feature blocks leave: two calls of `RandInt` further
than `g`, three when there is a block `ivector`. -/
theorem GenerateSimpleNnetTrainingExample_output (rnd : ℚ → ℚ) (lossy : Matrix → Matrix)
    (num_supervised_frames left_context right_context output_dim input_dim ivector_dim : Int)
    (eg : NnetExample) (g : RandomState)
    (hn : num_supervised_frames > 0) (hl : left_context ≥ 0) (hr : right_context ≥ 0)
    (ho : output_dim > 0) (hi : input_dim > 0)
    (hfit : left_context + right_context + num_supervised_frames ≤ int32Max)
    (htime : g.randInt 0 0 2 + (left_context + right_context + num_supervised_frames - 1)
      ≤ int32Max) :
    ∃ (blocks : List NnetIo) (g3 : RandomState),
      GenerateSimpleNnetTrainingExample rnd lossy num_supervised_frames left_context
          right_context output_dim input_dim ivector_dim (some eg) g
        = .returned
            ({ io := blocks ++ [NnetIo.ofPosterior "output" output_dim
                (g.randInt 0 0 2 + left_context)
                (forRange 0 num_supervised_frames (frameStep rnd output_dim)
                  (List.replicate num_supervised_frames.toNat [], g3)).1] },
              (forRange 0 num_supervised_frames (frameStep rnd output_dim)
                (List.replicate num_supervised_frames.toNat [], g3)).2)
        ∧ (∀ k lo hi, g3.randInt k lo hi
            = g.randInt (k + (if ivector_dim > 0 then 3 else 2)) lo hi)
        ∧ g3.randUniform = g.randUniform := by
  rw [GenerateSimpleNnetTrainingExample_eq rnd lossy num_supervised_frames left_context
    right_context output_dim input_dim ivector_dim eg g hn hl hr ho hi hfit htime]
  by_cases hiv : ivector_dim > 0
  · simp only [hiv, if_true]
    exact ⟨_, _, rfl, fun _ _ _ => rfl, rfl⟩
  · simp only [hiv, if_false]
    exact ⟨_, _, rfl, fun _ _ _ => rfl, rfl⟩

/-- The call on arguments that pass the assertion and whose frame count or last frame time is
above the greatest `int32` ends in a signed overflow. -/
theorem GenerateSimpleNnetTrainingExample_undefined (rnd : ℚ → ℚ) (lossy : Matrix → Matrix)
    (num_supervised_frames left_context right_context output_dim input_dim ivector_dim : Int)
    (eg : NnetExample) (g : RandomState)
    (hn : num_supervised_frames > 0) (hl : left_context ≥ 0) (hr : right_context ≥ 0)
    (ho : output_dim > 0) (hi : input_dim > 0)
    (hover : int32Max < left_context + right_context + num_supervised_frames
      ∨ int32Max < g.randInt 0 0 2
          + (left_context + right_context + num_supervised_frames - 1)) :
    ∃ msg, GenerateSimpleNnetTrainingExample rnd lossy num_supervised_frames left_context
      right_context output_dim input_dim ivector_dim (some eg) g = .undefined msg := by
  have hcond : num_supervised_frames > 0 ∧ left_context ≥ 0 ∧ right_context ≥ 0
      ∧ output_dim > 0 ∧ input_dim > 0 ∧ (some eg).isSome = true :=
    ⟨hn, hl, hr, ho, hi, rfl⟩
  unfold GenerateSimpleNnetTrainingExample
  rw [if_neg (not_not.2 hcond)]
  by_cases h1 : left_context + right_context + num_supervised_frames > int32Max
  · simp only [h1, if_true]
    exact ⟨_, rfl⟩
  · have h2 : (RandInt 0 2 g).1
        + (left_context + right_context + num_supervised_frames - 1) > int32Max := by
      rcases hover with h | h
      · exact absurd h h1
      · exact h
    simp only [h1, h2, if_false, if_true]
    exact ⟨_, rfl⟩

/-! ### The computation request -/

/-- A loop that appends `f t` for each `t`: `k` iterations from `i` append the `f (i + j)` for
`j < k`. -/
theorem pushLoop_eq {α : Type} (f : Int → α) : ∀ (k : Nat) (i : Int) (acc : List α),
    forLoop (fun t acc => acc ++ [f t]) k i acc
      = acc ++ (List.range k).map (fun (j : Nat) => f (i + (j : Int))) := by
  intro k
  induction k with
  | zero => intro i acc; simp [forLoop]
  | succ k ih =>
    intro i acc
    rw [forLoop, ih, List.range_succ_eq_map, List.map_cons, List.map_map, List.append_assoc]
    have hmap : List.map ((fun (j : Nat) => f (i + (j : Int))) ∘ Nat.succ) (List.range k)
        = List.map (fun (j : Nat) => f (i + 1 + (j : Int))) (List.range k) := by
      apply List.map_congr_left
      intro j _
      simp only [Function.comp, Nat.succ_eq_add_one]
      congr 1
      push_cast
      ring
    rw [hmap]
    simp

theorem batchIndexes_succ (n_offset : Int) (k : Nat) (t_begin : Int) (num_frames : Nat) :
    batchIndexes n_offset (k + 1) t_begin num_frames
      = (List.range num_frames).map
          (fun (j : Nat) => ({ n := n_offset, t := t_begin + (j : Int), x := 0 } : Index))
        ++ batchIndexes (n_offset + 1) k t_begin num_frames := by
  simp only [batchIndexes, List.range_succ_eq_map, List.flatMap_cons, List.flatMap_map]
  congr 1
  · simp
  · congr 1
    funext j
    apply List.map_congr_left
    intro i _
    simp only [Nat.succ_eq_add_one]
    congr 1
    push_cast
    ring

/-- The loop of lines 259-265, with `k` iterations left from `n`: the three lists grow by the
indexes of `k` sequences. -/
theorem requestIndexLoop_eq (input_start_frame input_end_frame output_start_frame
    output_end_frame : Int) :
    ∀ (k : Nat) (n : Int) (a b c : List Index),
      forLoop (requestIndexStep input_start_frame input_end_frame output_start_frame
          output_end_frame) k n (a, b, c)
        = (a ++ batchIndexes n k input_start_frame (input_end_frame - input_start_frame).toNat,
            b ++ (List.range k).map
              (fun (j : Nat) => ({ n := n + (j : Int), t := 0, x := 0 } : Index)),
            c ++ batchIndexes n k output_start_frame
              (output_end_frame - output_start_frame).toNat) := by
  intro k
  induction k with
  | zero => intro n a b c; simp [forLoop, batchIndexes]
  | succ k ih =>
    intro n a b c
    have hstep : requestIndexStep input_start_frame input_end_frame output_start_frame
        output_end_frame n (a, b, c)
        = (a ++ (List.range (input_end_frame - input_start_frame).toNat).map
              (fun (j : Nat) => ({ n := n, t := input_start_frame + (j : Int), x := 0 } : Index)),
            b ++ [({ n := n, t := 0, x := 0 } : Index)],
            c ++ (List.range (output_end_frame - output_start_frame).toNat).map
              (fun (j : Nat) =>
                ({ n := n, t := output_start_frame + (j : Int), x := 0 } : Index))) := by
      simp only [requestIndexStep, forRange]
      rw [pushLoop_eq (fun t => ({ n := n, t := t, x := 0 } : Index)),
        pushLoop_eq (fun t => ({ n := n, t := t, x := 0 } : Index))]
    rw [forLoop, hstep, ih, batchIndexes_succ, batchIndexes_succ, List.range_succ_eq_map,
      List.map_cons, List.map_map]
    have hmap : List.map ((fun (j : Nat) => ({ n := n + (j : Int), t := 0, x := 0 } : Index))
          ∘ Nat.succ) (List.range k)
        = List.map (fun (j : Nat) => ({ n := n + 1 + (j : Int), t := 0, x := 0 } : Index))
            (List.range k) := by
      apply List.map_congr_left
      intro j _
      simp only [Function.comp, Nat.succ_eq_add_one]
      congr 1
      push_cast
      ring
    rw [hmap]
    simp

theorem namesAndIndexes_setBackHasDeriv : ∀ specs : List IoSpecification,
    namesAndIndexes (setBackHasDeriv specs) = namesAndIndexes specs := by
  intro specs
  induction specs with
  | nil => rfl
  | cons spec rest ih =>
    cases rest with
    | nil => rfl
    | cons next rest =>
      simp only [namesAndIndexes, setBackHasDeriv, List.map_cons] at ih ⊢
      rw [ih]

theorem namesAndIndexes_markOutputDeriv (need_deriv : Bool) (outputs : List IoSpecification)
    (g : RandomState) :
    namesAndIndexes (markOutputDeriv need_deriv outputs g).1 = namesAndIndexes outputs := by
  unfold markOutputDeriv
  split_ifs <;> simp [namesAndIndexes_setBackHasDeriv]

theorem namesAndIndexes_markInputDeriv (need_deriv : Bool) (inputs : List IoSpecification)
    (g : RandomState) :
    namesAndIndexes (markInputDeriv need_deriv inputs g).1 = namesAndIndexes inputs := by
  unfold markInputDeriv
  split_ifs <;> simp [namesAndIndexes_setBackHasDeriv]

theorem namesAndIndexes_append (a b : List IoSpecification) :
    namesAndIndexes (a ++ b) = namesAndIndexes a ++ namesAndIndexes b := by
  simp [namesAndIndexes]

/-- The loop of lines 259-265 from `n_offset` for `num_examples` sequences. -/
theorem requestIndexes_eq (input_start_frame input_end_frame output_start_frame
    output_end_frame n_offset num_examples : Int) :
    forRange n_offset (n_offset + num_examples)
        (requestIndexStep input_start_frame input_end_frame output_start_frame output_end_frame)
        (([] : List Index), ([] : List Index), ([] : List Index))
      = (batchIndexes n_offset num_examples.toNat input_start_frame
            (input_end_frame - input_start_frame).toNat,
          (List.range num_examples.toNat).map
            (fun (j : Nat) => ({ n := n_offset + (j : Int), t := 0, x := 0 } : Index)),
          batchIndexes n_offset num_examples.toNat output_start_frame
            (output_end_frame - output_start_frame).toNat) := by
  rw [forRange, requestIndexLoop_eq]
  simp

/-- What `ComputeExampleComputationRequestSimple` returns for a simple network whose input
`input` has a positive dimension: the names and indexes of the outputs and inputs of the
request, and the shapes of the matrices. -/
theorem ComputeExampleComputationRequestSimple_spec (nnet : Nnet)
    (request : ComputationRequest) (inputs : List Matrix) (g : RandomState)
    (hsimple : nnet.IsSimpleNnet = true) (hdim : 0 < nnet.InputDim "input") :
    ∃ (req : ComputationRequest) (mats : List Matrix) (g' : RandomState),
      ComputeExampleComputationRequestSimple nnet request inputs g = .returned (req, mats, g')
        ∧ namesAndIndexes req.outputs
          = [("output", batchIndexes (requestNOffset g) (requestNumExamples g)
              (requestOutputStart g) (requestNumOutputFrames g))]
        ∧ namesAndIndexes req.inputs
          = ("input", batchIndexes (requestNOffset g) (requestNumExamples g)
              (requestInputStart nnet g)
              (requestInputEnd nnet g - requestInputStart nnet g).toNat)
            :: (if nnet.InputDim "ivector" ≠ -1 then
                  [("ivector", (List.range (requestNumExamples g)).map (fun (j : Nat) =>
                    ({ n := (requestNOffset g : Int) + (j : Int), t := 0, x := 0 } : Index)))]
                else [])
        ∧ shapes mats
          = (((requestInputEnd nnet g - requestInputStart nnet g)
                * (requestNumExamples g : Int)).toNat, (nnet.InputDim "input").toNat)
            :: (if nnet.InputDim "ivector" ≠ -1 then
                  [(requestNumExamples g, (nnet.InputDim "ivector").toNat)]
                else []) := by
  apply Exists.intro
  apply Exists.intro
  apply Exists.intro
  refine ⟨?_, ?_, ?_, ?_⟩
  · unfold ComputeExampleComputationRequestSimple
    simp only [hsimple, Bool.not_true, Bool.false_eq_true, if_false, gt_iff_lt, hdim,
      not_true_eq_false]
    rfl
  · simp only [namesAndIndexes_markOutputDeriv, requestIndexes_eq]
    simp [namesAndIndexes, Rand, requestNOffset, requestNumExamples, requestOutputStart,
      requestNumOutputFrames]
    congr 1
  · by_cases hiv : nnet.InputDim "ivector" = -1
    · simp only [hiv, ne_eq, not_true_eq_false, if_false, namesAndIndexes_markInputDeriv,
        requestIndexes_eq]
      simp [namesAndIndexes, Rand, requestNOffset, requestNumExamples, requestOutputStart,
        requestNumOutputFrames, requestInputStart, requestInputEnd]
      congr 1
    · simp only [hiv, ne_eq, not_false_eq_true, if_true, namesAndIndexes_markInputDeriv,
        namesAndIndexes_append, requestIndexes_eq]
      simp [namesAndIndexes, Rand, requestNOffset, requestNumExamples, requestOutputStart,
        requestNumOutputFrames, requestInputStart, requestInputEnd]
      refine ⟨?_, ?_⟩
      · congr 1
      · congr 2
  · by_cases hiv : nnet.InputDim "ivector" = -1
    · simp only [hiv, ne_eq, not_true_eq_false, if_false]
      simp [shapes, SetRandn, Rand, requestNOffset, requestNumExamples, requestOutputStart,
        requestNumOutputFrames, requestInputStart, requestInputEnd]
    · simp only [hiv, ne_eq, not_false_eq_true, if_true]
      simp [shapes, SetRandn, Rand, requestNOffset, requestNumExamples, requestOutputStart,
        requestNumOutputFrames, requestInputStart, requestInputEnd]
      omega

theorem mem_batchIndexes (n_offset : Int) (num_examples : Nat) (t_begin : Int)
    (num_frames : Nat) (index : Index) :
    index ∈ batchIndexes n_offset num_examples t_begin num_frames
      ↔ ∃ j, j < num_examples ∧ ∃ k, k < num_frames
          ∧ index = { n := n_offset + (j : Int), t := t_begin + (k : Int), x := 0 } := by
  simp only [batchIndexes, List.mem_flatMap, List.mem_map, List.mem_range]
  constructor
  · rintro ⟨j, hj, k, hk, rfl⟩
    exact ⟨j, hj, k, hk, rfl⟩
  · rintro ⟨j, hj, k, hk, rfl⟩
    exact ⟨j, hj, k, hk, rfl⟩

theorem batchIndexes_length (n_offset : Int) (num_examples : Nat) (t_begin : Int)
    (num_frames : Nat) :
    (batchIndexes n_offset num_examples t_begin num_frames).length
      = num_examples * num_frames := by
  induction num_examples generalizing n_offset with
  | zero => simp [batchIndexes]
  | succ k ih =>
    rw [batchIndexes_succ, List.length_append, ih, List.length_map, List.length_range]
    ring

theorem namesAndIndexes_eq_singleton {specs : List IoSpecification} {name : String}
    {indexes : List Index} (h : namesAndIndexes specs = [(name, indexes)]) :
    ∃ spec, specs = [spec] ∧ spec.name = name ∧ spec.indexes = indexes := by
  cases specs with
  | nil => simp [namesAndIndexes] at h
  | cons spec rest =>
    cases rest with
    | nil =>
      simp only [namesAndIndexes, List.map_cons, List.map_nil, List.cons.injEq, Prod.mk.injEq,
        and_true] at h
      exact ⟨spec, rfl, h.1, h.2⟩
    | cons next rest => simp [namesAndIndexes] at h

theorem namesAndIndexes_eq_pair {specs : List IoSpecification} {name1 name2 : String}
    {indexes1 indexes2 : List Index}
    (h : namesAndIndexes specs = [(name1, indexes1), (name2, indexes2)]) :
    ∃ spec1 spec2, specs = [spec1, spec2] ∧ spec1.name = name1 ∧ spec1.indexes = indexes1
      ∧ spec2.name = name2 ∧ spec2.indexes = indexes2 := by
  cases specs with
  | nil => simp [namesAndIndexes] at h
  | cons spec1 rest =>
    cases rest with
    | nil => simp [namesAndIndexes] at h
    | cons spec2 rest =>
      cases rest with
      | nil =>
        simp only [namesAndIndexes, List.map_cons, List.map_nil, List.cons.injEq,
          Prod.mk.injEq, and_true] at h
        exact ⟨spec1, spec2, rfl, h.1.1, h.1.2, h.2.1, h.2.2⟩
      | cons next rest => simp [namesAndIndexes] at h

theorem shapes_eq_singleton {mats : List Matrix} {rows cols : Nat}
    (h : shapes mats = [(rows, cols)]) :
    ∃ m, mats = [m] ∧ m.num_rows = rows ∧ m.num_cols = cols := by
  cases mats with
  | nil => simp [shapes] at h
  | cons m rest =>
    cases rest with
    | nil =>
      simp only [shapes, List.map_cons, List.map_nil, List.cons.injEq, Prod.mk.injEq,
        and_true] at h
      exact ⟨m, rfl, h.1, h.2⟩
    | cons next rest => simp [shapes] at h

theorem shapes_eq_pair {mats : List Matrix} {rows1 cols1 rows2 cols2 : Nat}
    (h : shapes mats = [(rows1, cols1), (rows2, cols2)]) :
    ∃ m1 m2, mats = [m1, m2] ∧ m1.num_rows = rows1 ∧ m1.num_cols = cols1
      ∧ m2.num_rows = rows2 ∧ m2.num_cols = cols2 := by
  cases mats with
  | nil => simp [shapes] at h
  | cons m1 rest =>
    cases rest with
    | nil => simp [shapes] at h
    | cons m2 rest =>
      cases rest with
      | nil =>
        simp only [shapes, List.map_cons, List.map_nil, List.cons.injEq, Prod.mk.injEq,
          and_true] at h
        exact ⟨m1, m2, rfl, h.1.1, h.1.2, h.2.1, h.2.2⟩
      | cons next rest => simp [shapes] at h

theorem mem_batchIndexes_iff (n_offset : Int) (num_examples : Nat) (t_begin : Int)
    (num_frames : Nat) (n t x : Int) :
    ({ n := n, t := t, x := x } : Index) ∈ batchIndexes n_offset num_examples t_begin num_frames
      ↔ n_offset ≤ n ∧ n < n_offset + (num_examples : Int) ∧ t_begin ≤ t
          ∧ t < t_begin + (num_frames : Int) ∧ x = 0 := by
  rw [mem_batchIndexes]
  constructor
  · rintro ⟨j, hj, k, hk, h⟩
    simp only [Index.mk.injEq] at h
    obtain ⟨hn, ht, hx⟩ := h
    refine ⟨by omega, by omega, by omega, by omega, hx⟩
  · rintro ⟨h1, h2, h3, h4, hx⟩
    refine ⟨(n - n_offset).toNat, by omega, (t - t_begin).toNat, by omega, ?_⟩
    simp only [Index.mk.injEq]
    refine ⟨by omega, by omega, hx⟩

/-! ### The claims on the configs -/

/-- C4: the splice context built by `GenerateConfigSequenceSimpleContext`,
`GenerateConfigSequenceSimple` and `GenerateConfigSequenceRnn` (lines 55-60, 93-98, 164-169) is
never empty; it is the list of the offsets `i` in `[-5, 3]` whose draw is divisible by 3 when
there is one, and `[0]` when none of the nine draws is divisible by 3; it is strictly
increasing, every element lies in `[-5, 3]`, and it has between 1 and 9 elements.  It is the
context whose offsets the three generators write in the `Append` of `affine1_node`. -/
theorem GenerateSpliceContext_never_empty (g : RandomState) :
    ((GenerateSpliceContext g).1 ≠ []
      ∧ (GenerateSpliceContext g).1
          = (if spliceOffsets.filter (fun i => g.rand (i + 5).toNat % 3 = 0) = [] then [0]
              else spliceOffsets.filter (fun i => g.rand (i + 5).toNat % 3 = 0))
      ∧ ((∀ k, k < 9 → g.rand k % 3 ≠ 0) → (GenerateSpliceContext g).1 = [0])
      ∧ ((∃ k, k < 9 ∧ g.rand k % 3 = 0) → (GenerateSpliceContext g).1
          = spliceOffsets.filter (fun i => g.rand (i + 5).toNat % 3 = 0))
      ∧ (GenerateSpliceContext g).1.Pairwise (· < ·)
      ∧ (∀ x, x ∈ (GenerateSpliceContext g).1 → -5 ≤ x ∧ x ≤ 3)
      ∧ 1 ≤ (GenerateSpliceContext g).1.length
      ∧ (GenerateSpliceContext g).1.length ≤ 9)
      ∧ ∀ (opts : NnetGenerationOptions) (configs : List String),
          (GenerateConfigSequenceSimpleContext opts configs g).1
              = configs ++ [renderConfig (simpleContextConfig (GenerateSpliceContext g).1
                  (10 + g.rand 9 % 20) (100 + g.rand 10 % 200))]
            ∧ (GenerateConfigSequenceSimple opts configs g).1.take (configs.length + 1)
              = configs ++ [renderConfig (simpleConfig (GenerateSpliceContext g).1
                  (10 + g.rand 9 % 20) (100 + g.rand 10 % 200) (40 + g.rand 11 % 50)
                  (simpleFinal opts g))]
            ∧ (GenerateConfigSequenceRnn opts configs g).1
              = configs ++ [renderConfig (rnnConfig (GenerateSpliceContext g).1
                  (10 + g.rand 9 % 20) (100 + g.rand 10 % 200) (40 + g.rand 11 % 50))] := by
  refine ⟨GenerateSpliceContext_spec g, ?_⟩
  intro opts configs
  refine ⟨?_, ?_, ?_⟩
  · rw [GenerateConfigSequenceSimpleContext_eq, GenerateSpliceContext_eq]
  · rw [GenerateConfigSequenceSimple_eq, GenerateSpliceContext_eq, List.append_assoc,
      List.take_append_eq_append_take, List.take_of_length_le (Nat.le_succ _)]
    simp
  · rw [GenerateConfigSequenceRnn_eq, GenerateSpliceContext_eq]

/-- C5: each config emitted by `GenerateConfigSequenceSimplest`,
`GenerateConfigSequenceSimpleContext`, `GenerateConfigSequenceSimple` (first config) and
`GenerateConfigSequenceRnn` is the text of a config that is dimensionally consistent: the input
of every component node has the declared input dimension of its component.  In particular
the input-dim of `affine1` is the dim of the input node times the number of `Offset` terms of
its `Append` (the size of the splice context; no `Append` and factor 1 for `Simplest`), and in
the Rnn config `recurrent_affine1` maps `hidden_dim` to `hidden_dim`, so that both operands of
`Sum(affine1_node, IfDefined(recurrent_affine1))` have dimension `hidden_dim`. -/
theorem generated_configs_dimsConsistent (opts : NnetGenerationOptions)
    (configs : List String) (g : RandomState) :
    ((GenerateConfigSequenceSimplest opts configs g).1
        = configs ++ [renderConfig (simplestConfig (10 + g.rand 0 % 20) (100 + g.rand 1 % 200))]
      ∧ dimsConsistent (simplestConfig (10 + g.rand 0 % 20) (100 + g.rand 1 % 200)) = true
      ∧ componentDims (simplestConfig (10 + g.rand 0 % 20) (100 + g.rand 1 % 200)) "affine1"
          = some ((10 + g.rand 0 % 20) * 1, 100 + g.rand 1 % 200))
    ∧ ((GenerateConfigSequenceSimpleContext opts configs g).1
        = configs ++ [renderConfig (simpleContextConfig (GenerateSpliceContext g).1
            (10 + g.rand 9 % 20) (100 + g.rand 10 % 200))]
      ∧ dimsConsistent (simpleContextConfig (GenerateSpliceContext g).1
            (10 + g.rand 9 % 20) (100 + g.rand 10 % 200)) = true
      ∧ componentDims (simpleContextConfig (GenerateSpliceContext g).1
            (10 + g.rand 9 % 20) (100 + g.rand 10 % 200)) "affine1"
          = some ((10 + g.rand 9 % 20) * (GenerateSpliceContext g).1.length,
              100 + g.rand 10 % 200))
    ∧ ((GenerateConfigSequenceSimple opts configs g).1.take (configs.length + 1)
        = configs ++ [renderConfig (simpleConfig (GenerateSpliceContext g).1
            (10 + g.rand 9 % 20) (100 + g.rand 10 % 200) (40 + g.rand 11 % 50)
            (simpleFinal opts g))]
      ∧ dimsConsistent (simpleConfig (GenerateSpliceContext g).1
            (10 + g.rand 9 % 20) (100 + g.rand 10 % 200) (40 + g.rand 11 % 50)
            (simpleFinal opts g)) = true
      ∧ componentDims (simpleConfig (GenerateSpliceContext g).1
            (10 + g.rand 9 % 20) (100 + g.rand 10 % 200) (40 + g.rand 11 % 50)
            (simpleFinal opts g)) "affine1"
          = some ((10 + g.rand 9 % 20) * (GenerateSpliceContext g).1.length,
              40 + g.rand 11 % 50))
    ∧ ((GenerateConfigSequenceRnn opts configs g).1
        = configs ++ [renderConfig (rnnConfig (GenerateSpliceContext g).1
            (10 + g.rand 9 % 20) (100 + g.rand 10 % 200) (40 + g.rand 11 % 50))]
      ∧ dimsConsistent (rnnConfig (GenerateSpliceContext g).1
            (10 + g.rand 9 % 20) (100 + g.rand 10 % 200) (40 + g.rand 11 % 50)) = true
      ∧ componentDims (rnnConfig (GenerateSpliceContext g).1
            (10 + g.rand 9 % 20) (100 + g.rand 10 % 200) (40 + g.rand 11 % 50)) "affine1"
          = some ((10 + g.rand 9 % 20) * (GenerateSpliceContext g).1.length,
              40 + g.rand 11 % 50)
      ∧ componentDims (rnnConfig (GenerateSpliceContext g).1
            (10 + g.rand 9 % 20) (100 + g.rand 10 % 200) (40 + g.rand 11 % 50))
            "recurrent_affine1"
          = some (40 + g.rand 11 % 50, 40 + g.rand 11 % 50)
      ∧ (Descriptor.node "affine1_node").dim (nodeDim (rnnConfig (GenerateSpliceContext g).1
            (10 + g.rand 9 % 20) (100 + g.rand 10 % 200) (40 + g.rand 11 % 50)))
          = some (40 + g.rand 11 % 50)
      ∧ (Descriptor.ifDefined (.node "recurrent_affine1")).dim
            (nodeDim (rnnConfig (GenerateSpliceContext g).1
              (10 + g.rand 9 % 20) (100 + g.rand 10 % 200) (40 + g.rand 11 % 50)))
          = some (40 + g.rand 11 % 50)) := by
  refine ⟨⟨?_, simplestConfig_dimsConsistent _ _, ?_⟩,
    ⟨?_, simpleContextConfig_dimsConsistent _ _ _, ?_⟩,
    ⟨?_, simpleConfig_dimsConsistent _ _ _ _ _, ?_⟩,
    ⟨?_, rnnConfig_dimsConsistent _ _ _ _, ?_, ?_, ?_, ?_⟩⟩
  · simp [GenerateConfigSequenceSimplest, Rand, simplestConfig, renderConfig,
      ConfigLine.render, Descriptor.render, String.ext_iff]
  · simp [simplestConfig, componentDims]
  · rw [GenerateConfigSequenceSimpleContext_eq, GenerateSpliceContext_eq]
  · simp [simpleContextConfig, componentDims]
  · rw [GenerateConfigSequenceSimple_eq, GenerateSpliceContext_eq, List.append_assoc,
      List.take_append_eq_append_take, List.take_of_length_le (Nat.le_succ _)]
    simp
  · simp [simpleConfig, componentDims]
  · rw [GenerateConfigSequenceRnn_eq, GenerateSpliceContext_eq]
  · simp [rnnConfig, componentDims]
  · simp [rnnConfig, componentDims]
  · simp [rnnConfig, componentDims, Descriptor.dim, nodeDim, nodeDimIn]
  · simp [rnnConfig, componentDims, Descriptor.dim, nodeDim, nodeDimIn]

theorem undeclaredNodeUses_simplestConfig (input_dim output_dim : Nat) :
    undeclaredNodeUses [] (simplestConfig input_dim output_dim) = [] := by
  simp [undeclaredNodeUses, simplestConfig, Descriptor.nodeNames]

theorem undeclaredNodeUses_simpleContextConfig (splice_context : List Int)
    (input_dim output_dim : Nat) :
    undeclaredNodeUses [] (simpleContextConfig splice_context input_dim output_dim) = [] := by
  simp only [undeclaredNodeUses, simpleContextConfig]
  rw [spliceDescriptor_undeclared _ (by decide)]
  simp [Descriptor.nodeNames]

theorem undeclaredNodeUses_simpleConfig (splice_context : List Int)
    (input_dim output_dim hidden_dim : Nat) (final : Option String) :
    undeclaredNodeUses []
      (simpleConfig splice_context input_dim output_dim hidden_dim final
        ++ simpleGrowthConfig output_dim hidden_dim) = []
    ∧ undeclaredNodeUses []
      (simpleConfig splice_context input_dim output_dim hidden_dim final) = [] := by
  cases final with
  | none =>
    simp only [undeclaredNodeUses, simpleConfig, simpleGrowthConfig, List.cons_append,
      List.nil_append, List.append_nil]
    rw [spliceDescriptor_undeclared _ (by decide)]
    simp [Descriptor.nodeNames]
  | some kind =>
    simp only [undeclaredNodeUses, simpleConfig, simpleGrowthConfig, List.cons_append,
      List.nil_append, List.append_nil]
    rw [spliceDescriptor_undeclared _ (by decide)]
    simp [Descriptor.nodeNames]

theorem undeclaredNodeUses_rnnConfig (splice_context : List Int)
    (input_dim output_dim hidden_dim : Nat) :
    undeclaredNodeUses [] (rnnConfig splice_context input_dim output_dim hidden_dim)
      = [("recurrent_affine1", "nonlin1")] := by
  simp only [undeclaredNodeUses, rnnConfig]
  rw [spliceDescriptor_undeclared _ (by decide)]
  simp [Descriptor.nodeNames]

theorem undeclaredComponentUses_simpleConfig (splice_context : List Int)
    (input_dim output_dim hidden_dim : Nat) (final : Option String) :
    undeclaredComponentUses []
      (simpleConfig splice_context input_dim output_dim hidden_dim final
        ++ simpleGrowthConfig output_dim hidden_dim) = []
    ∧ undeclaredComponentUses []
      (simpleConfig splice_context input_dim output_dim hidden_dim final) = [] := by
  cases final <;> simp [undeclaredComponentUses, simpleConfig, simpleGrowthConfig]

set_option maxRecDepth 100000 in
/-- C6, refuted as stated: in the config that `GenerateConfigSequenceRnn` emits on draws that
select the context `[0]` and the smallest dimensions, the component-node line
`recurrent_affine1` has the input `Offset(nonlin1, -1)`, and the node `nonlin1` is declared by
no earlier line: it is declared by the line that follows. -/
theorem GenerateConfigSequenceRnn_forward_reference :
    (GenerateConfigSequenceRnn noFinalNonlinearity [] contextZeroDraws).1
        = ["component name=affine1 type=NaturalGradientAffineComponent input-dim=10 output-dim=40\n"
            ++ "component name=nonlin1 type=RectifiedLinearComponent dim=40\n"
            ++ "component name=recurrent_affine1 type=NaturalGradientAffineComponent input-dim=40 output-dim=40\n"
            ++ "component name=affine2 type=NaturalGradientAffineComponent input-dim=40 output-dim=100\n"
            ++ "component name=logsoftmax type=LogSoftmaxComponent dim=100\n"
            ++ "input-node name=input dim=10\n"
            ++ "component-node name=affine1_node component=affine1 input=Append(Offset(input, 0))\n"
            ++ "component-node name=recurrent_affine1 component=recurrent_affine1 input=Offset(nonlin1, -1)\n"
            ++ "component-node name=nonlin1 component=nonlin1 input=Sum(affine1_node, IfDefined(recurrent_affine1))\n"
            ++ "component-node name=affine2 component=affine2 input=nonlin1\n"
            ++ "component-node name=output_nonlin component=logsoftmax input=affine2\n"
            ++ "output-node name=output input=output_nonlin\n"]
      ∧ (GenerateConfigSequenceRnn noFinalNonlinearity [] contextZeroDraws).1
        = [renderConfig (rnnConfig [0] 10 100 40)]
      ∧ undeclaredNodeUses [] (rnnConfig [0] 10 100 40) = [("recurrent_affine1", "nonlin1")]
      ∧ declaredNodes ((rnnConfig [0] 10 100 40).take 8)
        = ["input", "affine1_node", "recurrent_affine1"] := by
  refine ⟨by rfl, by rfl, by decide, by decide⟩

/-- C6, amended: in the configs emitted by `GenerateConfigSequenceSimplest`,
`GenerateConfigSequenceSimpleContext` and `GenerateConfigSequenceSimple` (the first config, and
the two configs in sequence) every name is declared before it is used; in the config emitted
by `GenerateConfigSequenceRnn` every component is declared before it is used and every node name
used is declared in that config, on an earlier line except for the one use of `nonlin1` in the
input of the component node `recurrent_affine1`. -/
theorem generated_configs_declared_before_use (opts : NnetGenerationOptions)
    (configs : List String) (g : RandomState) :
    ((GenerateConfigSequenceSimplest opts configs g).1
        = configs ++ [renderConfig (simplestConfig (10 + g.rand 0 % 20) (100 + g.rand 1 % 200))]
      ∧ undeclaredComponentUses []
          (simplestConfig (10 + g.rand 0 % 20) (100 + g.rand 1 % 200)) = []
      ∧ undeclaredNodeUses []
          (simplestConfig (10 + g.rand 0 % 20) (100 + g.rand 1 % 200)) = [])
    ∧ ((GenerateConfigSequenceSimpleContext opts configs g).1
        = configs ++ [renderConfig (simpleContextConfig (GenerateSpliceContext g).1
            (10 + g.rand 9 % 20) (100 + g.rand 10 % 200))]
      ∧ undeclaredComponentUses [] (simpleContextConfig (GenerateSpliceContext g).1
            (10 + g.rand 9 % 20) (100 + g.rand 10 % 200)) = []
      ∧ undeclaredNodeUses [] (simpleContextConfig (GenerateSpliceContext g).1
            (10 + g.rand 9 % 20) (100 + g.rand 10 % 200)) = [])
    ∧ ((GenerateConfigSequenceSimple opts configs g).1
        = configs ++ [renderConfig (simpleConfig (GenerateSpliceContext g).1
              (10 + g.rand 9 % 20) (100 + g.rand 10 % 200) (40 + g.rand 11 % 50)
              (simpleFinal opts g))]
            ++ (if g.rand (simpleLastDraw opts g) % 2 = 0 then
                  [renderConfig (simpleGrowthConfig (100 + g.rand 10 % 200)
                    (40 + g.rand 11 % 50))]
                else [])
      ∧ undeclaredComponentUses [] (simpleConfig (GenerateSpliceContext g).1
            (10 + g.rand 9 % 20) (100 + g.rand 10 % 200) (40 + g.rand 11 % 50)
            (simpleFinal opts g)) = []
      ∧ undeclaredNodeUses [] (simpleConfig (GenerateSpliceContext g).1
            (10 + g.rand 9 % 20) (100 + g.rand 10 % 200) (40 + g.rand 11 % 50)
            (simpleFinal opts g)) = []
      ∧ undeclaredComponentUses [] (simpleConfig (GenerateSpliceContext g).1
            (10 + g.rand 9 % 20) (100 + g.rand 10 % 200) (40 + g.rand 11 % 50)
            (simpleFinal opts g)
          ++ simpleGrowthConfig (100 + g.rand 10 % 200) (40 + g.rand 11 % 50)) = []
      ∧ undeclaredNodeUses [] (simpleConfig (GenerateSpliceContext g).1
            (10 + g.rand 9 % 20) (100 + g.rand 10 % 200) (40 + g.rand 11 % 50)
            (simpleFinal opts g)
          ++ simpleGrowthConfig (100 + g.rand 10 % 200) (40 + g.rand 11 % 50)) = [])
    ∧ ((GenerateConfigSequenceRnn opts configs g).1
        = configs ++ [renderConfig (rnnConfig (GenerateSpliceContext g).1
            (10 + g.rand 9 % 20) (100 + g.rand 10 % 200) (40 + g.rand 11 % 50))]
      ∧ undeclaredComponentUses [] (rnnConfig (GenerateSpliceContext g).1
            (10 + g.rand 9 % 20) (100 + g.rand 10 % 200) (40 + g.rand 11 % 50)) = []
      ∧ undeclaredNodeUses [] (rnnConfig (GenerateSpliceContext g).1
            (10 + g.rand 9 % 20) (100 + g.rand 10 % 200) (40 + g.rand 11 % 50))
          = [("recurrent_affine1", "nonlin1")]
      ∧ "nonlin1" ∈ declaredNodes (rnnConfig (GenerateSpliceContext g).1
            (10 + g.rand 9 % 20) (100 + g.rand 10 % 200) (40 + g.rand 11 % 50))) := by
  refine ⟨⟨?_, ?_, undeclaredNodeUses_simplestConfig _ _⟩,
    ⟨?_, ?_, undeclaredNodeUses_simpleContextConfig _ _ _⟩,
    ⟨?_, (undeclaredComponentUses_simpleConfig _ _ _ _ _).2,
      (undeclaredNodeUses_simpleConfig _ _ _ _ _).2,
      (undeclaredComponentUses_simpleConfig _ _ _ _ _).1,
      (undeclaredNodeUses_simpleConfig _ _ _ _ _).1⟩,
    ⟨?_, ?_, undeclaredNodeUses_rnnConfig _ _ _ _, ?_⟩⟩
  · simp [GenerateConfigSequenceSimplest, Rand, simplestConfig, renderConfig,
      ConfigLine.render, Descriptor.render, String.ext_iff]
  · simp [undeclaredComponentUses, simplestConfig]
  · rw [GenerateConfigSequenceSimpleContext_eq, GenerateSpliceContext_eq]
  · simp [undeclaredComponentUses, simpleContextConfig]
  · rw [GenerateConfigSequenceSimple_eq, GenerateSpliceContext_eq]
  · rw [GenerateConfigSequenceRnn_eq, GenerateSpliceContext_eq]
  · simp [undeclaredComponentUses, rnnConfig]
  · simp [declaredNodes, rnnConfig]

/-- C8: `GenerateConfigSequenceSimple` appends one config or two, the second exactly when its
last draw of `Rand()` is even.  The second config declares `final_affine` anew with input-dim
the `hidden_dim` of the first config and the output-dim that `final_affine` has in the first
config; `hidden_dim` is also the output-dim of the new `affine2` and the dim of the new
`relu2`, and the node `relu2` is the input of the node `final_affine`. -/
theorem GenerateConfigSequenceSimple_growth (opts : NnetGenerationOptions)
    (configs : List String) (g : RandomState) :
    (GenerateConfigSequenceSimple opts configs g).1
        = configs ++ [renderConfig (simpleConfig (GenerateSpliceContext g).1
              (10 + g.rand 9 % 20) (100 + g.rand 10 % 200) (40 + g.rand 11 % 50)
              (simpleFinal opts g))]
            ++ (if g.rand (simpleLastDraw opts g) % 2 = 0 then
                  [renderConfig (simpleGrowthConfig (100 + g.rand 10 % 200)
                    (40 + g.rand 11 % 50))]
                else [])
      ∧ (GenerateConfigSequenceSimple opts configs g).2
        = (g.afterRand (simpleLastDraw opts g + 1)).afterRandInt
            (if opts.allow_final_nonlinearity then 1 else 0)
      ∧ ((GenerateConfigSequenceSimple opts configs g).1.length = configs.length + 1
          ∨ (GenerateConfigSequenceSimple opts configs g).1.length = configs.length + 2)
      ∧ ((GenerateConfigSequenceSimple opts configs g).1.length = configs.length + 2
          ↔ g.rand (simpleLastDraw opts g) % 2 = 0)
      ∧ componentDims (simpleConfig (GenerateSpliceContext g).1
            (10 + g.rand 9 % 20) (100 + g.rand 10 % 200) (40 + g.rand 11 % 50)
            (simpleFinal opts g)) "affine1"
          = some ((10 + g.rand 9 % 20) * (GenerateSpliceContext g).1.length,
              40 + g.rand 11 % 50)
      ∧ componentDims (simpleConfig (GenerateSpliceContext g).1
            (10 + g.rand 9 % 20) (100 + g.rand 10 % 200) (40 + g.rand 11 % 50)
            (simpleFinal opts g)) "final_affine"
          = some (40 + g.rand 11 % 50, 100 + g.rand 10 % 200)
      ∧ componentDims (simpleGrowthConfig (100 + g.rand 10 % 200) (40 + g.rand 11 % 50))
            "final_affine"
          = some (40 + g.rand 11 % 50, 100 + g.rand 10 % 200)
      ∧ componentDims (simpleGrowthConfig (100 + g.rand 10 % 200) (40 + g.rand 11 % 50))
            "affine2"
          = some (40 + g.rand 11 % 50, 40 + g.rand 11 % 50)
      ∧ componentDims (simpleGrowthConfig (100 + g.rand 10 % 200) (40 + g.rand 11 % 50))
            "relu2"
          = some (40 + g.rand 11 % 50, 40 + g.rand 11 % 50)
      ∧ nodeDim (simpleGrowthConfig (100 + g.rand 10 % 200) (40 + g.rand 11 % 50)) "relu2"
          = some (40 + g.rand 11 % 50)
      ∧ componentNodeInputs
            (simpleGrowthConfig (100 + g.rand 10 % 200) (40 + g.rand 11 % 50))
          = [("affine2", "nonlin1"), ("relu2", "affine2"), ("final_affine", "relu2")] := by
  have h := GenerateConfigSequenceSimple_eq opts configs g
  refine ⟨?_, ?_, ?_, ?_, ?_, ?_, ?_, ?_, ?_, ?_, ?_⟩
  · rw [h, GenerateSpliceContext_eq]
  · rw [h]
  · rw [h]
    by_cases h2 : g.rand (simpleLastDraw opts g) % 2 = 0 <;> simp [h2]
  · rw [h]
    by_cases h2 : g.rand (simpleLastDraw opts g) % 2 = 0 <;> simp [h2]
  · simp [simpleConfig, componentDims]
  · simp [simpleConfig, componentDims]
  · simp [simpleGrowthConfig, componentDims]
  · simp [simpleGrowthConfig, componentDims]
  · simp [simpleGrowthConfig, componentDims]
  · simp [simpleGrowthConfig, componentDims, nodeDim, nodeDimIn]
  · simp [simpleGrowthConfig, componentNodeInputs, Descriptor.render]

set_option maxRecDepth 100000 in
/-- C9, the code at the failing input: with `allow_final_nonlinearity` disabled and the other
flags enabled, a first draw of network type 3 makes the dispatcher return the config of
`GenerateConfigSequenceRnn`, which declares a `LogSoftmaxComponent` and feeds the output node
from the node `output_nonlin` of that component, not from an affine component node.  The three
other generators do honour the flag: their configs declare no `SoftmaxComponent` or
`LogSoftmaxComponent` and feed the output node from an affine component node. -/
theorem GenerateConfigSequence_rnn_final_nonlinearity :
    noFinalNonlinearity.allow_final_nonlinearity = false
      ∧ (∃ r, GenerateConfigSequence noFinalNonlinearity 1 []
            (RandomState.ofLists [1, 1, 1, 1, 1, 0, 1, 1, 1] [3] []) = .returned r
          ∧ r.1 = [renderConfig (rnnConfig [0] 10 100 40)]
          ∧ r.1 = ["component name=affine1 type=NaturalGradientAffineComponent input-dim=10 output-dim=40\n"
            ++ "component name=nonlin1 type=RectifiedLinearComponent dim=40\n"
            ++ "component name=recurrent_affine1 type=NaturalGradientAffineComponent input-dim=40 output-dim=40\n"
            ++ "component name=affine2 type=NaturalGradientAffineComponent input-dim=40 output-dim=100\n"
            ++ "component name=logsoftmax type=LogSoftmaxComponent dim=100\n"
            ++ "input-node name=input dim=10\n"
            ++ "component-node name=affine1_node component=affine1 input=Append(Offset(input, 0))\n"
            ++ "component-node name=recurrent_affine1 component=recurrent_affine1 input=Offset(nonlin1, -1)\n"
            ++ "component-node name=nonlin1 component=nonlin1 input=Sum(affine1_node, IfDefined(recurrent_affine1))\n"
            ++ "component-node name=affine2 component=affine2 input=nonlin1\n"
            ++ "component-node name=output_nonlin component=logsoftmax input=affine2\n"
            ++ "output-node name=output input=output_nonlin\n"])
      ∧ "LogSoftmaxComponent" ∈ componentTypes (rnnConfig [0] 10 100 40)
      ∧ outputInputs (rnnConfig [0] 10 100 40) = ["output_nonlin"]
      ∧ (∀ (opts : NnetGenerationOptions) (configs : List String) (g : RandomState),
          opts.allow_final_nonlinearity = false →
          ∃ cfg0 cfg1 cfg2 cfg3,
            (GenerateConfigSequenceSimplest opts configs g).1 = configs ++ [renderConfig cfg0]
            ∧ (GenerateConfigSequenceSimpleContext opts configs g).1
                = configs ++ [renderConfig cfg1]
            ∧ (GenerateConfigSequenceSimple opts configs g).1
                = configs ++ [renderConfig cfg2]
                  ++ (if g.rand 12 % 2 = 0 then [renderConfig cfg3] else [])
            ∧ componentTypes cfg0 = ["AffineComponent"]
            ∧ componentTypes cfg1 = ["AffineComponent"]
            ∧ componentTypes cfg2 = ["NaturalGradientAffineComponent",
                "RectifiedLinearComponent", "NaturalGradientAffineComponent"]
            ∧ componentTypes cfg3 = ["NaturalGradientAffineComponent",
                "RectifiedLinearComponent", "NaturalGradientAffineComponent"]
            ∧ outputInputs cfg0 = ["affine1_node"] ∧ outputInputs cfg1 = ["affine1_node"]
            ∧ outputInputs cfg2 = ["final_affine"] ∧ outputInputs cfg3 = []) := by
  refine ⟨rfl, ⟨_, rfl, by rfl, by rfl⟩, by decide, by decide, ?_⟩
  intro opts configs g hf
  have hfin : simpleFinal opts g = none := by simp [simpleFinal, useFinalNonlinearity, hf]
  have hlast : simpleLastDraw opts g = 12 := by
    simp [simpleLastDraw, useFinalNonlinearity, hf]
  refine ⟨simplestConfig (10 + g.rand 0 % 20) (100 + g.rand 1 % 200),
    simpleContextConfig (spliceContextOf g) (10 + g.rand 9 % 20) (100 + g.rand 10 % 200),
    simpleConfig (spliceContextOf g) (10 + g.rand 9 % 20) (100 + g.rand 10 % 200)
      (40 + g.rand 11 % 50) none,
    simpleGrowthConfig (100 + g.rand 10 % 200) (40 + g.rand 11 % 50),
    ?_, ?_, ?_, ?_, ?_, ?_, ?_, ?_, ?_, ?_, ?_⟩
  · simp [GenerateConfigSequenceSimplest, Rand, simplestConfig, renderConfig,
      ConfigLine.render, Descriptor.render, String.ext_iff]
  · rw [GenerateConfigSequenceSimpleContext_eq]
  · rw [GenerateConfigSequenceSimple_eq, hfin, hlast]
  · simp [componentTypes, simplestConfig]
  · simp [componentTypes, simpleContextConfig]
  · simp [componentTypes, simpleConfig]
  · simp [componentTypes, simpleGrowthConfig]
  · simp [outputInputs, simplestConfig, Descriptor.render]
  · simp [outputInputs, simpleContextConfig, Descriptor.render]
  · simp [outputInputs, simpleConfig, Descriptor.render]
  · simp [outputInputs, simpleGrowthConfig]

/-! ### The claim on the training examples -/

/-- The frame that the loop of lines 468-476 writes when it draws two labels. -/
theorem frameStep_two (rnd : ℚ → ℚ) (output_dim t : Int) (labels : Posterior)
    (g : RandomState) (h : g.randInt 0 1 3 = 2) :
    (frameStep rnd output_dim t (labels, g)).1
      = appendAt labels t.toNat
          [(g.randInt 1 0 (output_dim - 1), rnd (g.randUniform 0 * 1)),
            (g.randInt 2 0 (output_dim - 1),
              rnd (1 * rnd (1 - rnd (g.randUniform 0 * 1))))] := by
  have h2 : ((2 : Int) - 0).toNat = 2 := rfl
  unfold frameStep forRange
  simp only [RandInt_fst, RandInt_snd, h, h2, forLoop, labelStep, RandUniform,
    appendAt_appendAt, afterRandInt_randInt, afterRandInt_afterRandInt]
  rfl

/-- C10, refuted as stated: in `float` the probabilities of a frame need not sum to 1.  On the
arguments `(1, 0, 0, 50, 1, 0)`, with two labels drawn for the frame and the fraction
`2^-30` drawn for the first, the first label gets `2^-30`, the mass that remains,
`1 - 2^-30`, is rounded to `1`, and the second label gets `1`: the sum is `1 + 2^-30`. -/
theorem GenerateSimpleNnetTrainingExample_sum_not_one :
    ∃ (out : NnetExample) (g' : RandomState) (blocks : List NnetIo) (indexes : List Index),
      GenerateSimpleNnetTrainingExample roundBinary32 id 1 0 0 50 1 0 (some { io := [] })
          (RandomState.drawing [1, 1, 2, 1, 1] (1 / 2 ^ 30)) = .returned (out, g')
        ∧ out.io = blocks ++ [⟨"output", indexes, .sparse 50 [[(1, 1 / 2 ^ 30), (1, 1)]]⟩]
        ∧ (([(1, 1 / 2 ^ 30), (1, 1)] : List (Int × ℚ)).map Prod.snd).sum ≠ 1 := by
  have hu : roundBinary32 (1 / 2 ^ 30 * 1) = 1 / 2 ^ 30 := by
    have h := roundBinary32_zpow (-30) (by norm_num)
    have e : (1 : ℚ) / 2 ^ 30 * 1 = 2 ^ (-30 : Int) := by norm_num
    have e' : (1 : ℚ) / 2 ^ 30 = 2 ^ (-30 : Int) := by norm_num
    rw [e, e', h]
  have hrem : roundBinary32 (1 - 1 / 2 ^ 30) = 1 := by
    rw [roundBinary32_eq_of_near (-1) 16777216 (by norm_num) (by norm_num) (by norm_num)
      (by norm_num [abs_lt])]
    norm_num
  have hframe : ∀ g : RandomState, g.randInt 0 1 3 = 2 → g.randUniform 0 = 1 / 2 ^ 30 →
      g.randInt 1 0 (50 - 1) = 1 → g.randInt 2 0 (50 - 1) = 1 →
      (forRange 0 1 (frameStep roundBinary32 50) (List.replicate (1 : Int).toNat [], g)).1
        = [[(1, 1 / 2 ^ 30), (1, 1)]] := by
    intro g h0 h1 h2 h3
    have hone : ((1 : Int) - 0).toNat = 1 := rfl
    unfold forRange
    rw [hone, forLoop, forLoop, frameStep_two roundBinary32 50 0 _ g h0, h1, h2, h3, hu, hrem,
      one_mul, roundBinary32_one]
    rfl
  obtain ⟨blocks, g3, hR, hri, hru⟩ :=
    GenerateSimpleNnetTrainingExample_output roundBinary32 id 1 0 0 50 1 0 { io := [] }
      (RandomState.drawing [1, 1, 2, 1, 1] (1 / 2 ^ 30)) (by norm_num) (by norm_num) (by norm_num)
      (by norm_num) (by norm_num) (by decide) (by decide)
  rw [hframe g3 (by rw [hri]; rfl) (by rw [hru]; rfl) (by rw [hri]; rfl)
    (by rw [hri]; rfl)] at hR
  exact ⟨_, _, blocks, _, hR, rfl, by norm_num⟩

/-- C10, amended: for every argument tuple that passes the assertion and whose frame count and
frame times fit in `int32`, every rounding `rnd` to `BaseFloat` that keeps the contract of a
rounding on `[0, 1]` with the error `eps`, and every sequence of random draws that respects the
contracts of `RandInt` and `RandUniform`, the call returns an example whose last block is the
block `output` of dimension `output_dim`, with one frame per supervised frame; every frame
carries between 1 and 3 pairs of a class and a probability, every class index lies in
`[0, output_dim)`, every probability lies in `[0, 1]`, and the probabilities of a frame of
`n` pairs sum to 1 up to the roundings: the sum differs from 1 by at most `(n - 1) * eps`. -/
theorem GenerateSimpleNnetTrainingExample_labels (rnd : ℚ → ℚ) (eps : ℚ)
    (hrnd : BaseFloatRounding rnd eps) (lossy : Matrix → Matrix)
    (num_supervised_frames left_context right_context output_dim input_dim ivector_dim : Int)
    (eg : NnetExample) (g : RandomState)
    (hn : num_supervised_frames > 0) (hl : left_context ≥ 0) (hr : right_context ≥ 0)
    (ho : output_dim > 0) (hi : input_dim > 0)
    (hfit : left_context + right_context + num_supervised_frames ≤ int32Max)
    (htime : g.randInt 0 0 2 + (left_context + right_context + num_supervised_frames - 1)
      ≤ int32Max)
    (hInt : g.RandIntInRange) (hU : g.RandUniformInRange) :
    ∃ (out : NnetExample) (g' : RandomState) (blocks : List NnetIo) (indexes : List Index)
      (labels : Posterior),
      GenerateSimpleNnetTrainingExample rnd lossy num_supervised_frames left_context
          right_context output_dim input_dim ivector_dim (some eg) g = .returned (out, g')
        ∧ out.io = blocks
            ++ [{ name := "output", indexes := indexes, features := .sparse output_dim labels }]
        ∧ labels.length = num_supervised_frames.toNat
        ∧ ∀ frame, frame ∈ labels →
            1 ≤ frame.length ∧ frame.length ≤ 3
              ∧ (∀ cp, cp ∈ frame → 0 ≤ cp.1 ∧ cp.1 < output_dim ∧ 0 ≤ cp.2 ∧ cp.2 ≤ 1)
              ∧ |(frame.map Prod.snd).sum - 1| ≤ ((frame.length : ℚ) - 1) * eps := by
  obtain ⟨blocks, g3, hR, hri, hru⟩ :=
    GenerateSimpleNnetTrainingExample_output rnd lossy num_supervised_frames left_context
      right_context output_dim input_dim ivector_dim eg g hn hl hr ho hi hfit htime
  have hg3 : g3.Contracts := by
    refine ⟨fun k lo hi hle => ?_, fun k => ?_⟩
    · rw [hri]; exact hInt _ lo hi hle
    · rw [hru]; exact hU k
  obtain ⟨frames, g', hrun, hlen, _, hframes, _⟩ :=
    frameLoop_spec rnd eps output_dim ho num_supervised_frames.toNat [] g3 hg3
  have hrun' : forRange 0 num_supervised_frames (frameStep rnd output_dim)
      (List.replicate num_supervised_frames.toNat [], g3) = (frames, g') := by
    rw [forRange, Int.sub_zero]
    simpa using hrun
  rw [hrun'] at hR
  exact ⟨_, _, blocks, _, frames, hR, rfl, hlen, fun frame hf => hframes hrnd frame hf⟩

/-- A witness of the claim on the labels: in `float`, on the arguments `(3, 2, 2, 50, 20, 10)`
and a generator that draws two labels for the first frame, three for the second and one for
the third, and the fraction `2^-30` for every label but the last of a frame. -/
theorem GenerateSimpleNnetTrainingExample_labels_witness :
    ∃ (out : NnetExample) (g' : RandomState) (blocks : List NnetIo) (indexes : List Index)
      (labels : Posterior),
      GenerateSimpleNnetTrainingExample roundBinary32 id 3 2 2 50 20 10 (some { io := [] })
          (RandomState.drawing [1, 0, 1, 2, 7, 9, 3, 4, 5, 6, 1, 8] (1 / 2 ^ 30))
          = .returned (out, g')
        ∧ out.io = blocks
            ++ [{ name := "output", indexes := indexes, features := .sparse 50 labels }]
        ∧ labels.length = (3 : Int).toNat
        ∧ ∀ frame, frame ∈ labels →
            1 ≤ frame.length ∧ frame.length ≤ 3
              ∧ (∀ cp, cp ∈ frame → 0 ≤ cp.1 ∧ cp.1 < 50 ∧ 0 ≤ cp.2 ∧ cp.2 ≤ 1)
              ∧ |(frame.map Prod.snd).sum - 1| ≤ ((frame.length : ℚ) - 1) * (1 / 2 ^ 25) :=
  GenerateSimpleNnetTrainingExample_labels roundBinary32 (1 / 2 ^ 25) roundBinary32_rounding id
    3 2 2 50 20 10 { io := [] }
    (RandomState.drawing [1, 0, 1, 2, 7, 9, 3, 4, 5, 6, 1, 8] (1 / 2 ^ 30)) (by norm_num)
    (by norm_num) (by norm_num) (by norm_num) (by norm_num) (by decide) (by decide)
    (drawing_Contracts _ _ (by norm_num) (by norm_num)).1
    (drawing_Contracts _ _ (by norm_num) (by norm_num)).2

/-- C11, refuted as stated: the arguments `(1, 2147483647, 1, 1, 1, 0)` pass the assertion, and
their frame count `left_context + right_context + num_supervised_frames` is `2^31 + 1`, above
the greatest `int32`: the sum of line 446 overflows, and the call does not leave an `input`
block of that many rows. -/
theorem GenerateSimpleNnetTrainingExample_overflow :
    GenerateSimpleNnetTrainingExample roundBinary32 id 1 2147483647 1 1 1 0 (some { io := [] })
        (RandomState.drawing [] (1 / 2))
      = .undefined "int32 overflow: left_context + right_context + num_supervised_frames" := by
  unfold GenerateSimpleNnetTrainingExample
  rw [if_neg (by simp), if_pos (by decide)]

/-- C11, amended: on every argument tuple that passes the assertion and whose frame count
`left_context + right_context + num_supervised_frames` and last frame time
`feature_t_begin + frame count - 1` fit in `int32`, for every example that comes in, every
rounding to `BaseFloat` and every sequence of random draws that respects the contracts of
`RandInt` and `RandUniform`, `GenerateSimpleNnetTrainingExample` returns an example that holds
nothing of the one that came in and consists, in this order, of: a block `input` of
`left_context + right_context + num_supervised_frames` rows and `input_dim` columns whose
times start at `feature_t_begin`, one of 0, 1, 2; a block `ivector` of 1 row and
`ivector_dim` columns at time 0, present exactly when `ivector_dim > 0`; and a block
`output` of supervision of dimension `output_dim` with `num_supervised_frames` labelled
frames whose times start at `feature_t_begin + left_context`.  The shape of a compressed
block is that of the matrix it was compressed from. -/
theorem GenerateSimpleNnetTrainingExample_blocks (rnd : ℚ → ℚ) (lossy : Matrix → Matrix)
    (hlossy : ∀ m, (lossy m).num_rows = m.num_rows ∧ (lossy m).num_cols = m.num_cols)
    (num_supervised_frames left_context right_context output_dim input_dim ivector_dim : Int)
    (eg : NnetExample) (g : RandomState)
    (hn : num_supervised_frames > 0) (hl : left_context ≥ 0) (hr : right_context ≥ 0)
    (ho : output_dim > 0) (hi : input_dim > 0)
    (hfit : left_context + right_context + num_supervised_frames ≤ int32Max)
    (htime : g.randInt 0 0 2 + (left_context + right_context + num_supervised_frames - 1)
      ≤ int32Max)
    (hInt : g.RandIntInRange) (hU : g.RandUniformInRange) :
    ∃ (out : NnetExample) (g' : RandomState) (feature_t_begin : Int) (input_block : NnetIo)
      (ivector_blocks : List NnetIo) (output_block : NnetIo) (labels : Posterior),
      GenerateSimpleNnetTrainingExample rnd lossy num_supervised_frames left_context
          right_context output_dim input_dim ivector_dim (some eg) g = .returned (out, g')
        ∧ GenerateSimpleNnetTrainingExample rnd lossy num_supervised_frames left_context
            right_context output_dim input_dim ivector_dim (some { io := [] }) g
          = .returned (out, g')
        ∧ out.io = [input_block] ++ ivector_blocks ++ [output_block]
        ∧ (feature_t_begin = 0 ∨ feature_t_begin = 1 ∨ feature_t_begin = 2)
        ∧ (input_block.name = "input"
          ∧ input_block.indexes = timeIndexes feature_t_begin
              (left_context + right_context + num_supervised_frames).toNat
          ∧ ((input_block.features.NumRows : Int)
              = left_context + right_context + num_supervised_frames)
          ∧ (input_block.features.NumCols : Int) = input_dim)
        ∧ (ivector_dim > 0 → ∃ b, ivector_blocks = [b] ∧ b.name = "ivector"
            ∧ b.indexes = [{ n := 0, t := 0, x := 0 }] ∧ b.features.NumRows = 1
            ∧ (b.features.NumCols : Int) = ivector_dim)
        ∧ (¬ ivector_dim > 0 → ivector_blocks = [])
        ∧ (output_block.name = "output"
          ∧ output_block.features = .sparse output_dim labels
          ∧ output_block.indexes = timeIndexes (feature_t_begin + left_context)
              num_supervised_frames.toNat
          ∧ (labels.length : Int) = num_supervised_frames
          ∧ ∀ frame, frame ∈ labels → 1 ≤ frame.length ∧ frame.length ≤ 3) := by
  obtain ⟨input_block, ivector_blocks, frames, g', hR, ⟨hname, hidx, hrows, hcols⟩, hiv, hniv,
    hlen, hframes⟩ :=
    GenerateSimpleNnetTrainingExample_spec rnd lossy hlossy num_supervised_frames left_context
      right_context output_dim input_dim ivector_dim eg g hn hl hr ho hi hfit htime ⟨hInt, hU⟩
  have htb := hInt 0 0 2 (by norm_num)
  refine ⟨_, g', g.randInt 0 0 2, input_block, ivector_blocks, _, frames, hR, hR, rfl,
    by omega, ⟨hname, hidx, ?_, ?_⟩, ?_, hniv, ⟨rfl, rfl, ?_, ?_, ?_⟩⟩
  · rw [hrows, Int.toNat_of_nonneg (by omega)]
  · rw [hcols, Int.toNat_of_nonneg (by omega)]
  · intro h
    obtain ⟨b, hb, hbn, hbi, hbr, hbc⟩ := hiv h
    refine ⟨b, hb, hbn, ?_, hbr, ?_⟩
    · rw [hbi, timeIndexes_one]
    · rw [hbc, Int.toNat_of_nonneg (by omega)]
  · simp [NnetIo.ofPosterior, hlen]
  · rw [hlen, Int.toNat_of_nonneg (by omega)]
  · intro frame hf
    exact ⟨(hframes frame hf).1, (hframes frame hf).2.1⟩

/-- A witness of the claim on the blocks: the arguments `(3, 2, 2, 50, 20, 10)` give a block
`input` of 7 rows and 20 columns, a block `ivector` of 1 row and 10 columns and a block
`output` of 3 labelled frames. -/
theorem GenerateSimpleNnetTrainingExample_blocks_witness :
    ∃ (out : NnetExample) (g' : RandomState) (input_block ivector_block output_block : NnetIo)
      (labels : Posterior),
      GenerateSimpleNnetTrainingExample roundBinary32 id 3 2 2 50 20 10 (some { io := [] })
          (RandomState.drawing [1, 0, 1, 2, 7, 9, 3, 4, 5, 6, 1, 8] (1 / 2 ^ 30))
          = .returned (out, g')
        ∧ out.io = [input_block, ivector_block, output_block]
        ∧ input_block.name = "input" ∧ input_block.features.NumRows = 7
        ∧ input_block.features.NumCols = 20
        ∧ ivector_block.name = "ivector" ∧ ivector_block.features.NumRows = 1
        ∧ ivector_block.features.NumCols = 10
        ∧ output_block.name = "output" ∧ output_block.features = .sparse 50 labels
        ∧ labels.length = 3 := by
  obtain ⟨out, g', tb, input_block, ivector_blocks, output_block, labels, hR, _, hio, _,
    ⟨hname, _, hrows, hcols⟩, hiv, _, ⟨honame, hfeat, _, hlen, _⟩⟩ :=
    GenerateSimpleNnetTrainingExample_blocks roundBinary32 id (fun _ => ⟨rfl, rfl⟩)
      3 2 2 50 20 10 { io := [] }
      (RandomState.drawing [1, 0, 1, 2, 7, 9, 3, 4, 5, 6, 1, 8] (1 / 2 ^ 30)) (by norm_num)
      (by norm_num) (by norm_num) (by norm_num) (by norm_num) (by decide) (by decide)
      (drawing_Contracts _ _ (by norm_num) (by norm_num)).1
      (drawing_Contracts _ _ (by norm_num) (by norm_num)).2
  obtain ⟨b, hb, hbn, _, hbr, hbc⟩ := hiv (by norm_num)
  refine ⟨out, g', input_block, b, output_block, labels, hR, ?_, hname, ?_, ?_, hbn, hbr, ?_,
    honame, hfeat, ?_⟩
  · rw [hio, hb]; rfl
  · exact_mod_cast hrows
  · exact_mod_cast hcols
  · exact_mod_cast hbc
  · exact_mod_cast hlen

/-- C12, refuted as stated: with `left_context = 0` and `right_context = 0`, counts that are
not positive, `GenerateSimpleNnetTrainingExample` does not fail: it returns an example. -/
theorem GenerateSimpleNnetTrainingExample_zero_context :
    ∃ out g', GenerateSimpleNnetTrainingExample roundBinary32 id 3 0 0 50 20 10
      (some { io := [] }) (RandomState.drawing [] (1 / 2)) = .returned (out, g') := by
  rw [GenerateSimpleNnetTrainingExample_eq roundBinary32 id 3 0 0 50 20 10 { io := [] }
    (RandomState.drawing [] (1 / 2)) (by norm_num) (by norm_num) (by norm_num) (by norm_num)
    (by norm_num) (by decide) (by decide)]
  exact ⟨_, _, rfl⟩

/-- C12, amended: `GenerateSimpleNnetTrainingExample` enforces its preconditions by the fatal
assertion of lines 440-442, before anything else: it fails by assertion if and only if
`num_supervised_frames`, `output_dim` or `input_dim` is not positive, or `left_context` or
`right_context` is negative, or the pointer `example` is null.  On every other argument tuple
it returns if and only if the frame count
`left_context + right_context + num_supervised_frames` and the last frame time
`feature_t_begin + frame count - 1` fit in `int32`; when they do not fit, a sum of `int32`
overflows and there is no defined result. -/
theorem GenerateSimpleNnetTrainingExample_preconditions (rnd : ℚ → ℚ)
    (lossy : Matrix → Matrix)
    (num_supervised_frames left_context right_context output_dim input_dim ivector_dim : Int)
    (eg : Option NnetExample) (g : RandomState) :
    ((∃ msg, GenerateSimpleNnetTrainingExample rnd lossy num_supervised_frames left_context
          right_context output_dim input_dim ivector_dim eg g = .fatal msg)
        ↔ (num_supervised_frames ≤ 0 ∨ left_context < 0 ∨ right_context < 0 ∨ output_dim ≤ 0
            ∨ input_dim ≤ 0 ∨ eg = none))
      ∧ ((∃ out g', GenerateSimpleNnetTrainingExample rnd lossy num_supervised_frames
          left_context right_context output_dim input_dim ivector_dim eg g
            = .returned (out, g'))
        ↔ (0 < num_supervised_frames ∧ 0 ≤ left_context ∧ 0 ≤ right_context ∧ 0 < output_dim
            ∧ 0 < input_dim ∧ eg ≠ none
            ∧ left_context + right_context + num_supervised_frames ≤ int32Max
            ∧ g.randInt 0 0 2 + (left_context + right_context + num_supervised_frames - 1)
                ≤ int32Max))
      ∧ ((∃ msg, GenerateSimpleNnetTrainingExample rnd lossy num_supervised_frames left_context
          right_context output_dim input_dim ivector_dim eg g = .undefined msg)
        ↔ (0 < num_supervised_frames ∧ 0 ≤ left_context ∧ 0 ≤ right_context ∧ 0 < output_dim
            ∧ 0 < input_dim ∧ eg ≠ none
            ∧ (int32Max < left_context + right_context + num_supervised_frames
              ∨ int32Max < g.randInt 0 0 2
                  + (left_context + right_context + num_supervised_frames - 1)))) := by
  by_cases hcond : num_supervised_frames > 0 ∧ left_context ≥ 0 ∧ right_context ≥ 0
      ∧ output_dim > 0 ∧ input_dim > 0 ∧ eg.isSome = true
  · obtain ⟨h1, h2, h3, h4, h5, h6⟩ := hcond
    obtain ⟨e, rfl⟩ := Option.isSome_iff_exists.1 h6
    have hne : some e ≠ none := Option.some_ne_none e
    have hnot : ¬ (num_supervised_frames ≤ 0 ∨ left_context < 0 ∨ right_context < 0
        ∨ output_dim ≤ 0 ∨ input_dim ≤ 0 ∨ some e = none) := by
      intro h
      rcases h with h | h | h | h | h | h
      · omega
      · omega
      · omega
      · omega
      · omega
      · exact hne h
    by_cases hfit : left_context + right_context + num_supervised_frames ≤ int32Max
        ∧ g.randInt 0 0 2 + (left_context + right_context + num_supervised_frames - 1)
          ≤ int32Max
    · obtain ⟨out, g', hret⟩ := GenerateSimpleNnetTrainingExample_returns rnd lossy
        num_supervised_frames left_context right_context output_dim input_dim ivector_dim e g
        h1 h2 h3 h4 h5 hfit.1 hfit.2
      refine ⟨⟨?_, fun h => absurd h hnot⟩,
        ⟨fun _ => ⟨h1, h2, h3, h4, h5, hne, hfit.1, hfit.2⟩, fun _ => ⟨out, g', hret⟩⟩,
        ⟨?_, ?_⟩⟩
      · rintro ⟨msg, hmsg⟩
        rw [hret] at hmsg
        exact Outcome.noConfusion hmsg
      · rintro ⟨msg, hmsg⟩
        rw [hret] at hmsg
        exact Outcome.noConfusion hmsg
      · rintro ⟨_, _, _, _, _, _, hover⟩
        rcases hover with h | h
        · exact absurd hfit.1 (not_le.2 h)
        · exact absurd hfit.2 (not_le.2 h)
    · have hover : int32Max < left_context + right_context + num_supervised_frames
          ∨ int32Max < g.randInt 0 0 2
              + (left_context + right_context + num_supervised_frames - 1) := by
        by_contra hno
        apply hfit
        simp only [not_or, not_lt] at hno
        exact hno
      obtain ⟨msg0, hund⟩ := GenerateSimpleNnetTrainingExample_undefined rnd lossy
        num_supervised_frames left_context right_context output_dim input_dim ivector_dim e g
        h1 h2 h3 h4 h5 hover
      refine ⟨⟨?_, fun h => absurd h hnot⟩, ⟨?_, ?_⟩,
        ⟨fun _ => ⟨h1, h2, h3, h4, h5, hne, hover⟩, fun _ => ⟨msg0, hund⟩⟩⟩
      · rintro ⟨msg, hmsg⟩
        rw [hund] at hmsg
        exact Outcome.noConfusion hmsg
      · rintro ⟨out, g', hret⟩
        rw [hund] at hret
        exact Outcome.noConfusion hret
      · rintro ⟨_, _, _, _, _, _, hf1, hf2⟩
        exact absurd ⟨hf1, hf2⟩ hfit
  · have hfat : GenerateSimpleNnetTrainingExample rnd lossy num_supervised_frames
        left_context right_context output_dim input_dim ivector_dim eg g
          = .fatal "KALDI_ASSERT: (num_supervised_frames > 0 && left_context >= 0 && right_context >= 0 && output_dim > 0 && input_dim > 0 && example != NULL)" := by
      unfold GenerateSimpleNnetTrainingExample
      rw [if_pos hcond]
    have hinv : num_supervised_frames ≤ 0 ∨ left_context < 0 ∨ right_context < 0
        ∨ output_dim ≤ 0 ∨ input_dim ≤ 0 ∨ eg = none := by
      by_contra hnot
      apply hcond
      simp only [not_or, not_le, not_lt] at hnot
      obtain ⟨h1, h2, h3, h4, h5, h6⟩ := hnot
      refine ⟨h1, h2, h3, h4, h5, ?_⟩
      cases eg with
      | none => exact absurd rfl h6
      | some e => rfl
    have hguard : ¬ (0 < num_supervised_frames ∧ 0 ≤ left_context ∧ 0 ≤ right_context
        ∧ 0 < output_dim ∧ 0 < input_dim ∧ eg ≠ none) := by
      rintro ⟨h1, h2, h3, h4, h5, h6⟩
      apply hcond
      refine ⟨h1, h2, h3, h4, h5, ?_⟩
      cases eg with
      | none => exact absurd rfl h6
      | some e => rfl
    refine ⟨⟨fun _ => hinv, fun _ => ⟨_, hfat⟩⟩, ⟨?_, ?_⟩, ⟨?_, ?_⟩⟩
    · rintro ⟨out, g', hr⟩
      rw [hfat] at hr
      exact Outcome.noConfusion hr
    · rintro ⟨h1, h2, h3, h4, h5, h6, _⟩
      exact absurd ⟨h1, h2, h3, h4, h5, h6⟩ hguard
    · rintro ⟨msg, hr⟩
      rw [hfat] at hr
      exact Outcome.noConfusion hr
    · rintro ⟨h1, h2, h3, h4, h5, h6, _⟩
      exact absurd ⟨h1, h2, h3, h4, h5, h6⟩ hguard

/-! ### The claims on the computation request -/

/-- C13: for every simple network, with the context `(left_context, right_context)` that is
computed for it, and every sequence of draws, `ComputeExampleComputationRequestSimple` returns
a request whose single output `output` lists, for each of the `num_examples` sequences `n`
from `n_offset` on (`1 ≤ num_examples ≤ 10`, `n_offset` 0 or 1), the indexes `(n, t, 0)` for
`t` in `[s, s + L)` with `0 ≤ s ≤ 9` and `1 ≤ L ≤ 10`, and whose input `input` lists for each
such `n` the indexes `(n, t, 0)` for `t` in
`[s - left_context - a, s + L + right_context + b)` with `a`, `b` in `{0, 1, 2}`; when both
contexts are non-negative every frame `t'` with `t - left_context ≤ t' ≤ t + right_context`
that an output frame `t` of a sequence `n` needs is among the input indexes of `n`. -/
theorem ComputeExampleComputationRequestSimple_indexes (nnet : Nnet)
    (request : ComputationRequest) (inputs : List Matrix) (g : RandomState)
    (hsimple : nnet.IsSimpleNnet = true) (hdim : 0 < nnet.InputDim "input") :
    ∃ (req : ComputationRequest) (mats : List Matrix) (g' : RandomState)
      (more_inputs : List (String × List Index)) (a b : Nat),
      ComputeExampleComputationRequestSimple nnet request inputs g = .returned (req, mats, g')
        ∧ (1 ≤ requestNumExamples g ∧ requestNumExamples g ≤ 10)
        ∧ requestNOffset g ≤ 1
        ∧ requestOutputStart g ≤ 9
        ∧ (1 ≤ requestNumOutputFrames g ∧ requestNumOutputFrames g ≤ 10)
        ∧ (a ≤ 2 ∧ b ≤ 2)
        ∧ requestInputStart nnet g = (requestOutputStart g : Int) - nnet.left_context - (a : Int)
        ∧ requestInputEnd nnet g = (requestOutputStart g : Int) + (requestNumOutputFrames g : Int)
            + nnet.right_context + (b : Int)
        ∧ namesAndIndexes req.outputs
          = [("output", batchIndexes (requestNOffset g) (requestNumExamples g)
              (requestOutputStart g) (requestNumOutputFrames g))]
        ∧ namesAndIndexes req.inputs
          = ("input", batchIndexes (requestNOffset g) (requestNumExamples g)
              (requestInputStart nnet g)
              (requestInputEnd nnet g - requestInputStart nnet g).toNat) :: more_inputs
        ∧ (∀ n t x : Int,
            ({ n := n, t := t, x := x } : Index) ∈ batchIndexes (requestNOffset g)
                (requestNumExamples g) (requestOutputStart g) (requestNumOutputFrames g)
              ↔ (requestNOffset g : Int) ≤ n
                ∧ n < (requestNOffset g : Int) + (requestNumExamples g : Int)
                ∧ (requestOutputStart g : Int) ≤ t
                ∧ t < (requestOutputStart g : Int) + (requestNumOutputFrames g : Int) ∧ x = 0)
        ∧ (∀ n t x : Int,
            ({ n := n, t := t, x := x } : Index) ∈ batchIndexes (requestNOffset g)
                (requestNumExamples g) (requestInputStart nnet g)
                (requestInputEnd nnet g - requestInputStart nnet g).toNat
              ↔ (requestNOffset g : Int) ≤ n
                ∧ n < (requestNOffset g : Int) + (requestNumExamples g : Int)
                ∧ requestInputStart nnet g ≤ t ∧ t < requestInputEnd nnet g ∧ x = 0)
        ∧ (0 ≤ nnet.left_context → 0 ≤ nnet.right_context →
            ∀ n t : Int,
              ({ n := n, t := t, x := 0 } : Index) ∈ batchIndexes (requestNOffset g)
                (requestNumExamples g) (requestOutputStart g) (requestNumOutputFrames g) →
              ∀ t' : Int, t - nnet.left_context ≤ t' → t' ≤ t + nnet.right_context →
                ({ n := n, t := t', x := 0 } : Index) ∈ batchIndexes (requestNOffset g)
                  (requestNumExamples g) (requestInputStart nnet g)
                  (requestInputEnd nnet g - requestInputStart nnet g).toNat) := by
  obtain ⟨req, mats, g', hR, hout, hin, _⟩ :=
    ComputeExampleComputationRequestSimple_spec nnet request inputs g hsimple hdim
  have h0 : g.rand 0 % 10 < 10 := Nat.mod_lt _ (by norm_num)
  have h1 : g.rand 1 % 10 < 10 := Nat.mod_lt _ (by norm_num)
  have h2 : g.rand 2 % 10 < 10 := Nat.mod_lt _ (by norm_num)
  have h3 : g.rand 3 % 3 < 3 := Nat.mod_lt _ (by norm_num)
  have h4 : g.rand 4 % 3 < 3 := Nat.mod_lt _ (by norm_num)
  have h5 : g.rand 5 % 2 < 2 := Nat.mod_lt _ (by norm_num)
  have hin_iff : ∀ n t x : Int,
      ({ n := n, t := t, x := x } : Index) ∈ batchIndexes (requestNOffset g)
          (requestNumExamples g) (requestInputStart nnet g)
          (requestInputEnd nnet g - requestInputStart nnet g).toNat
        ↔ (requestNOffset g : Int) ≤ n
          ∧ n < (requestNOffset g : Int) + (requestNumExamples g : Int)
          ∧ requestInputStart nnet g ≤ t ∧ t < requestInputEnd nnet g ∧ x = 0 := by
    intro n t x
    rw [mem_batchIndexes_iff]
    constructor
    · rintro ⟨h1, h2, h3, h4, h5⟩
      exact ⟨h1, h2, h3, by omega, h5⟩
    · rintro ⟨h1, h2, h3, h4, h5⟩
      exact ⟨h1, h2, h3, by omega, h5⟩
  refine ⟨req, mats, g', _, g.rand 3 % 3, g.rand 4 % 3, hR, ?_, ?_, ?_, ?_, ?_, rfl, rfl, hout,
    hin, fun n t x => mem_batchIndexes_iff _ _ _ _ n t x, hin_iff, ?_⟩
  · simp only [requestNumExamples]; omega
  · simp only [requestNOffset]; omega
  · simp only [requestOutputStart]; omega
  · simp only [requestNumOutputFrames]; omega
  · omega
  · intro hl hr n t hmem t' hlo hhi
    rw [mem_batchIndexes_iff] at hmem
    rw [hin_iff]
    obtain ⟨hn1, hn2, ht1, ht2, _⟩ := hmem
    refine ⟨hn1, hn2, ?_, ?_, rfl⟩
    · simp only [requestInputStart]; omega
    · simp only [requestInputEnd]; omega

/-- A witness of the claim on the indexes of a request: for a simple network with an
i-vector input and draws that are all 0, the request has the single output index `(0, 0, 0)`
and the input indexes `(0, t, 0)` for `t` in `[-1, 2)`. -/
theorem ComputeExampleComputationRequestSimple_indexes_witness :
    ∃ (req : ComputationRequest) (mats : List Matrix) (g' : RandomState)
      (more_inputs : List (String × List Index)),
      ComputeExampleComputationRequestSimple simpleNnetWithIvector emptyRequest []
          (RandomState.const 0 0 0) = .returned (req, mats, g')
        ∧ namesAndIndexes req.outputs = [("output", [{ n := 0, t := 0, x := 0 }])]
        ∧ namesAndIndexes req.inputs
          = ("input", [{ n := 0, t := -1, x := 0 }, { n := 0, t := 0, x := 0 },
              { n := 0, t := 1, x := 0 }]) :: more_inputs := by
  obtain ⟨req, mats, g', more_inputs, a, b, hR, _, _, _, _, _, _, _, hout, hin, _⟩ :=
    ComputeExampleComputationRequestSimple_indexes simpleNnetWithIvector emptyRequest []
      (RandomState.const 0 0 0) rfl (by decide)
  exact ⟨req, mats, g', more_inputs, hR, hout, hin⟩

/-- C14: in every request that `ComputeExampleComputationRequestSimple` returns, an input named
`ivector` is present if and only if `InputDim("ivector")` of the network is not -1; when
present it is the second input and its indexes are exactly `(n, 0, 0)` for the sequences
`n = n_offset, ..., n_offset + num_examples - 1`, one per sequence, at time 0, in increasing
`n`; when absent the request has exactly the one input `input`. -/
theorem ComputeExampleComputationRequestSimple_ivector (nnet : Nnet)
    (request : ComputationRequest) (inputs : List Matrix) (g : RandomState)
    (hsimple : nnet.IsSimpleNnet = true) (hdim : 0 < nnet.InputDim "input") :
    ∃ (req : ComputationRequest) (mats : List Matrix) (g' : RandomState),
      ComputeExampleComputationRequestSimple nnet request inputs g = .returned (req, mats, g')
        ∧ ((∃ spec, spec ∈ req.inputs ∧ spec.name = "ivector")
            ↔ nnet.InputDim "ivector" ≠ -1)
        ∧ (nnet.InputDim "ivector" ≠ -1 →
            ∃ input_spec ivector_spec, req.inputs = [input_spec, ivector_spec]
              ∧ input_spec.name = "input" ∧ ivector_spec.name = "ivector"
              ∧ ivector_spec.indexes
                = (List.range (requestNumExamples g)).map (fun (j : Nat) =>
                    ({ n := (requestNOffset g : Int) + (j : Int), t := 0, x := 0 } : Index))
              ∧ ivector_spec.indexes.length = requestNumExamples g
              ∧ ∀ index, index ∈ ivector_spec.indexes → index.t = 0 ∧ index.x = 0)
        ∧ (nnet.InputDim "ivector" = -1 →
            ∃ input_spec, req.inputs = [input_spec] ∧ input_spec.name = "input") := by
  obtain ⟨req, mats, g', hR, _, hin, _⟩ :=
    ComputeExampleComputationRequestSimple_spec nnet request inputs g hsimple hdim
  refine ⟨req, mats, g', hR, ?_⟩
  by_cases hiv : nnet.InputDim "ivector" = -1
  · simp only [hiv, ne_eq, not_true_eq_false, if_false] at hin
    obtain ⟨spec, hspecs, hname, _⟩ := namesAndIndexes_eq_singleton hin
    refine ⟨?_, fun h => absurd hiv h, fun _ => ⟨spec, hspecs, hname⟩⟩
    constructor
    · rintro ⟨spec', hmem, hn'⟩
      rw [hspecs, List.mem_singleton] at hmem
      rw [hmem, hname] at hn'
      exact absurd hn' (by decide)
    · intro h
      exact absurd hiv h
  · simp only [hiv, ne_eq, not_false_eq_true, if_true] at hin
    obtain ⟨spec1, spec2, hspecs, hname1, _, hname2, hidx2⟩ := namesAndIndexes_eq_pair hin
    refine ⟨⟨fun _ => hiv, fun _ => ⟨spec2, by simp [hspecs], hname2⟩⟩, ?_,
      fun h => absurd h hiv⟩
    intro _
    refine ⟨spec1, spec2, hspecs, hname1, hname2, hidx2, by simp [hidx2], ?_⟩
    intro index hmem
    rw [hidx2, List.mem_map] at hmem
    obtain ⟨j, _, rfl⟩ := hmem
    exact ⟨rfl, rfl⟩

/-- A witness of the claim on the i-vector input: for a simple network with an i-vector input
and draws that are all 0, the request has the two inputs `input` and `ivector`, the second
with the single index `(0, 0, 0)`. -/
theorem ComputeExampleComputationRequestSimple_ivector_witness :
    ∃ (req : ComputationRequest) (mats : List Matrix) (g' : RandomState)
      (input_spec ivector_spec : IoSpecification),
      ComputeExampleComputationRequestSimple simpleNnetWithIvector emptyRequest []
          (RandomState.const 0 0 0) = .returned (req, mats, g')
        ∧ req.inputs = [input_spec, ivector_spec]
        ∧ input_spec.name = "input" ∧ ivector_spec.name = "ivector"
        ∧ ivector_spec.indexes = [{ n := 0, t := 0, x := 0 }] := by
  obtain ⟨req, mats, g', hR, _, hiv, _⟩ :=
    ComputeExampleComputationRequestSimple_ivector simpleNnetWithIvector emptyRequest []
      (RandomState.const 0 0 0) rfl (by decide)
  obtain ⟨input_spec, ivector_spec, hspecs, hn1, hn2, hidx, _, _⟩ := hiv (by decide)
  exact ⟨req, mats, g', input_spec, ivector_spec, hR, hspecs, hn1, hn2, hidx⟩

/-- C15: the matrices that `ComputeExampleComputationRequestSimple` produces match the request
in shape.  For every simple network with non-negative left and right context, whose
`InputDim("ivector")` is -1 or a dimension, there are as many matrices as inputs of the
request, and at every position the matrix has as many rows as the input has indexes and as
many columns as `InputDim` of the name of the input: for `input`,
`(input_end_frame - input_start_frame) * num_examples` rows; for `ivector`, `num_examples`
rows. -/
theorem ComputeExampleComputationRequestSimple_shapes (nnet : Nnet)
    (request : ComputationRequest) (inputs : List Matrix) (g : RandomState)
    (hsimple : nnet.IsSimpleNnet = true) (hdim : 0 < nnet.InputDim "input")
    (hl : 0 ≤ nnet.left_context) (hr : 0 ≤ nnet.right_context)
    (hivector : -1 ≤ nnet.InputDim "ivector") :
    ∃ (req : ComputationRequest) (mats : List Matrix) (g' : RandomState),
      ComputeExampleComputationRequestSimple nnet request inputs g = .returned (req, mats, g')
        ∧ mats.length = req.inputs.length
        ∧ (∀ (i : Nat) (spec : IoSpecification) (m : Matrix),
            req.inputs[i]? = some spec → mats[i]? = some m →
            m.num_rows = spec.indexes.length ∧ (m.num_cols : Int) = nnet.InputDim spec.name)
        ∧ (∀ (i : Nat) (spec : IoSpecification) (m : Matrix),
            req.inputs[i]? = some spec → mats[i]? = some m → spec.name = "input" →
            (m.num_rows : Int)
              = (requestInputEnd nnet g - requestInputStart nnet g)
                  * (requestNumExamples g : Int))
        ∧ (∀ (i : Nat) (spec : IoSpecification) (m : Matrix),
            req.inputs[i]? = some spec → mats[i]? = some m → spec.name = "ivector" →
            m.num_rows = requestNumExamples g) := by
  obtain ⟨req, mats, g', hR, _, hin, hshape⟩ :=
    ComputeExampleComputationRequestSimple_spec nnet request inputs g hsimple hdim
  have h3 : g.rand 3 % 3 < 3 := Nat.mod_lt _ (by norm_num)
  have h4 : g.rand 4 % 3 < 3 := Nat.mod_lt _ (by norm_num)
  have hwin : 0 ≤ requestInputEnd nnet g - requestInputStart nnet g := by
    simp only [requestInputEnd, requestInputStart, requestNumOutputFrames]
    omega
  have hrows : (((requestInputEnd nnet g - requestInputStart nnet g)
      * (requestNumExamples g : Int)).toNat : Int)
      = (requestInputEnd nnet g - requestInputStart nnet g) * (requestNumExamples g : Int) :=
    Int.toNat_of_nonneg (mul_nonneg hwin (Int.ofNat_nonneg _))
  have hrowsNat : ((requestInputEnd nnet g - requestInputStart nnet g)
      * (requestNumExamples g : Int)).toNat
      = requestNumExamples g * (requestInputEnd nnet g - requestInputStart nnet g).toNat := by
    have hcast : (((requestInputEnd nnet g - requestInputStart nnet g)
        * (requestNumExamples g : Int)).toNat : Int)
        = ((requestNumExamples g
            * (requestInputEnd nnet g - requestInputStart nnet g).toNat : Nat) : Int) := by
      rw [hrows]
      push_cast
      rw [Int.toNat_of_nonneg hwin]
      ring
    exact_mod_cast hcast
  have hcols : (((nnet.InputDim "input").toNat : Nat) : Int) = nnet.InputDim "input" :=
    Int.toNat_of_nonneg (by omega)
  refine ⟨req, mats, g', hR, ?_⟩
  by_cases hiv : nnet.InputDim "ivector" = -1
  · simp only [hiv, ne_eq, not_true_eq_false, if_false] at hin hshape
    obtain ⟨spec, hspecs, hname, hidx⟩ := namesAndIndexes_eq_singleton hin
    obtain ⟨m, hmats, hmr, hmc⟩ := shapes_eq_singleton hshape
    have hone : ∀ (i : Nat) (spec' : IoSpecification) (m' : Matrix),
        req.inputs[i]? = some spec' → mats[i]? = some m' → spec' = spec ∧ m' = m := by
      intro i spec' m' hs hm
      rw [hspecs] at hs
      rw [hmats] at hm
      cases i with
      | zero =>
        simp only [List.getElem?_cons_zero, Option.some.injEq] at hs hm
        exact ⟨hs.symm, hm.symm⟩
      | succ i => simp at hs
    refine ⟨by rw [hspecs, hmats]; rfl, ?_, ?_, ?_⟩
    · intro i spec' m' hs hm
      obtain ⟨rfl, rfl⟩ := hone i spec' m' hs hm
      refine ⟨?_, ?_⟩
      · rw [hmr, hidx, batchIndexes_length, hrowsNat]
      · rw [hmc, hname, hcols]
    · intro i spec' m' hs hm _
      obtain ⟨rfl, rfl⟩ := hone i spec' m' hs hm
      rw [hmr, hrows]
    · intro i spec' m' hs hm hn
      obtain ⟨rfl, rfl⟩ := hone i spec' m' hs hm
      rw [hname] at hn
      exact absurd hn (by decide)
  · simp only [hiv, ne_eq, not_false_eq_true, if_true] at hin hshape
    obtain ⟨spec1, spec2, hspecs, hname1, hidx1, hname2, hidx2⟩ := namesAndIndexes_eq_pair hin
    obtain ⟨m1, m2, hmats, hmr1, hmc1, hmr2, hmc2⟩ := shapes_eq_pair hshape
    have hcols2 : (((nnet.InputDim "ivector").toNat : Nat) : Int) = nnet.InputDim "ivector" :=
      Int.toNat_of_nonneg (by omega)
    have htwo : ∀ (i : Nat) (spec' : IoSpecification) (m' : Matrix),
        req.inputs[i]? = some spec' → mats[i]? = some m' →
        (spec' = spec1 ∧ m' = m1) ∨ (spec' = spec2 ∧ m' = m2) := by
      intro i spec' m' hs hm
      rw [hspecs] at hs
      rw [hmats] at hm
      cases i with
      | zero =>
        simp only [List.getElem?_cons_zero, Option.some.injEq] at hs hm
        exact Or.inl ⟨hs.symm, hm.symm⟩
      | succ i =>
        cases i with
        | zero =>
          simp only [List.getElem?_cons_succ, List.getElem?_cons_zero,
            Option.some.injEq] at hs hm
          exact Or.inr ⟨hs.symm, hm.symm⟩
        | succ i => simp at hs
    refine ⟨by rw [hspecs, hmats]; rfl, ?_, ?_, ?_⟩
    · intro i spec' m' hs hm
      rcases htwo i spec' m' hs hm with ⟨rfl, rfl⟩ | ⟨rfl, rfl⟩
      · refine ⟨?_, ?_⟩
        · rw [hmr1, hidx1, batchIndexes_length, hrowsNat]
        · rw [hmc1, hname1, hcols]
      · refine ⟨?_, ?_⟩
        · rw [hmr2, hidx2]; simp
        · rw [hmc2, hname2, hcols2]
    · intro i spec' m' hs hm hn
      rcases htwo i spec' m' hs hm with ⟨rfl, rfl⟩ | ⟨rfl, rfl⟩
      · rw [hmr1, hrows]
      · rw [hname2] at hn
        exact absurd hn (by decide)
    · intro i spec' m' hs hm hn
      rcases htwo i spec' m' hs hm with ⟨rfl, rfl⟩ | ⟨rfl, rfl⟩
      · rw [hname1] at hn
        exact absurd hn (by decide)
      · exact hmr2

/-- A witness of the claim on the shapes: for a simple network with an input of dimension 20
and an i-vector input of dimension 10 and draws that are all 0, there are two matrices. -/
theorem ComputeExampleComputationRequestSimple_shapes_witness :
    ∃ (req : ComputationRequest) (mats : List Matrix) (g' : RandomState),
      ComputeExampleComputationRequestSimple simpleNnetWithIvector emptyRequest []
          (RandomState.const 0 0 0) = .returned (req, mats, g')
        ∧ mats.length = req.inputs.length
        ∧ shapes mats = [(3, 20), (1, 10)] := by
  obtain ⟨req, mats, g', hR, hlen, _⟩ :=
    ComputeExampleComputationRequestSimple_shapes simpleNnetWithIvector emptyRequest []
      (RandomState.const 0 0 0) rfl (by decide) (by decide) (by decide) (by decide)
  refine ⟨req, mats, g', hR, hlen, ?_⟩
  have hR' : ComputeExampleComputationRequestSimple simpleNnetWithIvector emptyRequest []
      (RandomState.const 0 0 0) = .returned (req, mats, g') := hR
  obtain ⟨req2, mats2, g2, hR2, _, _, hshape⟩ :=
    ComputeExampleComputationRequestSimple_spec simpleNnetWithIvector emptyRequest []
      (RandomState.const 0 0 0) rfl (by decide)
  rw [hR2] at hR'
  have hm : mats2 = mats := by
    have := Outcome.returned.inj hR'
    exact (Prod.mk.inj (Prod.mk.inj this).2).1
  rw [← hm, hshape]
  rfl

/-! ### The comparators -/

theorem ApproxEqual_iff (feat1 feat2 : Matrix) (delta : ℚ) :
    ApproxEqual feat1 feat2 delta = true
      ↔ feat1.num_rows = feat2.num_rows ∧ feat1.num_cols = feat2.num_cols
        ∧ ∀ r, r < feat1.num_rows → ∀ c, c < feat1.num_cols →
            |feat1.entry r c - feat2.entry r c| ≤ delta := by
  simp [ApproxEqual]

theorem ApproxEqual_refl (feat : Matrix) (delta : ℚ) (h : 0 ≤ delta) :
    ApproxEqual feat feat delta = true := by
  rw [ApproxEqual_iff]
  refine ⟨rfl, rfl, ?_⟩
  intro r _ c _
  simpa using h

/-- The loop of lines 490-499 on two lists of blocks of one length: it returns true exactly
when at every position the names are equal, the index lists are equal and the comparison of
the decompressed matrices succeeds. -/
theorem blocksApproxEqual_iff (approxEqual : Matrix → Matrix → ℚ → Bool) (delta : ℚ) :
    ∀ (l1 l2 : List NnetIo), l1.length = l2.length →
      (blocksApproxEqual approxEqual delta l1 l2 = true
        ↔ ∀ (i : Nat) (io1 io2 : NnetIo), l1[i]? = some io1 → l2[i]? = some io2 →
            io1.name = io2.name ∧ io1.indexes = io2.indexes
              ∧ approxEqual io1.features.GetMatrix io2.features.GetMatrix delta = true) := by
  intro l1
  induction l1 with
  | nil =>
    intro l2 _
    simp [blocksApproxEqual]
  | cons a rest ih =>
    intro l2 hlen
    cases l2 with
    | nil => simp at hlen
    | cons b rest2 =>
      have hlen' : rest.length = rest2.length := by simpa using hlen
      constructor
      · intro h i io1 io2 h1 h2
        by_cases hne : a.name ≠ b.name ∨ a.indexes ≠ b.indexes
        · simp [blocksApproxEqual, hne] at h
        · have hname : a.name = b.name := by
            by_contra hn; exact hne (Or.inl hn)
          have hidx : a.indexes = b.indexes := by
            by_contra hn; exact hne (Or.inr hn)
          cases hap : approxEqual a.features.GetMatrix b.features.GetMatrix delta with
          | false => simp [blocksApproxEqual, hname, hidx, hap] at h
          | true =>
            have hrest : blocksApproxEqual approxEqual delta rest rest2 = true := by
              simpa [blocksApproxEqual, hname, hidx, hap] using h
            cases i with
            | zero =>
              simp only [List.getElem?_cons_zero, Option.some.injEq] at h1 h2
              subst h1 h2
              exact ⟨hname, hidx, hap⟩
            | succ i =>
              simp only [List.getElem?_cons_succ] at h1 h2
              exact (ih rest2 hlen').1 hrest i io1 io2 h1 h2
      · intro h
        obtain ⟨hname, hidx, hap⟩ := h 0 a b (by simp) (by simp)
        have hrest : blocksApproxEqual approxEqual delta rest rest2 = true := by
          apply (ih rest2 hlen').2
          intro i io1 io2 h1 h2
          exact h (i + 1) io1 io2 (by simpa using h1) (by simpa using h2)
        simp [blocksApproxEqual, hname, hidx, hap, hrest]

/-- C16: with the comparison of matrices that the specification describes (element-wise, within
the absolute tolerance `delta`), `ExampleApproxEqual(eg1, eg2, delta)` returns true if and only
if `eg1.io` and `eg2.io` have the same number of blocks and at every position `i` the two
blocks have equal names, equal index lists and decompressed feature matrices that are
element-wise equal within `delta`. -/
theorem ExampleApproxEqual_iff (eg1 eg2 : NnetExample) (delta : ℚ) :
    ExampleApproxEqual ApproxEqual eg1 eg2 delta = true
      ↔ eg1.io.length = eg2.io.length
        ∧ ∀ (i : Nat) (io1 io2 : NnetIo), eg1.io[i]? = some io1 → eg2.io[i]? = some io2 →
            io1.name = io2.name ∧ io1.indexes = io2.indexes
              ∧ io1.features.GetMatrix.num_rows = io2.features.GetMatrix.num_rows
              ∧ io1.features.GetMatrix.num_cols = io2.features.GetMatrix.num_cols
              ∧ ∀ r, r < io1.features.GetMatrix.num_rows →
                  ∀ c, c < io1.features.GetMatrix.num_cols →
                    |io1.features.GetMatrix.entry r c - io2.features.GetMatrix.entry r c|
                      ≤ delta := by
  unfold ExampleApproxEqual
  by_cases hlen : eg1.io.length = eg2.io.length
  · rw [if_neg (not_not.2 hlen), blocksApproxEqual_iff ApproxEqual delta _ _ hlen]
    constructor
    · intro h
      refine ⟨hlen, ?_⟩
      intro i io1 io2 h1 h2
      obtain ⟨hn, hi, hap⟩ := h i io1 io2 h1 h2
      exact ⟨hn, hi, (ApproxEqual_iff _ _ _).1 hap⟩
    · rintro ⟨_, h⟩ i io1 io2 h1 h2
      obtain ⟨hn, hi, hap⟩ := h i io1 io2 h1 h2
      exact ⟨hn, hi, (ApproxEqual_iff _ _ _).2 hap⟩
  · rw [if_pos hlen]
    constructor
    · intro h; exact absurd h (by decide)
    · rintro ⟨h, _⟩; exact absurd h hlen

theorem blocksApproxEqual_refl (approxEqual : Matrix → Matrix → ℚ → Bool) (delta : ℚ)
    (hrefl : ∀ m, approxEqual m m delta = true) :
    ∀ l : List NnetIo, blocksApproxEqual approxEqual delta l l = true := by
  intro l
  induction l with
  | nil => rfl
  | cons a rest ih => simp [blocksApproxEqual, hrefl, ih]

/-- C17: `ExampleApproxEqual` is reflexive on generated examples.  For a comparison of matrices
that finds a matrix equal to itself at every tolerance `delta ≥ 0`, for every example `e` that
`GenerateSimpleNnetTrainingExample` returns, whatever the arguments, the rounding of
`BaseFloat`, the draws and the compression of its blocks, and every `delta ≥ 0`,
`ExampleApproxEqual(e, e, delta)` returns true. -/
theorem ExampleApproxEqual_refl_generated (approxEqual : Matrix → Matrix → ℚ → Bool)
    (hrefl : ∀ m delta, 0 ≤ delta → approxEqual m m delta = true)
    (rnd : ℚ → ℚ) (lossy : Matrix → Matrix)
    (num_supervised_frames left_context right_context output_dim input_dim ivector_dim : Int)
    (eg : Option NnetExample) (g : RandomState) (e : NnetExample) (g' : RandomState)
    (_hgen : GenerateSimpleNnetTrainingExample rnd lossy num_supervised_frames left_context
      right_context output_dim input_dim ivector_dim eg g = .returned (e, g'))
    (delta : ℚ) (hdelta : 0 ≤ delta) :
    ExampleApproxEqual approxEqual e e delta = true := by
  unfold ExampleApproxEqual
  rw [if_neg (not_not.2 rfl)]
  exact blocksApproxEqual_refl approxEqual delta (fun m => hrefl m delta hdelta) e.io

/-- A witness of the claim on reflexivity: the example generated in `float` for
`(3, 2, 2, 50, 20, 10)` compared with itself by the comparison of the specification, at
tolerance one tenth. -/
theorem ExampleApproxEqual_refl_generated_witness :
    ∃ (e : NnetExample) (g' : RandomState),
      GenerateSimpleNnetTrainingExample roundBinary32 id 3 2 2 50 20 10 (some { io := [] })
          (RandomState.drawing [1, 0, 1, 2, 7, 9, 3, 4, 5, 6, 1, 8] (1 / 2 ^ 30))
          = .returned (e, g')
        ∧ ExampleApproxEqual ApproxEqual e e (1 / 10) = true := by
  obtain ⟨e, g', hgen⟩ := GenerateSimpleNnetTrainingExample_returns roundBinary32 id
    3 2 2 50 20 10 { io := [] }
    (RandomState.drawing [1, 0, 1, 2, 7, 9, 3, 4, 5, 6, 1, 8] (1 / 2 ^ 30)) (by norm_num)
    (by norm_num) (by norm_num) (by norm_num) (by norm_num) (by decide) (by decide)
  exact ⟨e, g', hgen,
    ExampleApproxEqual_refl_generated ApproxEqual ApproxEqual_refl roundBinary32 id
      3 2 2 50 20 10 (some { io := [] }) _ e g' hgen (1 / 10) (by norm_num)⟩

theorem BaseFloatOps.max_self {F : Type} (ops : BaseFloatOps F) (a : F) : ops.max a a = a := by
  unfold BaseFloatOps.max
  split_ifs <;> rfl

theorem BaseFloatOps.min_self {F : Type} (ops : BaseFloatOps F) (a : F) : ops.min a a = a := by
  unfold BaseFloatOps.min
  split_ifs <;> rfl

/-- The loop of lines 407-428 on a list of components against itself: it returns true when
for every component with the updatable flag the difference of the self dot product with
itself is not above the threshold times the self dot product. -/
theorem componentsIdentical_refl {F : Type} (ops : BaseFloatOps F) (kUpdatableComponent : Nat)
    (DotProduct : Component → Component → F) (threshold : F) :
    ∀ l : List Component,
      (∀ c ∈ l, c.Properties &&& kUpdatableComponent ≠ 0 →
        c.updatable = true
          ∧ ops.lt (ops.mul threshold (DotProduct c c))
              (ops.sub (DotProduct c c) (DotProduct c c)) = false) →
      componentsIdentical ops kUpdatableComponent DotProduct threshold l l
        = .returned true := by
  intro l
  induction l with
  | nil => intro _; rfl
  | cons a rest ih =>
    intro h
    have hrest := ih (fun c hc => h c (List.mem_cons_of_mem _ hc))
    by_cases hflag : a.Properties &&& kUpdatableComponent ≠ 0
    · obtain ⟨hup, hdot⟩ := h a (List.mem_cons_self _ _) hflag
      unfold componentsIdentical
      simp only [ne_eq, not_true_eq_false, if_false, hflag, not_false_eq_true, if_true, hup,
        and_self, BaseFloatOps.max_self, BaseFloatOps.min_self, hdot, Bool.false_eq_true]
      exact hrest
    · unfold componentsIdentical
      simp only [ne_eq, not_true_eq_false, if_false]
      rw [if_neg hflag]
      exact hrest

/-- C18: `NnetParametersAreIdentical` is reflexive.  In the arithmetic of `BaseFloat` on finite
values, for every rounding `rnd` that leaves 0 as it is and gives a value that is not negative
for one that is not negative, for a network in which every component with the updatable flag
is an updatable component whose dot product with itself is not negative, and for every
`threshold ≥ 0`, `NnetParametersAreIdentical(n, n, threshold)` returns true. -/
theorem NnetParametersAreIdentical_refl (rnd : ℚ → ℚ) (hzero : rnd 0 = 0)
    (hnonneg : ∀ x, 0 ≤ x → 0 ≤ rnd x) (kUpdatableComponent : Nat)
    (DotProduct : Component → Component → ℚ) (nnet : Nnet) (threshold : ℚ)
    (hthreshold : 0 ≤ threshold)
    (hself : ∀ c ∈ nnet.components, c.Properties &&& kUpdatableComponent ≠ 0 →
      c.updatable = true ∧ 0 ≤ DotProduct c c) :
    NnetParametersAreIdentical (roundedOps rnd) kUpdatableComponent DotProduct nnet nnet
      threshold = .returned true := by
  unfold NnetParametersAreIdentical
  rw [if_neg (not_not.2 rfl)]
  apply componentsIdentical_refl
  intro c hc hflag
  obtain ⟨hup, hdot⟩ := hself c hc hflag
  refine ⟨hup, ?_⟩
  have h := hnonneg (threshold * DotProduct c c) (mul_nonneg hthreshold hdot)
  simp only [roundedOps, sub_self, hzero, decide_eq_false_iff_not, not_lt]
  exact h

/-- A witness of the claim on reflexivity: the network of three components in `float`, with the
updatable flag 2 and the default threshold `1e-5`, rounded to `float`. -/
theorem NnetParametersAreIdentical_refl_witness :
    NnetParametersAreIdentical (roundedOps roundBinary32) 2 maskDotProduct threeComponentNnet
      threeComponentNnet (roundBinary32 (1 / 100000)) = .returned true :=
  NnetParametersAreIdentical_refl roundBinary32 roundBinary32_zero
    (fun _ h => roundBinary32_nonneg h) 2 maskDotProduct threeComponentNnet
    (roundBinary32 (1 / 100000)) (roundBinary32_nonneg (by norm_num))
    (by
      intro c hc _
      simp only [threeComponentNnet, List.mem_cons, List.mem_singleton, List.mem_nil_iff,
        or_false] at hc
      rcases hc with rfl | rfl | rfl
      · exact absurd rfl (by assumption)
      · exact ⟨rfl, by norm_num [maskDotProduct]⟩
      · exact absurd rfl (by assumption))

theorem sizeDraws_succ (g : RandomState) (k : Nat) :
    sizeDraws g (k + 1) = g.randInt 0 1 5 :: sizeDraws (g.afterRandInt 1) k := by
  simp [sizeDraws, List.range_succ_eq_map, Function.comp_def]

theorem sizeDraws_length (g : RandomState) (k : Nat) : (sizeDraws g k).length = k := by
  simp [sizeDraws]

theorem sizeDraws_range (g : RandomState) (hInt : g.RandIntInRange) (k : Nat) :
    ∀ s ∈ sizeDraws g k, 1 ≤ s ∧ s ≤ 5 := by
  intro s hs
  simp only [sizeDraws, List.mem_map, List.mem_range] at hs
  obtain ⟨j, _, rfl⟩ := hs
  exact hInt j 1 5 (by decide)

/-- The loop of lines 363-367 writes the values it draws, separated by commas. -/
theorem sizesLoop_eq (num_groups : Int) : ∀ (k : Nat) (i : Int) (os : String)
    (g : RandomState), i + k = num_groups →
    forLoop (sizesStep num_groups) k i (os, g)
      = (os ++ commaSeparated ((sizeDraws g k).map toString), g.afterRandInt k) := by
  intro k
  induction k with
  | zero =>
    intro i os g _
    simp [forLoop, sizeDraws, commaSeparated, String.ext_iff]
  | succ k ih =>
    intro i os g h
    cases k with
    | zero =>
      have hlt : ¬ (i + 1 < num_groups) := by push_cast at h; omega
      simp [forLoop, sizesStep, hlt, sizeDraws, commaSeparated]
    | succ k =>
      have hlt : i + 1 < num_groups := by push_cast at h; omega
      have hlen : i + 1 + ((k + 1 : Nat) : Int) = num_groups := by push_cast at h ⊢; omega
      rw [forLoop]
      simp only [sizesStep, hlt, if_true, RandInt_fst, RandInt_snd]
      rw [ih (i + 1) _ _ hlen, sizeDraws_succ g (k + 1), sizeDraws_succ (g.afterRandInt 1) k]
      simp [commaSeparated, String.ext_iff, Nat.add_comm]

theorem sizesRange_eq (num_groups : Int) (h : 0 ≤ num_groups) (os : String) (g : RandomState) :
    forRange 0 num_groups (sizesStep num_groups) (os, g)
      = (os ++ commaSeparated ((sizeDraws g num_groups.toNat).map toString),
          g.afterRandInt num_groups.toNat) := by
  unfold forRange
  have hk : (num_groups - 0).toNat = num_groups.toNat := by simp
  rw [hk]
  exact sizesLoop_eq num_groups num_groups.toNat 0 os g (by omega)

/-- The result of `GenerateRandomComponentConfig` on a type draw in `0..13`. -/
theorem GenerateRandomComponentConfig_eq (g : RandomState)
    (h0 : 0 ≤ g.randInt 0 0 13) (h13 : g.randInt 0 0 13 ≤ 13)
    (hgroups : 0 ≤ g.randInt 1 1 50) :
    GenerateRandomComponentConfig g
      = .returned (componentTypeNames.getD (g.randInt 0 0 13).toNat "",
          randomComponentParams g, g.afterRandInt (randomComponentDraws g)) := by
  by_cases h11 : g.randInt 0 0 13 = 11
  · unfold GenerateRandomComponentConfig
    simp only [RandInt_fst, RandInt_snd, afterRandInt_randInt, afterRandInt_afterRandInt, h11]
    rw [sizesRange_eq _ (by simpa using hgroups)]
    simp [randomComponentParams, randomComponentDraws, componentTypeNames, h11,
      String.ext_iff, Nat.add_comm]
  · have hcases : g.randInt 0 0 13 = 0 ∨ g.randInt 0 0 13 = 1 ∨ g.randInt 0 0 13 = 2
        ∨ g.randInt 0 0 13 = 3 ∨ g.randInt 0 0 13 = 4 ∨ g.randInt 0 0 13 = 5
        ∨ g.randInt 0 0 13 = 6 ∨ g.randInt 0 0 13 = 7 ∨ g.randInt 0 0 13 = 8
        ∨ g.randInt 0 0 13 = 9 ∨ g.randInt 0 0 13 = 10 ∨ g.randInt 0 0 13 = 12
        ∨ g.randInt 0 0 13 = 13 := by omega
    rcases hcases with h | h | h | h | h | h | h | h | h | h | h | h | h <;>
      simp [GenerateRandomComponentConfig, randomComponentParams, randomComponentDraws,
        componentTypeNames, h, String.ext_iff]

theorem clamped_RandIntInRange (ds : List Int) : (RandomState.clamped ds).RandIntInRange := by
  intro k lo hi h
  exact ⟨le_max_left _ _, max_le h (min_le_left _ _)⟩

/-- The text of a value in `[1, 5]` is one character, and not a comma. -/
theorem sizeText_single (s : Int) (h1 : 1 ≤ s) (h5 : s ≤ 5) :
    ∃ c : Char, c ≠ ',' ∧ (toString s).data = [c] := by
  obtain rfl | rfl | rfl | rfl | rfl : s = 1 ∨ s = 2 ∨ s = 3 ∨ s = 4 ∨ s = 5 := by omega
  · exact ⟨'1', by decide, by decide⟩
  · exact ⟨'2', by decide, by decide⟩
  · exact ⟨'3', by decide, by decide⟩
  · exact ⟨'4', by decide, by decide⟩
  · exact ⟨'5', by decide, by decide⟩

/-- The comma-separated text of a non-empty list of values in `[1, 5]` begins and ends with a
character that is not a comma. -/
theorem commaSeparated_ends : ∀ (l : List Int), l ≠ [] → (∀ s ∈ l, 1 ≤ s ∧ s ≤ 5) →
    ∃ c d : Char, c ≠ ',' ∧ d ≠ ','
      ∧ (commaSeparated (l.map toString)).data.head? = some c
      ∧ (commaSeparated (l.map toString)).data.getLast? = some d := by
  intro l
  induction l with
  | nil => intro h _; exact absurd rfl h
  | cons a rest ih =>
    intro _ h
    obtain ⟨c, hc, hdata⟩ := sizeText_single a (h a (List.mem_cons_self _ _)).1
      (h a (List.mem_cons_self _ _)).2
    cases rest with
    | nil =>
      exact ⟨c, c, hc, hc, by simp [commaSeparated, hdata], by simp [commaSeparated, hdata]⟩
    | cons b rest =>
      obtain ⟨_, d, _, hd, _, hlast⟩ := ih (by simp)
        (fun s hs => h s (List.mem_cons_of_mem _ hs))
      refine ⟨c, d, hc, hd, ?_, ?_⟩
      · simp [commaSeparated, hdata]
      · simp only [List.map_cons] at hlast
        have hcons : ∀ (X : List Char) (x : Char), X.getLast? = some d →
            (x :: X).getLast? = some d := by
          intro X x hX
          cases X with
          | nil => simp at hX
          | cons y ys => rw [List.getLast?_cons_cons]; exact hX
        have htext : (commaSeparated (List.map toString (a :: b :: rest))).data
            = c :: ',' :: (commaSeparated (toString b :: List.map toString rest)).data := by
          simp [commaSeparated, hdata]
        rw [htext]
        exact hcons _ _ (hcons _ _ hlast)

set_option maxRecDepth 8000 in
/-- C20: for a generator that keeps the contract of `RandInt` (so the type draw `n` is in
`0..13` and every later draw is in its range), `GenerateRandomComponentConfig` returns the
`n`-th of 14 pairwise distinct component type names together with a parameter string of the
structure of that type: for `PnormComponent` (`n = 0`) `input-dim = output-dim * group_size`
with `1 ≤ output-dim ≤ 50` and `1 ≤ group_size ≤ 15`; for `n` in `1..7` one `dim` in `[1, 50]`;
for `n` in `8..10` an `input-dim` and an `output-dim` in `[1, 50]`; for `SumGroupComponent`
(`n = 11`) `sizes=` followed by the comma-separated list of between 1 and 50 integers, each in
`[1, 5]`, with no leading and no trailing comma; for `n` in `12..13` one `dim` in `[1, 100]`.
Every dimension written is positive. -/
theorem GenerateRandomComponentConfig_structure (g : RandomState) (hInt : g.RandIntInRange) :
    ∃ (component_type config : String) (g' : RandomState),
      GenerateRandomComponentConfig g = .returned (component_type, config, g')
        ∧ componentTypeNames.length = 14 ∧ componentTypeNames.Nodup
        ∧ 0 ≤ g.randInt 0 0 13 ∧ g.randInt 0 0 13 ≤ 13
        ∧ componentTypeNames[(g.randInt 0 0 13).toNat]? = some component_type
        ∧ (g.randInt 0 0 13 = 0 → ∃ output_dim group_size : Int,
            1 ≤ output_dim ∧ output_dim ≤ 50 ∧ 1 ≤ group_size ∧ group_size ≤ 15
              ∧ 0 < output_dim * group_size ∧ output_dim ∣ output_dim * group_size
              ∧ config = "input-dim=" ++ toString (output_dim * group_size)
                  ++ " output-dim=" ++ toString output_dim)
        ∧ (1 ≤ g.randInt 0 0 13 ∧ g.randInt 0 0 13 ≤ 7 → ∃ dim : Int,
            1 ≤ dim ∧ dim ≤ 50 ∧ config = "dim=" ++ toString dim)
        ∧ (8 ≤ g.randInt 0 0 13 ∧ g.randInt 0 0 13 ≤ 10 → ∃ input_dim output_dim : Int,
            1 ≤ input_dim ∧ input_dim ≤ 50 ∧ 1 ≤ output_dim ∧ output_dim ≤ 50
              ∧ config = "input-dim=" ++ toString input_dim
                  ++ " output-dim=" ++ toString output_dim)
        ∧ (g.randInt 0 0 13 = 11 → ∃ sizes : List Int,
            1 ≤ sizes.length ∧ sizes.length ≤ 50 ∧ (∀ s ∈ sizes, 1 ≤ s ∧ s ≤ 5)
              ∧ config = "sizes=" ++ commaSeparated (sizes.map toString)
              ∧ (commaSeparated (sizes.map toString)).data.head? ≠ some ','
              ∧ config.data.getLast? ≠ some ',')
        ∧ (12 ≤ g.randInt 0 0 13 → ∃ dim : Int,
            1 ≤ dim ∧ dim ≤ 100 ∧ config = "dim=" ++ toString dim) := by
  have hn := hInt 0 0 13 (by decide)
  have hd50 := hInt 1 1 50 (by decide)
  have hg15 := hInt 2 1 15 (by decide)
  have ho50 := hInt 2 1 50 (by decide)
  have hd100 := hInt 1 1 100 (by decide)
  refine ⟨_, _, _, GenerateRandomComponentConfig_eq g hn.1 hn.2 (by omega), rfl, by decide,
    hn.1, hn.2, ?_, ?_, ?_, ?_, ?_, ?_⟩
  · have hcases : g.randInt 0 0 13 = 0 ∨ g.randInt 0 0 13 = 1 ∨ g.randInt 0 0 13 = 2
        ∨ g.randInt 0 0 13 = 3 ∨ g.randInt 0 0 13 = 4 ∨ g.randInt 0 0 13 = 5
        ∨ g.randInt 0 0 13 = 6 ∨ g.randInt 0 0 13 = 7 ∨ g.randInt 0 0 13 = 8
        ∨ g.randInt 0 0 13 = 9 ∨ g.randInt 0 0 13 = 10 ∨ g.randInt 0 0 13 = 11
        ∨ g.randInt 0 0 13 = 12 ∨ g.randInt 0 0 13 = 13 := by omega
    rcases hcases with h | h | h | h | h | h | h | h | h | h | h | h | h | h <;>
      (rw [h]; rfl)
  · intro h
    refine ⟨g.randInt 1 1 50, g.randInt 2 1 15, hd50.1, hd50.2, hg15.1, hg15.2,
      mul_pos (by omega) (by omega), Dvd.intro _ rfl, ?_⟩
    simp [randomComponentParams, h]
  · intro h
    have h0 : ¬ g.randInt 0 0 13 = 0 := by omega
    refine ⟨g.randInt 1 1 50, hd50.1, hd50.2, ?_⟩
    simp [randomComponentParams, h0, h]
  · intro h
    have h0 : ¬ g.randInt 0 0 13 = 0 := by omega
    have h1 : ¬ (1 ≤ g.randInt 0 0 13 ∧ g.randInt 0 0 13 ≤ 7) := by omega
    refine ⟨g.randInt 1 1 50, g.randInt 2 1 50, hd50.1, hd50.2, ho50.1, ho50.2, ?_⟩
    simp only [randomComponentParams, h0, h1, h, if_false, if_true, and_self]
  · intro h
    have hlen : (sizeDraws (g.afterRandInt 2) (g.randInt 1 1 50).toNat).length
        = (g.randInt 1 1 50).toNat := sizeDraws_length _ _
    have hrange := sizeDraws_range (g.afterRandInt 2)
      (fun k lo hi hle => hInt (k + 2) lo hi hle) (g.randInt 1 1 50).toNat
    have hne : sizeDraws (g.afterRandInt 2) (g.randInt 1 1 50).toNat ≠ [] := by
      intro he
      rw [he] at hlen
      simp only [List.length_nil] at hlen
      omega
    obtain ⟨c, d, hc, hd, hhead, hlast⟩ := commaSeparated_ends _ hne hrange
    have hcfg : randomComponentParams g = "sizes=" ++ commaSeparated
        ((sizeDraws (g.afterRandInt 2) (g.randInt 1 1 50).toNat).map toString) := by
      simp [randomComponentParams, h]
    refine ⟨sizeDraws (g.afterRandInt 2) (g.randInt 1 1 50).toNat, by omega, by omega,
      hrange, hcfg, ?_, ?_⟩
    · rw [hhead]
      intro he
      exact hc (Option.some.inj he)
    · rw [hcfg, String.data_append, List.getLast?_append, hlast]
      intro he
      exact hd (Option.some.inj he)
  · intro h
    have h0 : ¬ g.randInt 0 0 13 = 0 := by omega
    have h1 : ¬ (1 ≤ g.randInt 0 0 13 ∧ g.randInt 0 0 13 ≤ 7) := by omega
    have h8 : ¬ (8 ≤ g.randInt 0 0 13 ∧ g.randInt 0 0 13 ≤ 10) := by omega
    have h11 : ¬ g.randInt 0 0 13 = 11 := by omega
    refine ⟨g.randInt 1 1 100, hd100.1, hd100.2, ?_⟩
    simp only [randomComponentParams, h0, h1, h8, h11, if_false]

/-- A witness of the claim on random component configs: the generator whose draws are
11, 3, 2, 5 and 1 gives a `SumGroupComponent` with three sizes. -/
theorem GenerateRandomComponentConfig_structure_witness :
    (RandomState.clamped [11, 3, 2, 5, 1]).RandIntInRange
      ∧ ∃ (config : String) (g' : RandomState),
          GenerateRandomComponentConfig (RandomState.clamped [11, 3, 2, 5, 1])
              = .returned ("SumGroupComponent", config, g')
            ∧ ∃ sizes : List Int, 1 ≤ sizes.length ∧ sizes.length ≤ 50
                ∧ (∀ s ∈ sizes, 1 ≤ s ∧ s ≤ 5)
                ∧ config = "sizes=" ++ commaSeparated (sizes.map toString) := by
  have hInt := clamped_RandIntInRange [11, 3, 2, 5, 1]
  obtain ⟨ty, cfg, g', hres, _, _, _, _, hname, _, _, _, hsum, _⟩ :=
    GenerateRandomComponentConfig_structure (RandomState.clamped [11, 3, 2, 5, 1]) hInt
  have hn : (RandomState.clamped [11, 3, 2, 5, 1]).randInt 0 0 13 = 11 := by decide
  rw [hn] at hname
  have hty : ty = "SumGroupComponent" := (Option.some.inj hname).symm
  obtain ⟨sizes, h1, h2, h3, h4, _⟩ := hsum hn
  subst hty
  exact ⟨hInt, cfg, g', hres, sizes, h1, h2, h3, h4⟩

end kaldi.nnet3
